import Mathlib

/-!
# FBI `core/task/dataop.c`: the bulk data-operation worker

A shallow embedding of `source/core/task/dataop.c`.

* `Result` is libctru's `s32`; it is modelled as `Int`, with
  `R_SUCCEEDED res` being `res >= 0` and `R_FAILED res` being `res < 0`.
* `u32` / `u64` fields are `Nat`; the arithmetic the code performs on them is
  reduced modulo `2^32 = 4294967296` / `2^64 = 18446744073709551616` where the
  C code can wrap.
* Everything outside the file (the operation table behind the function
  pointers, the kernel events, the prompts, `osGetTime`, `calloc`) is an
  `Env σ`: each call takes the external world `σ` and returns its outputs
  together with the next world.  Out-parameters are returned next to the
  result code; a callee that does not write one returns the value the caller
  initialised it with.
* The machine carries a ghost `log` of every external call in program order,
  arguments and results included, so that "is never called" / "is called with"
  are statements about the log.
* The two loops (`for` in `task_data_op_thread`, `while` in
  `task_data_op_copy`) take fuel: they return `none` when it runs out.
-/

namespace DataOp

/-! ## Result codes -/

/-- libctru `R_SUCCEEDED(res)`: `(res) >= 0`. -/
abbrev R_SUCCEEDED (res : Int) : Prop := 0 ≤ res

/-- libctru `R_FAILED(res)`: `(res) < 0`. -/
abbrev R_FAILED (res : Int) : Prop := res < 0

/-- Constants of `core/error.h` and `core/ui/prompt.h`, which are not part of
the file; they are parameters of the embedding. -/
structure AppCodes where
  R_APP_CANCELLED : Int
  R_APP_SKIPPED : Int
  R_APP_BAD_DATA : Int
  R_APP_OUT_OF_MEMORY : Int
  R_APP_THREAD_CREATE_FAILED : Int
  R_APP_INVALID_ARGUMENT : Int
  PROMPT_YES : Nat
deriving DecidableEq, Repr

/-! ## Fixed-width arithmetic -/

/-- Addition on `u32`: the sum modulo `2^32`. -/
def u32_add (x y : Nat) : Nat := (x + y) % 4294967296

/-- The decrement `x--` on a `u32`: `x - 1` modulo `2^32`, so `0` wraps to
`2^32 - 1 = 4294967295`. -/
def u32_pred (x : Nat) : Nat := if x = 0 then 4294967295 else x - 1

/-- Addition on `u64`: the sum modulo `2^64`. -/
def u64_add (x y : Nat) : Nat := (x + y) % 18446744073709551616

/-- Subtraction `x - y` on `u64` values (both below `2^64`): the difference
modulo `2^64`. -/
def u64_sub (x y : Nat) : Nat := if y ≤ x then x - y else x + 18446744073709551616 - y

/-- The value of the timeout `U64_MAX`. -/
def U64_MAX : Nat := 18446744073709551615

/-! ## Run state -/

/-- The operation kind of `data_op_data.op`; `other` stands for a value
outside the enumeration, which reaches the `default:` case of the switch. -/
inductive data_op where
  | DATAOP_COPY
  | DATAOP_DELETE
  | other
deriving DecidableEq, Repr

/-- The data fields of `data_op_data` (the function pointers are in `Env`). -/
structure data_op_data where
  op : data_op
  bufferSize : Nat
  copyEmpty : Bool
  processed : Nat
  total : Nat
  currProcessed : Nat
  currTotal : Nat
  bytesPerSecond : Nat
  estimatedRemainingSeconds : Nat
  finished : Bool
  result : Int
  cancelEvent : Nat
  retryResponse : Bool
deriving DecidableEq, Repr

/-! ## The external world -/

/-- What a `svcWaitSynchronization` call waits on. -/
inductive WaitTarget where
  | cancelEvent (handle : Nat)
  | suspendEvent
  | pauseEvent
  | errorViewActive
  | retryViewActive
deriving DecidableEq, Repr

/-- One external call, with its arguments and what it returned. -/
inductive Call where
  | task_is_quit_all (ret : Bool)
  | svcWaitSynchronization (target : WaitTarget) (timeout : Nat) (ret : Int)
  | suspendTransfer (index src dst : Nat) (ret : Int) (srcOut dstOut : Nat)
  | suspend (index : Nat) (ret : Int)
  | restore (index : Nat) (ret : Int)
  | restoreTransfer (index src dst : Nat) (ret : Int) (srcOut dstOut : Nat)
  | isSrcDirectory (index : Nat) (ret : Int) (isDir : Bool)
  | makeDstDirectory (index : Nat) (ret : Int)
  | openSrc (index : Nat) (ret : Int) (handle : Nat)
  | closeSrc (index : Nat) (succeeded : Bool) (handle : Nat) (ret : Int)
  | getSrcSize (handle : Nat) (ret : Int) (size : Nat)
  | readSrc (handle offset size : Nat) (ret : Int) (bytesRead : Nat)
  | openDst (index : Nat) (initialReadBlock : Option (List Nat)) (size : Nat)
      (ret : Int) (handle : Nat)
  | closeDst (index : Nat) (succeeded : Bool) (handle : Nat) (ret : Int)
  | writeDst (handle : Nat) (buffer : List Nat) (offset size : Nat) (ret : Int)
      (bytesWritten : Nat)
  | delete (index : Nat) (ret : Int)
  | error (index : Nat) (res : Int) (proceed : Bool) (hasView : Bool)
  | prompt_display_notify
  | prompt_display_yes_no (hasView : Bool)
  | calloc (size : Nat) (nonNull : Bool)
  | free
  | osGetTime (time : Nat)
  | svcCloseHandle (handle : Nat)
  | aptSetSleepAllowed (allowed : Bool)
  | svcCreateEvent (ret : Int) (handle : Nat)
  | threadCreate (nonNull : Bool)
deriving DecidableEq, Repr

/-- The collaborators of the file over an external world `σ`.  The optional
hooks are the function pointers the code tests against `NULL`. -/
structure Env (σ : Type) where
  task_is_quit_all : σ → Bool × σ
  svcWaitSynchronization : WaitTarget → Nat → σ → Int × σ
  suspendTransfer : Option (Nat → Nat → Nat → σ → Int × Nat × Nat × σ)
  suspend : Option (Nat → σ → Int × σ)
  restore : Option (Nat → σ → Int × σ)
  restoreTransfer : Option (Nat → Nat → Nat → σ → Int × Nat × Nat × σ)
  isSrcDirectory : Nat → σ → Int × Bool × σ
  makeDstDirectory : Nat → σ → Int × σ
  openSrc : Nat → σ → Int × Nat × σ
  closeSrc : Nat → Bool → Nat → σ → Int × σ
  getSrcSize : Nat → σ → Int × Nat × σ
  readSrc : Nat → List Nat → Nat → Nat → σ → Int × Nat × List Nat × σ
  openDst : Nat → Option (List Nat) → Nat → σ → Int × Nat × σ
  closeDst : Nat → Bool → Nat → σ → Int × σ
  writeDst : Nat → List Nat → Nat → Nat → σ → Int × Nat × σ
  delete : Nat → σ → Int × σ
  error : Nat → Int → σ → Bool × Bool × σ
  prompt_display_notify : σ → σ
  prompt_display_yes_no : σ → Bool × σ
  promptResponse : σ → Option Nat
  calloc : Nat → σ → Bool × σ
  free : σ → σ
  osGetTime : σ → Nat × σ
  svcCloseHandle : Nat → σ → σ
  aptSetSleepAllowed : Bool → σ → σ
  svcCreateEvent : σ → Int × Nat × σ
  threadCreate : σ → Bool × σ
  bytesPerSecondOf : Nat → Nat → Nat
  remainingSecondsOf : Nat → Nat → Nat → Nat

/-- The worker's view of the program: the external world, the run state and
the ghost log of external calls made so far (oldest first). -/
structure Machine (σ : Type) where
  world : σ
  data : data_op_data
  log : List Call

/-- Record an external call: move to the world it left and append it to the log. -/
def Machine.emit {σ : Type} (m : Machine σ) (w : σ) (c : Call) : Machine σ :=
  { m with world := w, log := m.log ++ [c] }

/-! ## `task_data_op_check_running` -/

/-- Lines 17-25: the hooks run when a suspend is asserted, before the wait.
`handles` is `none` for `srcHandle == NULL && dstHandle == NULL` and
`some (src, dst)` for pointers to the caller's two handles. -/
def suspendHooks {σ : Type} (E : Env σ) (index : Nat) (handles : Option (Nat × Nat))
    (res : Int) (m : Machine σ) : Int × Option (Nat × Nat) × Machine σ :=
  let r1 : Int × Option (Nat × Nat) × Machine σ :=
    match m.data.op, handles, E.suspendTransfer with
    | data_op.DATAOP_COPY, some (src, dst), some hook =>
      if R_SUCCEEDED res then
        let out := hook index src dst m.world
        (out.1, some (out.2.1, out.2.2.1),
          m.emit out.2.2.2 (Call.suspendTransfer index src dst out.1 out.2.1 out.2.2.1))
      else (res, handles, m)
    | _, _, _ => (res, handles, m)
  match E.suspend with
  | some hook =>
    if R_SUCCEEDED r1.1 then
      let out := hook index r1.2.2.world
      (out.1, r1.2.1, r1.2.2.emit out.2 (Call.suspend index out.1))
    else r1
  | none => r1

/-- Lines 29-37: the hooks run after the wait when a suspend had been asserted. -/
def restoreHooks {σ : Type} (E : Env σ) (index : Nat) (handles : Option (Nat × Nat))
    (res : Int) (m : Machine σ) : Int × Option (Nat × Nat) × Machine σ :=
  let r1 : Int × Option (Nat × Nat) × Machine σ :=
    match E.restore with
    | some hook =>
      if R_SUCCEEDED res then
        let out := hook index m.world
        (out.1, handles, m.emit out.2 (Call.restore index out.1))
      else (res, handles, m)
    | none => (res, handles, m)
  match r1.2.2.data.op, r1.2.1, E.restoreTransfer with
  | data_op.DATAOP_COPY, some (src, dst), some hook =>
    if R_SUCCEEDED r1.1 then
      let out := hook index src dst r1.2.2.world
      (out.1, some (out.2.1, out.2.2.1),
        r1.2.2.emit out.2.2.2 (Call.restoreTransfer index src dst out.1 out.2.1 out.2.2.1))
    else r1
  | _, _, _ => r1

/-- `task_data_op_check_running(data, index, srcHandle, dstHandle)`: returns
`res`, the handles as the hooks left them, and the machine. -/
def task_data_op_check_running {σ : Type} (E : Env σ) (codes : AppCodes) (index : Nat)
    (handles : Option (Nat × Nat)) (m : Machine σ) : Int × Option (Nat × Nat) × Machine σ :=
  let q := E.task_is_quit_all m.world
  let m1 := m.emit q.2 (Call.task_is_quit_all q.1)
  if q.1 then (codes.R_APP_CANCELLED, handles, m1)
  else
    let c := E.svcWaitSynchronization (WaitTarget.cancelEvent m1.data.cancelEvent) 0 m1.world
    let m2 := m1.emit c.2
      (Call.svcWaitSynchronization (WaitTarget.cancelEvent m1.data.cancelEvent) 0 c.1)
    if c.1 = 0 then (codes.R_APP_CANCELLED, handles, m2)
    else
      let s := E.svcWaitSynchronization WaitTarget.suspendEvent 0 m2.world
      let m3 := m2.emit s.2 (Call.svcWaitSynchronization WaitTarget.suspendEvent 0 s.1)
      let suspended : Bool := decide (s.1 ≠ 0)
      let r4 : Int × Option (Nat × Nat) × Machine σ :=
        if suspended then suspendHooks E index handles 0 m3 else (0, handles, m3)
      let p := E.svcWaitSynchronization WaitTarget.pauseEvent U64_MAX r4.2.2.world
      let m5 := r4.2.2.emit p.2 (Call.svcWaitSynchronization WaitTarget.pauseEvent U64_MAX p.1)
      if suspended then restoreHooks E index r4.2.1 r4.1 m5 else (r4.1, r4.2.1, m5)

/-! ## `task_data_op_copy` -/

/-- The variables local to the streaming branch (lines 56, 69-77) and `res`. -/
structure CopyLocals where
  srcHandle : Nat
  dstHandle : Nat
  buffer : List Nat
  ioStartTime : Nat
  lastBytesPerSecondUpdate : Nat
  bytesSinceUpdate : Nat
  firstRun : Bool
  res : Int
deriving DecidableEq, Repr

/-- Lines 59-67, the zero-length source: returns `res`. -/
def copyEmptyFile {σ : Type} (E : Env σ) (codes : AppCodes) (index : Nat) (m : Machine σ) :
    Int × Machine σ :=
  if m.data.copyEmpty then
    let o := E.openDst index none m.data.currTotal m.world
    let m1 := m.emit o.2.2 (Call.openDst index none m.data.currTotal o.1 o.2.1)
    if R_SUCCEEDED o.1 then
      let c := E.closeDst index true o.2.1 m1.world
      (c.1, m1.emit c.2 (Call.closeDst index true o.2.1 c.1))
    else (o.1, m1)
  else (codes.R_APP_BAD_DATA, m)

/-- Lines 101-121: account for the bytes written and sample the estimator. -/
def copyAccount {σ : Type} (E : Env σ) (bytesWritten : Nat) (l : CopyLocals) (m : Machine σ) :
    CopyLocals × Machine σ :=
  let currProcessed := u64_add m.data.currProcessed bytesWritten
  let bytesSinceUpdate := u32_add l.bytesSinceUpdate bytesWritten
  let m1 : Machine σ := { m with data := { m.data with currProcessed := currProcessed } }
  let t := E.osGetTime m1.world
  let m2 := m1.emit t.2 (Call.osGetTime t.1)
  let time := t.1
  let elapsed := u64_sub time l.lastBytesPerSecondUpdate
  if 1000 ≤ elapsed then
    let eta :=
      if l.ioStartTime ≠ 0 then
        E.remainingSecondsOf (u64_sub m2.data.currTotal currProcessed) currProcessed
          (u64_sub time l.ioStartTime)
      else 0
    let m3 : Machine σ :=
      { m2 with data := { m2.data with
          bytesPerSecond := E.bytesPerSecondOf bytesSinceUpdate elapsed
          estimatedRemainingSeconds := eta } }
    let ioStartTime := if l.ioStartTime = 0 ∧ 0 < currProcessed then time else l.ioStartTime
    ({ l with ioStartTime := ioStartTime, bytesSinceUpdate := 0,
              lastBytesPerSecondUpdate := time }, m3)
  else ({ l with bytesSinceUpdate := bytesSinceUpdate }, m2)

/-- Lines 96-121 of the loop body: write the bytes just read, then account for
them; the flag is `true` when the pass left the loop through `break`. -/
def copyChunkWrite {σ : Type} (E : Env σ) (bytesRead : Nat) (l : CopyLocals) (m : Machine σ) :
    CopyLocals × Machine σ × Bool :=
  let wr := E.writeDst l.dstHandle l.buffer m.data.currProcessed bytesRead m.world
  let l4 : CopyLocals := { l with res := wr.1 }
  let m4 := m.emit wr.2.2
    (Call.writeDst l.dstHandle l.buffer m.data.currProcessed bytesRead wr.1 wr.2.1)
  if R_FAILED l4.res then (l4, m4, true)
  else ((copyAccount E wr.2.1 l4 m4).1, (copyAccount E wr.2.1 l4 m4).2, false)

/-- Lines 88-121 of the loop body: on the first pass open the destination with
the first chunk and the total size, then write. -/
def copyChunkOpenDst {σ : Type} (E : Env σ) (index bytesRead : Nat) (l : CopyLocals)
    (m : Machine σ) : CopyLocals × Machine σ × Bool :=
  if l.firstRun then
    let o := E.openDst index (some l.buffer) m.data.currTotal m.world
    let l3 : CopyLocals := { l with firstRun := false, res := o.1, dstHandle := o.2.1 }
    let m3 := m.emit o.2.2 (Call.openDst index (some l.buffer) m.data.currTotal o.1 o.2.1)
    if R_FAILED l3.res then (l3, m3, true) else copyChunkWrite E bytesRead l3 m3
  else copyChunkWrite E bytesRead l m

/-- Lines 83-121 of the loop body: read a chunk at the current offset, then
open (first pass) and write. -/
def copyChunkRead {σ : Type} (E : Env σ) (index : Nat) (l : CopyLocals) (m : Machine σ) :
    CopyLocals × Machine σ × Bool :=
  let rd := E.readSrc l.srcHandle l.buffer m.data.currProcessed m.data.bufferSize m.world
  let l2 : CopyLocals := { l with res := rd.1, buffer := rd.2.2.1 }
  let m2 := m.emit rd.2.2.2
    (Call.readSrc l.srcHandle m.data.currProcessed m.data.bufferSize rd.1 rd.2.1)
  if R_FAILED l2.res then (l2, m2, true) else copyChunkOpenDst E index rd.2.1 l2 m2

/-- Lines 79-121, one pass through the body of the `while` loop; the flag is
`true` when the pass left the loop through `break`. -/
def copyChunk {σ : Type} (E : Env σ) (codes : AppCodes) (index : Nat) (l : CopyLocals)
    (m : Machine σ) : CopyLocals × Machine σ × Bool :=
  let chk := task_data_op_check_running E codes m.data.processed
    (some (l.srcHandle, l.dstHandle)) m
  let hs : Nat × Nat := chk.2.1.getD (l.srcHandle, l.dstHandle)
  let l1 : CopyLocals := { l with res := chk.1, srcHandle := hs.1, dstHandle := hs.2 }
  if R_FAILED l1.res then (l1, chk.2.2, true) else copyChunkRead E index l1 chk.2.2

/-- Lines 78-122, the `while(data->currProcessed < data->currTotal)` loop;
`none` when the fuel runs out before the loop exits. -/
def copyLoop {σ : Type} (E : Env σ) (codes : AppCodes) (index : Nat) :
    Nat → CopyLocals → Machine σ → Option (CopyLocals × Machine σ)
  | 0, _, _ => none
  | fuel + 1, l, m =>
    if m.data.currProcessed < m.data.currTotal then
      let r := copyChunk E codes index l m
      if r.2.2 then some (r.1, r.2.1) else copyLoop E codes index fuel r.1 r.2.1
    else some (l, m)

/-- Lines 124-131: close the destination if `dstHandle != 0`, free the buffer. -/
def copyCloseDst {σ : Type} (E : Env σ) (index : Nat) (l : CopyLocals) (m : Machine σ) :
    CopyLocals × Machine σ :=
  let r : CopyLocals × Machine σ :=
    if l.dstHandle ≠ 0 then
      let c := E.closeDst index (decide (l.res = 0)) l.dstHandle m.world
      let m1 := m.emit c.2 (Call.closeDst index (decide (l.res = 0)) l.dstHandle c.1)
      if R_SUCCEEDED l.res then ({ l with res := c.1 }, m1) else (l, m1)
    else (l, m)
  (r.1, r.2.emit (E.free r.2.world) Call.free)

/-- Lines 69-134, the non-empty source: returns `res` and `srcHandle`. -/
def copyStream {σ : Type} (E : Env σ) (codes : AppCodes) (fuel : Nat) (index srcHandle : Nat)
    (m : Machine σ) : Option (Int × Nat × Machine σ) :=
  let a := E.calloc m.data.bufferSize m.world
  let m1 := m.emit a.2 (Call.calloc m.data.bufferSize a.1)
  if a.1 then
    let t := E.osGetTime m1.world
    let m2 := m1.emit t.2 (Call.osGetTime t.1)
    let l : CopyLocals :=
      { srcHandle := srcHandle, dstHandle := 0, buffer := List.replicate m.data.bufferSize 0,
        ioStartTime := 0, lastBytesPerSecondUpdate := t.1, bytesSinceUpdate := 0,
        firstRun := true, res := 0 }
    match copyLoop E codes index fuel l m2 with
    | none => none
    | some r =>
      let c := copyCloseDst E index r.1 r.2
      some (c.1.res, c.1.srcHandle, c.2)
  else some (codes.R_APP_OUT_OF_MEMORY, srcHandle, m1)

/-- Lines 57-142, from the successful `openSrc` on: size query, transfer,
`closeSrc`. -/
def copyOpened {σ : Type} (E : Env σ) (codes : AppCodes) (fuel : Nat) (index srcHandle : Nat)
    (m : Machine σ) : Option (Int × Machine σ) :=
  let g := E.getSrcSize srcHandle m.world
  let m1 : Machine σ :=
    { (m.emit g.2.2 (Call.getSrcSize srcHandle g.1 g.2.1)) with
      data := { m.data with currTotal := g.2.1 } }
  let body : Option (Int × Nat × Machine σ) :=
    if R_SUCCEEDED g.1 then
      if m1.data.currTotal = 0 then
        let e := copyEmptyFile E codes index m1
        some (e.1, srcHandle, e.2)
      else copyStream E codes fuel index srcHandle m1
    else some (g.1, srcHandle, m1)
  match body with
  | none => none
  | some r =>
    let res := r.1
    let c := E.closeSrc index (decide (res = 0)) r.2.1 r.2.2.world
    let m2 := r.2.2.emit c.2 (Call.closeSrc index (decide (res = 0)) r.2.1 c.1)
    some (if R_SUCCEEDED res then c.1 else res, m2)

/-- `task_data_op_copy(data, index)`: `none` when the fuel of the chunk loop
runs out, otherwise the value returned and the machine. -/
def task_data_op_copy {σ : Type} (E : Env σ) (codes : AppCodes) (fuel : Nat) (index : Nat)
    (m : Machine σ) : Option (Int × Machine σ) :=
  let m0 : Machine σ :=
    { m with data := { m.data with
        currProcessed := 0, currTotal := 0, bytesPerSecond := 0,
        estimatedRemainingSeconds := 0 } }
  let d := E.isSrcDirectory index m0.world
  let m1 := m0.emit d.2.2 (Call.isSrcDirectory index d.1 d.2.1)
  if R_SUCCEEDED d.1 ∧ d.2.1 = true then
    let k := E.makeDstDirectory index m1.world
    some (k.1, m1.emit k.2 (Call.makeDstDirectory index k.1))
  else
    let o := E.openSrc index m1.world
    let m2 := m1.emit o.2.2 (Call.openSrc index o.1 o.2.1)
    if R_SUCCEEDED o.1 then copyOpened E codes fuel index o.2.1 m2 else some (o.1, m2)

/-- `task_data_op_delete(data, index)`. -/
def task_data_op_delete {σ : Type} (E : Env σ) (index : Nat) (m : Machine σ) :
    Int × Machine σ :=
  let r := E.delete index m.world
  (r.1, m.emit r.2 (Call.delete index r.1))

/-! ## `task_data_op_thread` -/

/-- `task_data_op_retry_onresponse(view, data, response)`. -/
def task_data_op_retry_onresponse (codes : AppCodes) (data : data_op_data) (response : Nat) :
    data_op_data :=
  { data with retryResponse := decide (response = codes.PROMPT_YES) }

/-- Lines 160-173: the suspend check at the item boundary, then the item's
operation; returns `res`. -/
def runItem {σ : Type} (E : Env σ) (codes : AppCodes) (fuel : Nat) (m : Machine σ) :
    Option (Int × Machine σ) :=
  let chk := task_data_op_check_running E codes m.data.processed none m
  if R_SUCCEEDED chk.1 then
    match chk.2.2.data.op with
    | data_op.DATAOP_COPY => task_data_op_copy E codes fuel chk.2.2.data.processed chk.2.2
    | data_op.DATAOP_DELETE => some (task_data_op_delete E chk.2.2.data.processed chk.2.2)
    | data_op.other => some (chk.1, chk.2.2)
  else some (chk.1, chk.2.2)

/-- Lines 182-187: call the error handler and wait on its view when it
produced one; returns `proceed`. -/
def callErrorHandler {σ : Type} (E : Env σ) (res : Int) (m : Machine σ) : Bool × Machine σ :=
  let e := E.error m.data.processed res m.world
  let m1 := m.emit e.2.2 (Call.error m.data.processed res e.1 e.2.1)
  if e.2.1 then
    let w := E.svcWaitSynchronization WaitTarget.errorViewActive U64_MAX m1.world
    (e.1, m1.emit w.2 (Call.svcWaitSynchronization WaitTarget.errorViewActive U64_MAX w.1))
  else (e.1, m1)

/-- Lines 189-191: display the retry prompt and, when a view was created, wait
on it; while the worker waits the prompt delivers its response (if any) to
`task_data_op_retry_onresponse`.  Returns `retryView != NULL`. -/
def askRetry {σ : Type} (E : Env σ) (codes : AppCodes) (m : Machine σ) : Bool × Machine σ :=
  let p := E.prompt_display_yes_no m.world
  let m1 := m.emit p.2 (Call.prompt_display_yes_no p.1)
  if p.1 then
    let w := E.svcWaitSynchronization WaitTarget.retryViewActive U64_MAX m1.world
    let m2 := m1.emit w.2 (Call.svcWaitSynchronization WaitTarget.retryViewActive U64_MAX w.1)
    match E.promptResponse m2.world with
    | some response =>
      (true, { m2 with data := task_data_op_retry_onresponse codes m2.data response })
    | none => (true, m2)
  else (false, m1)

/-- Line 195: `data->processed--` on the `u32` cursor. -/
def retryDecrement {σ : Type} (m : Machine σ) : Machine σ :=
  { m with data := { m.data with processed := u32_pred m.data.processed } }

/-- `data->processed = 0`: line 197, and the initialisation of the `for`
statement in line 159. -/
def restartCursor {σ : Type} (m : Machine σ) : Machine σ :=
  { m with data := { m.data with processed := 0 } }

/-- Lines 182-202: the error handler, the retry prompt and the cursor policy;
the flag is `true` when the `break` of line 200 is taken. -/
def retryCoordinator {σ : Type} (E : Env σ) (codes : AppCodes) (res : Int) (m : Machine σ) :
    Machine σ × Bool :=
  let h := callErrorHandler E res m
  let proceed := h.1
  let a := askRetry E codes h.2
  if a.1 then
    if a.2.data.retryResponse then
      if proceed then (retryDecrement a.2, false)
      else (restartCursor a.2, false)
    else if ¬ proceed then (a.2, true)
    else (a.2, false)
  else (a.2, false)

/-- Line 175: `data->result = res`. -/
def storeResult {σ : Type} (res : Int) (m : Machine σ) : Machine σ :=
  { m with data := { m.data with result := res } }

/-- Lines 175-204: store `res` in `data->result` and act on a failure; the flag
is `true` when the iteration leaves the loop through `break`. -/
def handleOutcome {σ : Type} (E : Env σ) (codes : AppCodes) (res : Int) (m : Machine σ) :
    Machine σ × Bool :=
  let m1 := storeResult res m
  if R_FAILED res then
    if res = codes.R_APP_CANCELLED then
      (m1.emit (E.prompt_display_notify m1.world) Call.prompt_display_notify, true)
    else if res ≠ codes.R_APP_SKIPPED then retryCoordinator E codes res m1
    else (m1, false)
  else (m1, false)

/-- Lines 160-204, the body of the `for` loop. -/
def loopBody {σ : Type} (E : Env σ) (codes : AppCodes) (fuel : Nat) (m : Machine σ) :
    Option (Machine σ × Bool) :=
  match runItem E codes fuel m with
  | none => none
  | some r => some (handleOutcome E codes r.1 r.2)

/-- The increment `data->processed++` of the `for` statement (a `u32`). -/
def forIncrement {σ : Type} (m : Machine σ) : Machine σ :=
  { m with data := { m.data with processed := u32_add m.data.processed 1 } }

/-- Lines 159-205 without the initialisation: the `for` loop entered at its
condition `data->processed < data->total`. -/
def threadLoop {σ : Type} (E : Env σ) (codes : AppCodes) :
    Nat → Machine σ → Option (Machine σ)
  | 0, _ => none
  | fuel + 1, m =>
    if m.data.processed < m.data.total then
      match loopBody E codes fuel m with
      | none => none
      | some r => if r.2 then some r.1 else threadLoop E codes fuel (forIncrement r.1)
    else some m

/-- Lines 207-211, what the worker does after the loop. -/
def threadExit {σ : Type} (E : Env σ) (m : Machine σ) : Machine σ :=
  let m1 := m.emit (E.svcCloseHandle m.data.cancelEvent m.world)
    (Call.svcCloseHandle m.data.cancelEvent)
  let m2 : Machine σ := { m1 with data := { m1.data with finished := true } }
  m2.emit (E.aptSetSleepAllowed true m2.world) (Call.aptSetSleepAllowed true)

/-- The rest of the worker from a state of the `for` loop at its condition:
the loop, then lines 207-211. -/
def workerFrom {σ : Type} (E : Env σ) (codes : AppCodes) (fuel : Nat) (m : Machine σ) :
    Option (Machine σ) :=
  (threadLoop E codes fuel m).map (threadExit E)

/-- `task_data_op_thread(arg)`: `none` when the fuel runs out. -/
def task_data_op_thread {σ : Type} (E : Env σ) (codes : AppCodes) (fuel : Nat)
    (m : Machine σ) : Option (Machine σ) :=
  workerFrom E codes fuel (restartCursor m)

/-- The index the `for` loop executes when its condition is evaluated in `m`;
`none` when the condition is false and the loop exits. -/
def nextItem {σ : Type} (m : Machine σ) : Option Nat :=
  if m.data.processed < m.data.total then some m.data.processed else none

/-- The retry prompt shown in `m` produces a view and is answered with
`response` while the worker waits on it. -/
def PromptAnswered {σ : Type} (E : Env σ) (m : Machine σ) (response : Nat) : Prop :=
  (E.prompt_display_yes_no m.world).1 = true ∧
  E.promptResponse
    (E.svcWaitSynchronization WaitTarget.retryViewActive U64_MAX
      (E.prompt_display_yes_no m.world).2).2 = some response

/-- Calls through the operation table (`data->...`), the suspend hooks and the
error handler included. -/
def Call.isOperationTable : Call → Bool
  | Call.suspendTransfer _ _ _ _ _ _ => true
  | Call.suspend _ _ => true
  | Call.restore _ _ => true
  | Call.restoreTransfer _ _ _ _ _ _ => true
  | Call.isSrcDirectory _ _ _ => true
  | Call.makeDstDirectory _ _ => true
  | Call.openSrc _ _ _ => true
  | Call.closeSrc _ _ _ _ => true
  | Call.getSrcSize _ _ _ => true
  | Call.readSrc _ _ _ _ _ => true
  | Call.openDst _ _ _ _ _ => true
  | Call.closeDst _ _ _ _ => true
  | Call.writeDst _ _ _ _ _ _ => true
  | Call.delete _ _ => true
  | Call.error _ _ _ _ => true
  | _ => false

/-- The fields of the run state a copy or delete of one item does not write:
everything but the byte cursor and the telemetry. -/
def data_op_data.control (d : data_op_data) :
    data_op × Nat × Bool × Nat × Nat × Bool × Int × Nat × Bool :=
  (d.op, d.bufferSize, d.copyEmpty, d.processed, d.total, d.finished, d.result, d.cancelEvent,
    d.retryResponse)

/-- The calls of a check that finds the run cancelled: the quit-all query and,
when that is false, the wait on the cancel event. -/
def cancelCheckCalls {σ : Type} (E : Env σ) (m : Machine σ) : List Call :=
  if (E.task_is_quit_all m.world).1 then [Call.task_is_quit_all true]
  else [Call.task_is_quit_all false,
    Call.svcWaitSynchronization (WaitTarget.cancelEvent m.data.cancelEvent) 0
      (E.svcWaitSynchronization (WaitTarget.cancelEvent m.data.cancelEvent) 0
        (E.task_is_quit_all m.world).2).1]

/-! ## The opening steps of a copy, as functions of the world at its start -/

/-- What the size query of `task_data_op_copy` returns when the copy starts in
world `w` and reaches it: `isSrcDirectory`, then `openSrc`, then `getSrcSize`
on the handle `openSrc` produced. -/
def srcOpen {σ : Type} (E : Env σ) (index : Nat) (w : σ) : Int × Nat × σ :=
  E.openSrc index (E.isSrcDirectory index w).2.2

/-- The size query that follows `srcOpen`. -/
def srcSize {σ : Type} (E : Env σ) (index : Nat) (w : σ) : Int × Nat × σ :=
  E.getSrcSize (srcOpen E index w).2.1 (srcOpen E index w).2.2

/-- The `openDst` call of the zero-length branch (line 62) after `srcSize`. -/
def emptyDstOpen {σ : Type} (E : Env σ) (index : Nat) (w : σ) : Int × Nat × σ :=
  E.openDst index none 0 (srcSize E index w).2.2

/-- The `closeDst` call of the zero-length branch (line 63) after `emptyDstOpen`. -/
def emptyDstClose {σ : Type} (E : Env σ) (index : Nat) (w : σ) : Int × σ :=
  E.closeDst index true (emptyDstOpen E index w).2.1 (emptyDstOpen E index w).2.2

/-- The `closeSrc` call (line 138) that ends a zero-length copy. -/
def emptySrcClose {σ : Type} (E : Env σ) (index : Nat) (w : σ) : Int × σ :=
  E.closeSrc index (decide ((emptyDstClose E index w).1 = 0)) (srcOpen E index w).2.1
    (emptyDstClose E index w).2

/-! ## A scripted environment for concrete runs -/

/-- The fixed answers of the scripted environment. -/
structure Scenario where
  quitAll : Bool
  cancelSignalled : Bool
  suspendAsserted : Bool
  isDir : Bool
  size : Nat
  proceed : Bool
  response : Option Nat
deriving DecidableEq, Repr

/-- Take the next scripted result code; `0` once the script is used up. -/
def popResult (w : List Int) : Int × List Int :=
  (w.headD 0, w.tail)

/-- An environment whose world is a script of result codes: every operation
table call that returns a `Result` takes the next code of the script.  Sources
open as handle `1`, destinations as handle `2`, reads and writes transfer the
whole size asked for, and the clock stands still. -/
def scriptedEnv (c : Scenario) : Env (List Int) where
  task_is_quit_all := fun w => (c.quitAll, w)
  svcWaitSynchronization := fun target _ w =>
    match target with
    | WaitTarget.cancelEvent _ => (if c.cancelSignalled then 0 else 1, w)
    | WaitTarget.suspendEvent => (if c.suspendAsserted then 1 else 0, w)
    | _ => (0, w)
  suspendTransfer := some (fun _ src dst w => ((popResult w).1, src, dst, (popResult w).2))
  suspend := some (fun _ w => popResult w)
  restore := some (fun _ w => popResult w)
  restoreTransfer := some (fun _ src dst w => ((popResult w).1, src, dst, (popResult w).2))
  isSrcDirectory := fun _ w => ((popResult w).1, c.isDir, (popResult w).2)
  makeDstDirectory := fun _ w => popResult w
  openSrc := fun _ w => ((popResult w).1, 1, (popResult w).2)
  closeSrc := fun _ _ _ w => popResult w
  getSrcSize := fun _ w => ((popResult w).1, c.size, (popResult w).2)
  readSrc := fun _ buffer _ size w => ((popResult w).1, size, buffer, (popResult w).2)
  openDst := fun _ _ _ w => ((popResult w).1, 2, (popResult w).2)
  closeDst := fun _ _ _ w => popResult w
  writeDst := fun _ _ _ size w => ((popResult w).1, size, (popResult w).2)
  delete := fun _ w => popResult w
  error := fun _ _ w => (c.proceed, false, w)
  prompt_display_notify := fun w => w
  prompt_display_yes_no := fun w => (true, w)
  promptResponse := fun _ => c.response
  calloc := fun _ w => (true, w)
  free := fun w => w
  osGetTime := fun w => (0, w)
  svcCloseHandle := fun _ w => w
  aptSetSleepAllowed := fun _ w => w
  svcCreateEvent := fun w => (0, 7, w)
  threadCreate := fun w => (true, w)
  bytesPerSecondOf := fun bytes elapsed => bytes * 1000 / elapsed
  remainingSecondsOf := fun remaining processed elapsed => remaining * elapsed / (processed * 1000)

/-- Sample values for the constants: failures are negative and distinct. -/
def sampleCodes : AppCodes where
  R_APP_CANCELLED := -1
  R_APP_SKIPPED := -2
  R_APP_BAD_DATA := -5
  R_APP_OUT_OF_MEMORY := -11
  R_APP_THREAD_CREATE_FAILED := -3
  R_APP_INVALID_ARGUMENT := -14
  PROMPT_YES := 0

/-- A scenario with nothing asserted: a regular file of `size` bytes, a handler
that answers `proceed`, a prompt answered with `response`. -/
def plainScenario (size : Nat) (proceed : Bool) (response : Option Nat) : Scenario where
  quitAll := false
  cancelSignalled := false
  suspendAsserted := false
  isDir := false
  size := size
  proceed := proceed
  response := response

/-- A fresh run state for `total` items of kind `op`. -/
def freshData (op : data_op) (total : Nat) (copyEmpty : Bool) : data_op_data where
  op := op
  bufferSize := 4
  copyEmpty := copyEmpty
  processed := 0
  total := total
  currProcessed := 0
  currTotal := 0
  bytesPerSecond := 0
  estimatedRemainingSeconds := 0
  finished := false
  result := 0
  cancelEvent := 7
  retryResponse := false

/-- The machine at the start of a scripted run. -/
def startMachine (script : List Int) (op : data_op) (total : Nat) (copyEmpty : Bool) :
    Machine (List Int) where
  world := script
  data := freshData op total copyEmpty
  log := []

/-- The scripted machine after the first item of a delete run of `total`
items, whose `delete` returned `ret`. -/
def afterFirstDelete (ret : Int) (total : Nat) : Machine (List Int) where
  world := []
  data := freshData data_op.DATAOP_DELETE total false
  log := [Call.task_is_quit_all false,
    Call.svcWaitSynchronization (WaitTarget.cancelEvent 7) 0 1,
    Call.svcWaitSynchronization WaitTarget.suspendEvent 0 0,
    Call.svcWaitSynchronization WaitTarget.pauseEvent U64_MAX 0,
    Call.delete 0 ret]

/-- A delete run of 2 items with the cursor at item 1, whose `delete` is about
to fail with `-7`. -/
def atSecondDelete : Machine (List Int) where
  world := [-7]
  data := { freshData data_op.DATAOP_DELETE 2 false with processed := 1 }
  log := []

/-- The operation-table calls of a log, in order. -/
def operationCalls (log : List Call) : List Call :=
  log.filter Call.isOperationTable

/-- The two queries of line 13: `task_is_quit_all()` and the zero-timeout wait
on the cancel event. -/
def Call.isCancelQuery : Call → Bool
  | Call.task_is_quit_all _ => true
  | Call.svcWaitSynchronization (WaitTarget.cancelEvent _) 0 _ => true
  | _ => false

/-! ## `task_data_op` -/

/-- Lines 219-246 of `task_data_op`, for `data != NULL`.  Returns `res`, the
machine on return, and whether `threadCreate` produced the worker thread.  The
worker itself (`task_data_op_thread`) runs on that thread and is not part of
this function. -/
def startRun {σ : Type} (E : Env σ) (codes : AppCodes) (m : Machine σ) :
    Int × Machine σ × Bool :=
  let m0 : Machine σ :=
    { m with data := { m.data with
        processed := 0, currProcessed := 0, currTotal := 0, finished := false, result := 0,
        cancelEvent := 0 } }
  let ev := E.svcCreateEvent m0.world
  let m1 : Machine σ :=
    { world := ev.2.2, data := { m0.data with cancelEvent := ev.2.1 },
      log := m0.log ++ [Call.svcCreateEvent ev.1 ev.2.1] }
  let r2 : Int × Machine σ × Bool :=
    if R_SUCCEEDED ev.1 then
      let t := E.threadCreate m1.world
      let m2 := m1.emit t.2 (Call.threadCreate t.1)
      if t.1 then (ev.1, m2, true) else (codes.R_APP_THREAD_CREATE_FAILED, m2, false)
    else (ev.1, m1, false)
  let m3 : Machine σ :=
    if R_FAILED r2.1 then
      let mf : Machine σ := { r2.2.1 with data := { r2.2.1.data with finished := true } }
      if mf.data.cancelEvent ≠ 0 then
        { world := E.svcCloseHandle mf.data.cancelEvent mf.world,
          data := { mf.data with cancelEvent := 0 },
          log := mf.log ++ [Call.svcCloseHandle mf.data.cancelEvent] }
      else mf
    else r2.2.1
  (r2.1, m3.emit (E.aptSetSleepAllowed false m3.world) (Call.aptSetSleepAllowed false), r2.2.2)

/-- `task_data_op(data)` called in world `w` with the calls `log` made so far;
`data = none` is the `NULL` pointer.  Returns `res` and, for a non-null `data`,
what `startRun` leaves. -/
def task_data_op {σ : Type} (E : Env σ) (codes : AppCodes) (w : σ) (log : List Call) :
    Option data_op_data → Int × Option (Machine σ × Bool)
  | none => (codes.R_APP_INVALID_ARGUMENT, none)
  | some d =>
    ((startRun E codes { world := w, data := d, log := log }).1,
      some (startRun E codes { world := w, data := d, log := log }).2)

/-- Whether system sleep is allowed after the calls of a log: the argument of
the last `aptSetSleepAllowed`, `none` when the log has no such call. -/
def sleepAllowedAfter : List Call → Option Bool
  | [] => none
  | Call.aptSetSleepAllowed allowed :: rest =>
    match sleepAllowedAfter rest with
    | some later => some later
    | none => some allowed
  | _ :: rest => sleepAllowedAfter rest

/-- The state of the `while` loop of `task_data_op_copy` after at most `n`
passes through its body, starting from `(l, m)` at the loop condition: it stops
early when the condition is false or a pass left through `break`. -/
def copyLoopAfter {σ : Type} (E : Env σ) (codes : AppCodes) (index : Nat) :
    Nat → CopyLocals → Machine σ → CopyLocals × Machine σ
  | 0, l, m => (l, m)
  | n + 1, l, m =>
    if m.data.currProcessed < m.data.currTotal then
      if (copyChunk E codes index l m).2.2 then
        ((copyChunk E codes index l m).1, (copyChunk E codes index l m).2.1)
      else copyLoopAfter E codes index n (copyChunk E codes index l m).1
        (copyChunk E codes index l m).2.1
    else (l, m)

/-- What a pass through the loop body, entered with estimator variables as in
`l0` and run state `d0`, can produce: either it left through `break` with the
run state and the estimator variables untouched, or it is the accounting of
lines 101-121 applied to the bytes a successful `writeDst` at offset
`d0.currProcessed` reported, on a machine with the same run state and the same
estimator variables. -/
def ChunkOutcome {σ : Type} (E : Env σ) (l0 : CopyLocals) (d0 : data_op_data)
    (r : CopyLocals × Machine σ × Bool) : Prop :=
  (r.2.2 = true ∧ r.2.1.data = d0 ∧ r.1.ioStartTime = l0.ioStartTime ∧
    r.1.lastBytesPerSecondUpdate = l0.lastBytesPerSecondUpdate ∧
    r.1.bytesSinceUpdate = l0.bytesSinceUpdate) ∨
  (∃ (h : Nat) (buf : List Nat) (sz : Nat) (w : σ) (l4 : CopyLocals) (m4 : Machine σ),
    R_SUCCEEDED (E.writeDst h buf d0.currProcessed sz w).1 ∧
    m4.data = d0 ∧
    l4.ioStartTime = l0.ioStartTime ∧
    l4.lastBytesPerSecondUpdate = l0.lastBytesPerSecondUpdate ∧
    l4.bytesSinceUpdate = l0.bytesSinceUpdate ∧
    r = ((copyAccount E (E.writeDst h buf d0.currProcessed sz w).2.1 l4 m4).1,
      (copyAccount E (E.writeDst h buf d0.currProcessed sz w).2.1 l4 m4).2, false))

/-- The scripted environment for a file of `T` bytes whose `writeDst` reports at
most the bytes that remain after the offset. -/
def clampedEnv (T : Nat) : Env (List Int) :=
  { scriptedEnv (plainScenario T true none) with
    writeDst := fun _ _ off sz w => ((popResult w).1, min sz (T - off), (popResult w).2) }

/-- The loop variables at the start of the chunk loop (lines 71-77) for source
handle 1 and a 3-byte buffer. -/
def clampedLocals : CopyLocals where
  srcHandle := 1
  dstHandle := 0
  buffer := [0, 0, 0]
  ioStartTime := 0
  lastBytesPerSecondUpdate := 0
  bytesSinceUpdate := 0
  firstRun := true
  res := 0

/-- The scripted environment for a file of `T` bytes whose `writeDst` reports
`bw` bytes written on every call. -/
def fixedWriteEnv (T bw : Nat) : Env (List Int) :=
  { scriptedEnv (plainScenario T true none) with
    writeDst := fun _ _ _ _ w => ((popResult w).1, bw, (popResult w).2) }

/-- The machine at the start of the chunk loop of a copy of `T` bytes, with an
empty script (every call succeeds). -/
def chunkLoopStart (T : Nat) : Machine (List Int) where
  world := []
  data := { freshData data_op.DATAOP_COPY 1 false with bufferSize := 3, currTotal := T }
  log := []

/-! ## Handle events of a log -/

/-- What a call does to the handles the copy holds. -/
inductive HandleEvent where
  | srcOpened (handle : Nat)
  | srcClosed (handle : Nat)
  | dstOpened (handle : Nat)
  | dstClosed (handle : Nat)
deriving DecidableEq, Repr

/-- The handle event of a call: a successful `openSrc` / `openDst` opens the
handle it returned, a `closeSrc` / `closeDst` closes the handle it was passed;
every other call (a failed open included) is no event. -/
def Call.handleEvent : Call → Option HandleEvent
  | Call.openSrc _ ret handle => if R_SUCCEEDED ret then some (HandleEvent.srcOpened handle) else none
  | Call.closeSrc _ _ handle _ => some (HandleEvent.srcClosed handle)
  | Call.openDst _ _ _ ret handle =>
    if R_SUCCEEDED ret then some (HandleEvent.dstOpened handle) else none
  | Call.closeDst _ _ handle _ => some (HandleEvent.dstClosed handle)
  | _ => none

/-- The handle events of a log, in order. -/
def handleEvents (log : List Call) : List HandleEvent :=
  log.filterMap Call.handleEvent

/-- The open event of the destination handle held in `dstHandle`: none for the
value 0, with which the code marks "no destination". -/
def heldDst (dstHandle : Nat) : List HandleEvent :=
  if dstHandle ≠ 0 then [HandleEvent.dstOpened dstHandle] else []

/-- The backend keeps to the handle convention of the file: a successful
`openDst` returns a non-zero handle, a failed one leaves the handle 0, and the
transfer hooks, when present, hand back the handles they were given. -/
def HandleConvention {σ : Type} (E : Env σ) : Prop :=
  (∀ (index : Nat) (buf : Option (List Nat)) (size : Nat) (w : σ),
    (R_SUCCEEDED (E.openDst index buf size w).1 → (E.openDst index buf size w).2.1 ≠ 0) ∧
    (R_FAILED (E.openDst index buf size w).1 → (E.openDst index buf size w).2.1 = 0)) ∧
  (∀ hook, E.suspendTransfer = some hook → ∀ (index src dst : Nat) (w : σ),
    (hook index src dst w).2.1 = src ∧ (hook index src dst w).2.2.1 = dst) ∧
  (∀ hook, E.restoreTransfer = some hook → ∀ (index src dst : Nat) (w : σ),
    (hook index src dst w).2.1 = src ∧ (hook index src dst w).2.2.1 = dst)

/-- The handle state of the chunk loop, relative to the source handle `s` the
loop was entered with and the handle events `base` of the log at that point:
the source handle is still `s`, and the destination is either not yet opened
(`firstRun`, `dstHandle = 0`, no event since) or the only event since is the
open of the handle held in `dstHandle`. -/
def LoopHandles (s : Nat) (base : List HandleEvent) (l : CopyLocals) (log : List Call) : Prop :=
  l.srcHandle = s ∧
  ((l.firstRun = true ∧ l.dstHandle = 0 ∧ handleEvents log = base) ∨
    (l.firstRun = false ∧ handleEvents log = base ++ heldDst l.dstHandle))

/-- A destination opened and closed, or nothing. -/
def DstBalanced (ev : List HandleEvent) : Prop :=
  ev = [] ∨ ∃ d, ev = [HandleEvent.dstOpened d, HandleEvent.dstClosed d]

/-- The scripted environment for a 4-byte file whose `openDst` succeeds but
returns the handle value 0. -/
def zeroHandleEnv : Env (List Int) :=
  { scriptedEnv (plainScenario 4 true none) with
    openDst := fun _ _ _ w => ((popResult w).1, 0, (popResult w).2) }

/-- The scripted environment without transfer hooks, whose `openDst` returns
handle 2 on success and leaves the handle 0 on failure. -/
def conventionalEnv (size : Nat) : Env (List Int) :=
  { scriptedEnv (plainScenario size true none) with
    openDst := fun _ _ _ w =>
      ((popResult w).1, if R_SUCCEEDED (popResult w).1 then 2 else 0, (popResult w).2)
    suspendTransfer := none
    restoreTransfer := none }

/-! ## The suspend protocol in the words of the spec -/

/-- The steps of the suspend protocol that follow the cancellation check, in the
order spec 4.3 gives them: transfer-suspend hook, generic suspend hook, the
wait for the resume signal, generic restore hook, transfer-restore hook. -/
inductive ProtocolStep where
  | suspendTransfer
  | suspend
  | waitResume
  | restore
  | restoreTransfer
deriving DecidableEq, Repr

/-- The order of the protocol. -/
def protocolOrder : List ProtocolStep :=
  [ProtocolStep.suspendTransfer, ProtocolStep.suspend, ProtocolStep.waitResume,
    ProtocolStep.restore, ProtocolStep.restoreTransfer]

/-- The hook of a protocol step applied in world `w`: `none` when the backend
does not provide it or it does not apply (the transfer hooks apply to a copy
with live handles only; the wait is not a hook).  Otherwise its result, the
handles it leaves, the world it leaves and the call it is logged as. -/
def protocolHook {σ : Type} (E : Env σ) (op : data_op) (index : Nat)
    (handles : Option (Nat × Nat)) (w : σ) :
    ProtocolStep → Option (Int × Option (Nat × Nat) × σ × Call)
  | ProtocolStep.suspendTransfer =>
    match op, handles, E.suspendTransfer with
    | data_op.DATAOP_COPY, some (src, dst), some hook =>
      some ((hook index src dst w).1,
        some ((hook index src dst w).2.1, (hook index src dst w).2.2.1),
        (hook index src dst w).2.2.2,
        Call.suspendTransfer index src dst (hook index src dst w).1 (hook index src dst w).2.1
          (hook index src dst w).2.2.1)
    | _, _, _ => none
  | ProtocolStep.suspend =>
    match E.suspend with
    | some hook => some ((hook index w).1, handles, (hook index w).2,
        Call.suspend index (hook index w).1)
    | none => none
  | ProtocolStep.waitResume => none
  | ProtocolStep.restore =>
    match E.restore with
    | some hook => some ((hook index w).1, handles, (hook index w).2,
        Call.restore index (hook index w).1)
    | none => none
  | ProtocolStep.restoreTransfer =>
    match op, handles, E.restoreTransfer with
    | data_op.DATAOP_COPY, some (src, dst), some hook =>
      some ((hook index src dst w).1,
        some ((hook index src dst w).2.1, (hook index src dst w).2.2.1),
        (hook index src dst w).2.2.2,
        Call.restoreTransfer index src dst (hook index src dst w).1 (hook index src dst w).2.1
          (hook index src dst w).2.2.1)
    | _, _, _ => none

/-- One step of the protocol on (outcome so far, handles, machine).  The wait
for the resume signal always happens.  A hook that is present and applies is
invoked unless an earlier hook has failed, and its result becomes the outcome;
after a failure every later hook is skipped and the failure stays the
outcome. -/
def runProtocolStep {σ : Type} (E : Env σ) (index : Nat)
    (st : Int × Option (Nat × Nat) × Machine σ) (step : ProtocolStep) :
    Int × Option (Nat × Nat) × Machine σ :=
  if step = ProtocolStep.waitResume then
    (st.1, st.2.1, st.2.2.emit
      (E.svcWaitSynchronization WaitTarget.pauseEvent U64_MAX st.2.2.world).2
      (Call.svcWaitSynchronization WaitTarget.pauseEvent U64_MAX
        (E.svcWaitSynchronization WaitTarget.pauseEvent U64_MAX st.2.2.world).1))
  else if R_FAILED st.1 then st
  else
    match protocolHook E st.2.2.data.op index st.2.1 st.2.2.world step with
    | some r => (r.1, r.2.1, st.2.2.emit r.2.2.1 r.2.2.2)
    | none => st

/-- The protocol: its steps one after the other. -/
def runProtocol {σ : Type} (E : Env σ) (index : Nat) (steps : List ProtocolStep)
    (st : Int × Option (Nat × Nat) × Machine σ) : Int × Option (Nat × Nat) × Machine σ :=
  steps.foldl (runProtocolStep E index) st

/-- The machine after the three queries of lines 13 and 16 (quit-all, cancel
event, suspend event), and the value the wait on the suspend event returned. -/
def suspendQuery {σ : Type} (E : Env σ) (m : Machine σ) : Int × Machine σ :=
  let q := E.task_is_quit_all m.world
  let m1 := m.emit q.2 (Call.task_is_quit_all q.1)
  let c := E.svcWaitSynchronization (WaitTarget.cancelEvent m1.data.cancelEvent) 0 m1.world
  let m2 := m1.emit c.2
    (Call.svcWaitSynchronization (WaitTarget.cancelEvent m1.data.cancelEvent) 0 c.1)
  let s := E.svcWaitSynchronization WaitTarget.suspendEvent 0 m2.world
  (s.1, m2.emit s.2 (Call.svcWaitSynchronization WaitTarget.suspendEvent 0 s.1))

/-- Calls of the four suspend-protocol hooks. -/
def Call.isHook : Call → Bool
  | Call.suspendTransfer _ _ _ _ _ _ => true
  | Call.suspend _ _ => true
  | Call.restore _ _ => true
  | Call.restoreTransfer _ _ _ _ _ _ => true
  | _ => false

/-- The plain scenario with a suspend asserted. -/
def suspendedScenario : Scenario where
  quitAll := false
  cancelSignalled := false
  suspendAsserted := true
  isDir := false
  size := 4
  proceed := true
  response := none

/-! ## Runs that go through every item -/

/-- The outcome `r` of an item (the value of `res` in line 173 and the machine
there) is one after which the loop goes on to the next item: a success, or
Skipped, or a failure other than Cancelled whose error handler answers
`proceed = true` and whose retry prompt is answered with something other than
yes. -/
def ItemAdvances {σ : Type} (E : Env σ) (codes : AppCodes) (r : Int × Machine σ) : Prop :=
  R_SUCCEEDED r.1 ∨
  (r.1 ≠ codes.R_APP_CANCELLED ∧ r.1 = codes.R_APP_SKIPPED) ∨
  (r.1 ≠ codes.R_APP_CANCELLED ∧
    (callErrorHandler E r.1 (storeResult r.1 r.2)).1 = true ∧
    ∃ response, PromptAnswered E (callErrorHandler E r.1 (storeResult r.1 r.2)).2 response ∧
      response ≠ codes.PROMPT_YES)

/-- From the loop state `m` the next `k` items each return and advance;
`last` is the outcome of the last of them, and `prev` when `k = 0`. -/
def RunAdvances {σ : Type} (E : Env σ) (codes : AppCodes) :
    Nat → Machine σ → Int → Int → Prop
  | 0, _, prev, last => last = prev
  | k + 1, m, _, last =>
    ∃ fuel r, runItem E codes fuel m = some r ∧ ItemAdvances E codes r ∧
      RunAdvances E codes k (forIncrement (handleOutcome E codes r.1 r.2).1) r.1 last

/-- The backend never reports a chunk past byte `T`: when a `readSrc` at an
offset `off < T` succeeds and a `writeDst` at that offset, handed the number of
bytes the read reported, succeeds, the bytes it reports written end at or
before `T`. -/
def ChunkWithin {σ : Type} (E : Env σ) (T : Nat) : Prop :=
  ∀ (hs : Nat) (bufr : List Nat) (off bsz : Nat) (wr : σ) (hd : Nat) (bufw : List Nat) (ww : σ),
    off < T → R_SUCCEEDED (E.readSrc hs bufr off bsz wr).1 →
    R_SUCCEEDED (E.writeDst hd bufw off (E.readSrc hs bufr off bsz wr).2.1 ww).1 →
    off + (E.writeDst hd bufw off (E.readSrc hs bufr off bsz wr).2.1 ww).2.1 ≤ T

@[simp] theorem emit_data {σ : Type} (m : Machine σ) (w : σ) (c : Call) :
    (m.emit w c).data = m.data := rfl

@[simp] theorem emit_log {σ : Type} (m : Machine σ) (w : σ) (c : Call) :
    (m.emit w c).log = m.log ++ [c] := rfl

@[simp] theorem emit_world {σ : Type} (m : Machine σ) (w : σ) (c : Call) :
    (m.emit w c).world = w := rfl

theorem suspendHooks_data {σ : Type} (E : Env σ) (index : Nat) (handles : Option (Nat × Nat))
    (res : Int) (m : Machine σ) : (suspendHooks E index handles res m).2.2.data = m.data := by
  simp only [suspendHooks]
  repeat' split
  all_goals simp

theorem restoreHooks_data {σ : Type} (E : Env σ) (index : Nat) (handles : Option (Nat × Nat))
    (res : Int) (m : Machine σ) : (restoreHooks E index handles res m).2.2.data = m.data := by
  simp only [restoreHooks]
  repeat' split
  all_goals simp

theorem check_running_data {σ : Type} (E : Env σ) (codes : AppCodes) (index : Nat)
    (handles : Option (Nat × Nat)) (m : Machine σ) :
    (task_data_op_check_running E codes index handles m).2.2.data = m.data := by
  simp only [task_data_op_check_running]
  repeat' split
  all_goals simp [restoreHooks_data, suspendHooks_data]

theorem control_processed {d d' : data_op_data} (h : d'.control = d.control) :
    d'.processed = d.processed := by
  simp only [data_op_data.control, Prod.mk.injEq] at h
  exact h.2.2.2.1

theorem control_total {d d' : data_op_data} (h : d'.control = d.control) :
    d'.total = d.total := by
  simp only [data_op_data.control, Prod.mk.injEq] at h
  exact h.2.2.2.2.1

theorem copyEmptyFile_data {σ : Type} (E : Env σ) (codes : AppCodes) (index : Nat)
    (m : Machine σ) : (copyEmptyFile E codes index m).2.data = m.data := by
  simp only [copyEmptyFile]
  repeat' split
  all_goals simp

theorem copyAccount_control {σ : Type} (E : Env σ) (bytesWritten : Nat) (l : CopyLocals)
    (m : Machine σ) : (copyAccount E bytesWritten l m).2.data.control = m.data.control := by
  simp only [copyAccount]
  repeat' split
  all_goals simp [data_op_data.control]

theorem copyChunk_control {σ : Type} (E : Env σ) (codes : AppCodes) (index : Nat)
    (l : CopyLocals) (m : Machine σ) :
    (copyChunk E codes index l m).2.1.data.control = m.data.control := by
  simp only [copyChunk, copyChunkRead, copyChunkOpenDst, copyChunkWrite]
  repeat' split
  all_goals simp [copyAccount_control, check_running_data]

theorem copyLoop_control {σ : Type} (E : Env σ) (codes : AppCodes) (index : Nat) :
    ∀ (fuel : Nat) (l : CopyLocals) (m : Machine σ) (r : CopyLocals × Machine σ),
      copyLoop E codes index fuel l m = some r → r.2.data.control = m.data.control := by
  intro fuel
  induction fuel with
  | zero => intro l m r h; simp [copyLoop] at h
  | succ n ih =>
    intro l m r h
    simp only [copyLoop] at h
    split at h
    · split at h
      · simp only [Option.some.injEq] at h
        subst h
        exact copyChunk_control E codes index l m
      · rw [ih _ _ _ h]
        exact copyChunk_control E codes index l m
    · simp only [Option.some.injEq] at h
      subst h
      rfl

theorem copyCloseDst_data {σ : Type} (E : Env σ) (index : Nat) (l : CopyLocals)
    (m : Machine σ) : (copyCloseDst E index l m).2.data = m.data := by
  simp only [copyCloseDst]
  repeat' split
  all_goals simp

theorem copyStream_control {σ : Type} (E : Env σ) (codes : AppCodes) (fuel index srcHandle : Nat)
    (m : Machine σ) (r : Int × Nat × Machine σ)
    (h : copyStream E codes fuel index srcHandle m = some r) :
    r.2.2.data.control = m.data.control := by
  simp only [copyStream] at h
  split at h
  · split at h
    · simp at h
    · rename_i r' hr'
      simp only [Option.some.injEq] at h
      subst h
      simp only [copyCloseDst_data]
      rw [copyLoop_control E codes index _ _ _ _ hr']
      rfl
  · simp only [Option.some.injEq] at h
    subst h
    rfl

theorem copyOpened_control {σ : Type} (E : Env σ) (codes : AppCodes) (fuel index srcHandle : Nat)
    (m : Machine σ) (r : Int × Machine σ)
    (h : copyOpened E codes fuel index srcHandle m = some r) :
    r.2.data.control = m.data.control := by
  simp only [copyOpened] at h
  split at h
  · simp at h
  · rename_i r' hr'
    simp only [Option.some.injEq] at h
    subst h
    simp only [emit_data]
    split at hr'
    · split at hr'
      · simp only [Option.some.injEq] at hr'
        subst hr'
        simp [copyEmptyFile_data, data_op_data.control]
      · rw [copyStream_control E codes fuel index srcHandle _ _ hr']
        rfl
    · simp only [Option.some.injEq] at hr'
      subst hr'
      rfl

theorem task_data_op_copy_control {σ : Type} (E : Env σ) (codes : AppCodes) (fuel index : Nat)
    (m : Machine σ) (r : Int × Machine σ)
    (h : task_data_op_copy E codes fuel index m = some r) :
    r.2.data.control = m.data.control := by
  simp only [task_data_op_copy] at h
  split at h
  · simp only [Option.some.injEq] at h
    subst h
    rfl
  · split at h
    · rw [copyOpened_control E codes fuel index _ _ _ h]
      rfl
    · simp only [Option.some.injEq] at h
      subst h
      rfl

theorem runItem_control {σ : Type} (E : Env σ) (codes : AppCodes) (fuel : Nat)
    (m : Machine σ) (r : Int × Machine σ) (h : runItem E codes fuel m = some r) :
    r.2.data.control = m.data.control := by
  simp only [runItem] at h
  split at h
  · split at h
    · rw [task_data_op_copy_control E codes fuel _ _ _ h, check_running_data]
    · simp only [Option.some.injEq] at h
      subst h
      simp [task_data_op_delete, check_running_data]
    · simp only [Option.some.injEq] at h
      subst h
      simp [check_running_data]
  · simp only [Option.some.injEq] at h
    subst h
    simp [check_running_data]

theorem callErrorHandler_data {σ : Type} (E : Env σ) (res : Int) (m : Machine σ) :
    (callErrorHandler E res m).2.data = m.data := by
  simp only [callErrorHandler]
  split <;> simp

theorem askRetry_processed {σ : Type} (E : Env σ) (codes : AppCodes) (m : Machine σ) :
    (askRetry E codes m).2.data.processed = m.data.processed ∧
    (askRetry E codes m).2.data.total = m.data.total := by
  simp only [askRetry]
  repeat' split
  all_goals simp [task_data_op_retry_onresponse]

/-! ## `u32` cursor arithmetic -/

theorem u32_decrement_increment (p t : Nat) (hi : p < t) (ht : t < 4294967296) :
    u32_add (u32_pred p) 1 = p := by
  unfold u32_add u32_pred
  split <;> omega

theorem u32_increment (p t : Nat) (hi : p < t) (ht : t < 4294967296) :
    u32_add p 1 = p + 1 := by
  unfold u32_add
  omega

theorem u32_pred_zero : u32_pred 0 = 4294967295 := by
  decide

/-! ## The retry coordinator and the item cursor -/

theorem askRetry_answered {σ : Type} (E : Env σ) (codes : AppCodes) (m : Machine σ)
    (response : Nat) (h : PromptAnswered E m response) :
    (askRetry E codes m).1 = true ∧
    (askRetry E codes m).2.data.retryResponse = decide (response = codes.PROMPT_YES) := by
  obtain ⟨hview, hresp⟩ := h
  simp only [askRetry, hview, if_true, emit_world, hresp, true_and]
  rfl

theorem threadLoop_step {σ : Type} (E : Env σ) (codes : AppCodes) (fuel : Nat)
    (m m2 : Machine σ) (brk : Bool) (hi : m.data.processed < m.data.total)
    (hbody : loopBody E codes fuel m = some (m2, brk)) :
    threadLoop E codes (fuel + 1) m =
      if brk then some m2 else threadLoop E codes fuel (forIncrement m2) := by
  simp only [threadLoop, hi, if_true, hbody]

theorem threadLoop_continue {σ : Type} (E : Env σ) (codes : AppCodes) (fuel : Nat)
    (m m2 : Machine σ) (hi : m.data.processed < m.data.total)
    (hbody : loopBody E codes fuel m = some (m2, false)) :
    threadLoop E codes (fuel + 1) m = threadLoop E codes fuel (forIncrement m2) := by
  rw [threadLoop_step E codes fuel m m2 false hi hbody]
  rfl

theorem threadLoop_break {σ : Type} (E : Env σ) (codes : AppCodes) (fuel : Nat)
    (m m2 : Machine σ) (hi : m.data.processed < m.data.total)
    (hbody : loopBody E codes fuel m = some (m2, true)) :
    threadLoop E codes (fuel + 1) m = some m2 := by
  rw [threadLoop_step E codes fuel m m2 true hi hbody]
  rfl

theorem loopBody_of_runItem {σ : Type} (E : Env σ) (codes : AppCodes) (fuel : Nat)
    (m m1 : Machine σ) (res : Int) (hrun : runItem E codes fuel m = some (res, m1)) :
    loopBody E codes fuel m = some (handleOutcome E codes res m1) := by
  simp only [loopBody, hrun]

theorem handleOutcome_retry {σ : Type} (E : Env σ) (codes : AppCodes) (res : Int)
    (m1 : Machine σ) (hfail : R_FAILED res) (hc : res ≠ codes.R_APP_CANCELLED)
    (hs : res ≠ codes.R_APP_SKIPPED) :
    handleOutcome E codes res m1 = retryCoordinator E codes res (storeResult res m1) := by
  simp only [handleOutcome]
  rw [if_pos hfail, if_neg hc, if_pos hs]

/-- The 2×2 policy of lines 193-201, given that the prompt produced a view. -/
theorem retryCoordinator_policy {σ : Type} (E : Env σ) (codes : AppCodes) (res : Int)
    (m : Machine σ) (hview : (askRetry E codes (callErrorHandler E res m).2).1 = true) :
    retryCoordinator E codes res m =
      match (askRetry E codes (callErrorHandler E res m).2).2.data.retryResponse,
        (callErrorHandler E res m).1 with
      | true, true => (retryDecrement (askRetry E codes (callErrorHandler E res m).2).2, false)
      | true, false => (restartCursor (askRetry E codes (callErrorHandler E res m).2).2, false)
      | false, false => ((askRetry E codes (callErrorHandler E res m).2).2, true)
      | false, true => ((askRetry E codes (callErrorHandler E res m).2).2, false) := by
  simp only [retryCoordinator, hview, if_true]
  cases (askRetry E codes (callErrorHandler E res m).2).2.data.retryResponse <;>
    cases (callErrorHandler E res m).1 <;> rfl

theorem nextItem_after_retryDecrement {σ : Type} (a : Machine σ) (p t : Nat)
    (hp : a.data.processed = p) (ht : a.data.total = t) (hi : p < t) (h32 : t < 4294967296) :
    (retryDecrement a).data.processed = u32_pred p ∧
    nextItem (forIncrement (retryDecrement a)) = some p := by
  subst hp ht
  refine ⟨rfl, ?_⟩
  simp only [nextItem, forIncrement, retryDecrement]
  rw [u32_decrement_increment _ _ hi h32, if_pos hi]

theorem nextItem_after_restartCursor {σ : Type} (a : Machine σ) (t : Nat)
    (ht : a.data.total = t) :
    (restartCursor a).data.processed = 0 ∧
    nextItem (forIncrement (restartCursor a)) = (if 1 < t then some 1 else none) := by
  subst ht
  exact ⟨rfl, rfl⟩

theorem nextItem_after_increment {σ : Type} (a : Machine σ) (p t : Nat)
    (hp : a.data.processed = p) (ht : a.data.total = t) (hi : p < t) (h32 : t < 4294967296) :
    (forIncrement a).data.processed = p + 1 ∧
    nextItem (forIncrement a) = (if p + 1 < t then some (p + 1) else none) := by
  subst hp ht
  have h := u32_increment _ _ hi h32
  constructor
  · exact h
  · simp only [nextItem, forIncrement]
    rw [h]

/-- The cursor and the total when the retry prompt has been answered are those
the item started with. -/
theorem prompt_cursor {σ : Type} (E : Env σ) (codes : AppCodes) (fuel : Nat)
    (m m1 : Machine σ) (res : Int) (hrun : runItem E codes fuel m = some (res, m1)) :
    (askRetry E codes (callErrorHandler E res (storeResult res m1)).2).2.data.processed =
      m.data.processed ∧
    (askRetry E codes (callErrorHandler E res (storeResult res m1)).2).2.data.total =
      m.data.total := by
  have hctl := runItem_control E codes fuel m (res, m1) hrun
  have hp1 : m1.data.processed = m.data.processed := control_processed hctl
  have ht1 : m1.data.total = m.data.total := control_total hctl
  obtain ⟨hap, hat⟩ := askRetry_processed E codes (callErrorHandler E res (storeResult res m1)).2
  rw [callErrorHandler_data] at hap hat
  exact ⟨hap.trans hp1, hat.trans ht1⟩

/-- C2 (retry in place): an item at index `i < total` fails with an outcome
other than Cancelled/Skipped, the error handler returns `proceed = true` and
the retry prompt is answered yes.  Then the iteration does not break, the
cursor is decremented modulo `2^32` (wrapping to `2^32 - 1` for `i = 0`), and
after the loop's increment the next item the loop executes is index `i` again. -/
theorem retry_in_place_same_index {σ : Type} (E : Env σ) (codes : AppCodes) (fuel : Nat)
    (m m1 : Machine σ) (res : Int)
    (hi : m.data.processed < m.data.total) (ht : m.data.total < 4294967296)
    (hrun : runItem E codes fuel m = some (res, m1))
    (hfail : R_FAILED res) (hc : res ≠ codes.R_APP_CANCELLED) (hs : res ≠ codes.R_APP_SKIPPED)
    (hproceed : (callErrorHandler E res (storeResult res m1)).1 = true)
    (hyes : PromptAnswered E (callErrorHandler E res (storeResult res m1)).2 codes.PROMPT_YES) :
    ∃ m2, loopBody E codes fuel m = some (m2, false) ∧
      m2.data.processed = u32_pred m.data.processed ∧
      nextItem (forIncrement m2) = some m.data.processed ∧
      threadLoop E codes (fuel + 1) m = threadLoop E codes fuel (forIncrement m2) := by
  obtain ⟨hview, hresp⟩ := askRetry_answered E codes _ _ hyes
  rw [decide_eq_true rfl] at hresp
  obtain ⟨hap, hat⟩ := prompt_cursor E codes fuel m m1 res hrun
  have hbody := loopBody_of_runItem E codes fuel m m1 res hrun
  rw [handleOutcome_retry E codes res m1 hfail hc hs,
    retryCoordinator_policy E codes res _ hview, hresp, hproceed] at hbody
  obtain ⟨h1, h2⟩ := nextItem_after_retryDecrement _ _ _ hap hat hi ht
  exact ⟨_, hbody, h1, h2, threadLoop_continue E codes fuel m _ hi hbody⟩

/-- C3 (decline-retry policy): an item at index `i` fails with an outcome other
than Cancelled/Skipped and the retry prompt is answered with something other
than yes.  If the handler returned `proceed = false` the loop ends in the state
the prompt left (no further call is made, the cursor is still `i`); if it
returned `proceed = true` the iteration does not break and the next item
executed is `i + 1`, or none when `i + 1 = total`. -/
theorem decline_retry_policy {σ : Type} (E : Env σ) (codes : AppCodes) (fuel : Nat)
    (m m1 : Machine σ) (res : Int) (response : Nat)
    (hi : m.data.processed < m.data.total) (ht : m.data.total < 4294967296)
    (hrun : runItem E codes fuel m = some (res, m1))
    (hfail : R_FAILED res) (hc : res ≠ codes.R_APP_CANCELLED) (hs : res ≠ codes.R_APP_SKIPPED)
    (hno : PromptAnswered E (callErrorHandler E res (storeResult res m1)).2 response)
    (hresponse : response ≠ codes.PROMPT_YES) :
    ((callErrorHandler E res (storeResult res m1)).1 = false →
      loopBody E codes fuel m =
        some ((askRetry E codes (callErrorHandler E res (storeResult res m1)).2).2, true) ∧
      threadLoop E codes (fuel + 1) m =
        some (askRetry E codes (callErrorHandler E res (storeResult res m1)).2).2 ∧
      (askRetry E codes (callErrorHandler E res (storeResult res m1)).2).2.data.processed =
        m.data.processed) ∧
    ((callErrorHandler E res (storeResult res m1)).1 = true →
      ∃ m2, loopBody E codes fuel m = some (m2, false) ∧
        nextItem (forIncrement m2) =
          (if m.data.processed + 1 < m.data.total then some (m.data.processed + 1) else none) ∧
        threadLoop E codes (fuel + 1) m = threadLoop E codes fuel (forIncrement m2)) := by
  obtain ⟨hview, hresp⟩ := askRetry_answered E codes _ _ hno
  rw [decide_eq_false hresponse] at hresp
  obtain ⟨hap, hat⟩ := prompt_cursor E codes fuel m m1 res hrun
  have hbody := loopBody_of_runItem E codes fuel m m1 res hrun
  rw [handleOutcome_retry E codes res m1 hfail hc hs,
    retryCoordinator_policy E codes res _ hview, hresp] at hbody
  constructor
  · intro hp
    rw [hp] at hbody
    exact ⟨hbody, threadLoop_break E codes fuel m _ hi hbody, hap⟩
  · intro hp
    rw [hp] at hbody
    exact ⟨_, hbody, (nextItem_after_increment _ _ _ hap hat hi ht).2,
      threadLoop_continue E codes fuel m _ hi hbody⟩

/-- What line 207-211 leave: the log grows by the two calls, `finished` is set,
the other fields stay. -/
theorem threadExit_spec {σ : Type} (E : Env σ) (m : Machine σ) :
    (threadExit E m).log = m.log ++ [Call.svcCloseHandle m.data.cancelEvent,
      Call.aptSetSleepAllowed true] ∧
    (threadExit E m).data.finished = true ∧
    (threadExit E m).data.result = m.data.result ∧
    (threadExit E m).data.processed = m.data.processed := by
  refine ⟨?_, rfl, rfl, rfl⟩
  show (m.log ++ [_]) ++ [_] = _
  rw [List.append_assoc]
  rfl

theorem handleOutcome_cancelled {σ : Type} (E : Env σ) (codes : AppCodes) (m1 : Machine σ)
    (hneg : R_FAILED codes.R_APP_CANCELLED) :
    handleOutcome E codes codes.R_APP_CANCELLED m1 =
      ((storeResult codes.R_APP_CANCELLED m1).emit
        (E.prompt_display_notify m1.world) Call.prompt_display_notify, true) := by
  simp only [handleOutcome, if_pos hneg, if_true]
  rfl

/-- The worker from a loop state whose item ends Cancelled: the loop breaks
after the notice and lines 207-211 run. -/
theorem workerFrom_cancelled {σ : Type} (E : Env σ) (codes : AppCodes) (fuel : Nat)
    (m m1 : Machine σ)
    (hneg : R_FAILED codes.R_APP_CANCELLED)
    (hi : m.data.processed < m.data.total)
    (hrun : runItem E codes fuel m = some (codes.R_APP_CANCELLED, m1)) :
    workerFrom E codes (fuel + 1) m =
      some (threadExit E ((storeResult codes.R_APP_CANCELLED m1).emit
        (E.prompt_display_notify m1.world) Call.prompt_display_notify)) := by
  have hbody := loopBody_of_runItem E codes fuel m m1 _ hrun
  rw [handleOutcome_cancelled E codes m1 hneg] at hbody
  have hloop := threadLoop_break E codes fuel m _ hi hbody
  show Option.map (threadExit E) (threadLoop E codes (fuel + 1) m) = _
  rw [hloop]
  rfl

/-- C4 (cancelled item): when the item at the cursor ends with outcome
`R_APP_CANCELLED` (a failure code), the worker stops there: after the item the
only calls are the cancellation notice, `svcCloseHandle` on the cancel event and
`aptSetSleepAllowed(true)` (so neither the error handler nor the retry prompt
nor a later item), `result` is Cancelled, `finished` is true and the cursor has
not moved. -/
theorem cancelled_item_stops_run {σ : Type} (E : Env σ) (codes : AppCodes) (fuel : Nat)
    (m m1 : Machine σ)
    (hneg : R_FAILED codes.R_APP_CANCELLED)
    (hi : m.data.processed < m.data.total)
    (hrun : runItem E codes fuel m = some (codes.R_APP_CANCELLED, m1)) :
    ∃ mf, workerFrom E codes (fuel + 1) m = some mf ∧
      mf.log = m1.log ++ [Call.prompt_display_notify, Call.svcCloseHandle m.data.cancelEvent,
        Call.aptSetSleepAllowed true] ∧
      mf.data.result = codes.R_APP_CANCELLED ∧
      mf.data.finished = true ∧
      mf.data.processed = m.data.processed := by
  have hctl := runItem_control E codes fuel m (codes.R_APP_CANCELLED, m1) hrun
  have hp1 : m1.data.processed = m.data.processed := control_processed hctl
  have hce : m1.data.cancelEvent = m.data.cancelEvent := by
    simp only [data_op_data.control, Prod.mk.injEq] at hctl
    exact hctl.2.2.2.2.2.2.2.1
  obtain ⟨hlog, hfin, hres, hproc⟩ := threadExit_spec E
    ((storeResult codes.R_APP_CANCELLED m1).emit
      (E.prompt_display_notify m1.world) Call.prompt_display_notify)
  refine ⟨_, workerFrom_cancelled E codes fuel m m1 hneg hi hrun, ?_, ?_, hfin, ?_⟩
  · rw [hlog]
    show (m1.log ++ [_]) ++ [Call.svcCloseHandle m1.data.cancelEvent, _] = _
    rw [List.append_assoc, hce]
    rfl
  · rw [hres]
    rfl
  · rw [hproc]
    exact hp1

theorem handleOutcome_skipped {σ : Type} (E : Env σ) (codes : AppCodes) (m1 : Machine σ)
    (hne : codes.R_APP_SKIPPED ≠ codes.R_APP_CANCELLED) :
    handleOutcome E codes codes.R_APP_SKIPPED m1 =
      (storeResult codes.R_APP_SKIPPED m1, false) := by
  simp only [handleOutcome, if_neg hne, ne_eq, not_true_eq_false, if_false, ite_self]

/-- C5 (skipped item): when the item at index `i < total` ends with the outcome
`R_APP_SKIPPED`, the iteration only stores the outcome in `result` (the log is
the one the item left: no error handler, no retry prompt), does not break, and
the loop's increment moves the cursor to `i + 1`. -/
theorem skipped_item_advances {σ : Type} (E : Env σ) (codes : AppCodes) (fuel : Nat)
    (m m1 : Machine σ)
    (hne : codes.R_APP_SKIPPED ≠ codes.R_APP_CANCELLED)
    (hi : m.data.processed < m.data.total) (ht : m.data.total < 4294967296)
    (hrun : runItem E codes fuel m = some (codes.R_APP_SKIPPED, m1)) :
    loopBody E codes fuel m = some (storeResult codes.R_APP_SKIPPED m1, false) ∧
    (storeResult codes.R_APP_SKIPPED m1).log = m1.log ∧
    (forIncrement (storeResult codes.R_APP_SKIPPED m1)).data.processed = m.data.processed + 1 ∧
    threadLoop E codes (fuel + 1) m =
      threadLoop E codes fuel (forIncrement (storeResult codes.R_APP_SKIPPED m1)) := by
  have hctl := runItem_control E codes fuel m (codes.R_APP_SKIPPED, m1) hrun
  have hp1 : m1.data.processed = m.data.processed := control_processed hctl
  have ht1 : m1.data.total = m.data.total := control_total hctl
  have hbody := loopBody_of_runItem E codes fuel m m1 _ hrun
  rw [handleOutcome_skipped E codes m1 hne] at hbody
  exact ⟨hbody, rfl,
    (nextItem_after_increment (storeResult codes.R_APP_SKIPPED m1) _ _ hp1 ht1 hi ht).1,
    threadLoop_continue E codes fuel m _ hi hbody⟩

theorem cancelCheckCalls_not_operationTable {σ : Type} (E : Env σ) (m : Machine σ) :
    ∀ c ∈ cancelCheckCalls E m, c.isOperationTable = false := by
  intro c hc
  unfold cancelCheckCalls at hc
  split at hc
  · rw [List.mem_singleton] at hc
    subst hc
    rfl
  · rw [List.mem_cons, List.mem_singleton] at hc
    rcases hc with rfl | rfl <;> rfl

/-- Lines 13-14: with quit-all set or the cancel event signalled the check
returns `R_APP_CANCELLED` after `cancelCheckCalls` and nothing else. -/
theorem check_running_cancelled {σ : Type} (E : Env σ) (codes : AppCodes) (index : Nat)
    (handles : Option (Nat × Nat)) (m : Machine σ)
    (hcancel : (E.task_is_quit_all m.world).1 = true ∨
      (E.svcWaitSynchronization (WaitTarget.cancelEvent m.data.cancelEvent) 0
        (E.task_is_quit_all m.world).2).1 = 0) :
    (task_data_op_check_running E codes index handles m).1 = codes.R_APP_CANCELLED ∧
    (task_data_op_check_running E codes index handles m).2.1 = handles ∧
    (task_data_op_check_running E codes index handles m).2.2.log =
      m.log ++ cancelCheckCalls E m := by
  by_cases hq : (E.task_is_quit_all m.world).1 = true
  · simp only [task_data_op_check_running, cancelCheckCalls, hq, if_true, emit_log, and_self]
  · have hw := hcancel.resolve_left hq
    have hq' : (E.task_is_quit_all m.world).1 = false := by
      cases h : (E.task_is_quit_all m.world).1
      · rfl
      · exact absurd h hq
    simp only [task_data_op_check_running, cancelCheckCalls, hq', Bool.false_eq_true, if_false,
      emit_world, emit_data, hw, if_true, emit_log, List.append_assoc, List.singleton_append,
      and_self]

/-- C6 (cancelled before the first item): if quit-all is set or the cancel
event is signalled at the first check of the worker (and `R_APP_CANCELLED` is a
failure code), then for every `total` and every operation kind the worker
returns with `finished = true` and `processed = 0`, and none of the calls it
made goes through the operation table (no open/read/write/close/delete, no
is-directory, make-directory, hook or error handler call). -/
theorem cancelled_before_first_item {σ : Type} (E : Env σ) (codes : AppCodes) (fuel : Nat)
    (m : Machine σ)
    (hneg : R_FAILED codes.R_APP_CANCELLED)
    (hcancel : (E.task_is_quit_all m.world).1 = true ∨
      (E.svcWaitSynchronization (WaitTarget.cancelEvent m.data.cancelEvent) 0
        (E.task_is_quit_all m.world).2).1 = 0) :
    ∃ mf extra, task_data_op_thread E codes (fuel + 1) m = some mf ∧
      mf.data.finished = true ∧ mf.data.processed = 0 ∧
      mf.log = m.log ++ extra ∧ ∀ c ∈ extra, c.isOperationTable = false := by
  have hnot : ¬ R_SUCCEEDED codes.R_APP_CANCELLED := not_le.mpr hneg
  by_cases h0 : 0 < m.data.total
  · obtain ⟨hres, _, hlog⟩ := check_running_cancelled E codes 0 none (restartCursor m) hcancel
    have hrun : runItem E codes fuel (restartCursor m) =
        some (codes.R_APP_CANCELLED,
          (task_data_op_check_running E codes 0 none (restartCursor m)).2.2) := by
      show (if R_SUCCEEDED (task_data_op_check_running E codes 0 none (restartCursor m)).1
        then _ else some ((task_data_op_check_running E codes 0 none (restartCursor m)).1,
          (task_data_op_check_running E codes 0 none (restartCursor m)).2.2)) = _
      rw [hres, if_neg hnot]
    have hw := workerFrom_cancelled E codes fuel (restartCursor m) _ hneg h0 hrun
    obtain ⟨hlog2, hfin, _, hproc⟩ := threadExit_spec E
      ((storeResult codes.R_APP_CANCELLED
          (task_data_op_check_running E codes 0 none (restartCursor m)).2.2).emit
        (E.prompt_display_notify
          (task_data_op_check_running E codes 0 none (restartCursor m)).2.2.world)
        Call.prompt_display_notify)
    refine ⟨_, cancelCheckCalls E m ++ [Call.prompt_display_notify,
      Call.svcCloseHandle m.data.cancelEvent, Call.aptSetSleepAllowed true], hw, hfin, ?_, ?_, ?_⟩
    · rw [hproc]
      show (task_data_op_check_running E codes 0 none (restartCursor m)).2.2.data.processed = 0
      rw [check_running_data]
      rfl
    · rw [hlog2]
      show ((task_data_op_check_running E codes 0 none (restartCursor m)).2.2.log ++ [_]) ++
        [Call.svcCloseHandle
          (task_data_op_check_running E codes 0 none (restartCursor m)).2.2.data.cancelEvent, _]
        = _
      rw [hlog, check_running_data]
      show ((m.log ++ cancelCheckCalls E m) ++ [Call.prompt_display_notify]) ++
        [Call.svcCloseHandle m.data.cancelEvent, Call.aptSetSleepAllowed true] = _
      rw [List.append_assoc, List.append_assoc]
      rfl
    · intro c hc
      rw [List.mem_append] at hc
      rcases hc with hc | hc
      · exact cancelCheckCalls_not_operationTable E m c hc
      · rw [List.mem_cons, List.mem_cons, List.mem_singleton] at hc
        rcases hc with rfl | rfl | rfl <;> rfl
  · have hloop : threadLoop E codes (fuel + 1) (restartCursor m) = some (restartCursor m) := by
      show (if 0 < m.data.total then _ else some (restartCursor m)) = _
      rw [if_neg h0]
    obtain ⟨hlog2, hfin, _, hproc⟩ := threadExit_spec E (restartCursor m)
    refine ⟨threadExit E (restartCursor m),
      [Call.svcCloseHandle m.data.cancelEvent, Call.aptSetSleepAllowed true], ?_, hfin, ?_,
      hlog2, ?_⟩
    · show Option.map (threadExit E) (threadLoop E codes (fuel + 1) (restartCursor m)) = _
      rw [hloop]
      rfl
    · rw [hproc]
      rfl
    · intro c hc
      rw [List.mem_cons, List.mem_singleton] at hc
      rcases hc with rfl | rfl <;> rfl

/-- C7 (zero-length source, `copyEmpty` false): for a Copy item that is not a
directory, whose source opens and whose size query succeeds with size 0,
`task_data_op_copy` returns `R_APP_BAD_DATA` (a failure code) whatever
`closeSrc` returns; the calls it makes are exactly `isSrcDirectory`, `openSrc`,
`getSrcSize` and `closeSrc` with `succeeded = false`, so `openDst` is never
called. -/
theorem empty_source_rejected {σ : Type} (E : Env σ) (codes : AppCodes) (fuel index : Nat)
    (m : Machine σ)
    (hbad : R_FAILED codes.R_APP_BAD_DATA)
    (hcopyEmpty : m.data.copyEmpty = false)
    (hdir : (E.isSrcDirectory index m.world).2.1 = false)
    (hopen : R_SUCCEEDED (srcOpen E index m.world).1)
    (hsize : R_SUCCEEDED (srcSize E index m.world).1)
    (hzero : (srcSize E index m.world).2.1 = 0) :
    ∃ mf, task_data_op_copy E codes fuel index m = some (codes.R_APP_BAD_DATA, mf) ∧
      mf.log = m.log ++
        [Call.isSrcDirectory index (E.isSrcDirectory index m.world).1 false,
         Call.openSrc index (srcOpen E index m.world).1 (srcOpen E index m.world).2.1,
         Call.getSrcSize (srcOpen E index m.world).2.1 (srcSize E index m.world).1 0,
         Call.closeSrc index false (srcOpen E index m.world).2.1
           (E.closeSrc index false (srcOpen E index m.world).2.1
             (srcSize E index m.world).2.2).1] := by
  have hnot : ¬ R_SUCCEEDED codes.R_APP_BAD_DATA := not_le.mpr hbad
  have hne : codes.R_APP_BAD_DATA ≠ 0 := ne_of_lt hbad
  simp only [srcOpen, srcSize] at hopen hsize hzero
  simp only [task_data_op_copy, emit_world, hdir, Bool.false_eq_true, and_false, if_false,
    hopen, if_true, copyOpened, hsize, hzero, copyEmptyFile, emit_data, hcopyEmpty, hnot, hne,
    decide_False, Option.some.injEq, Prod.mk.injEq, true_and, exists_eq_left', emit_log,
    srcOpen, srcSize, List.append_assoc, List.singleton_append, List.cons_append,
    List.nil_append]

/-- C8 (zero-length source, `copyEmpty` true): for a Copy item that is not a
directory, whose source opens and whose size query succeeds with size 0, when
the backend's `openDst`, `closeDst` and `closeSrc` succeed `task_data_op_copy`
returns the (successful) result of `closeSrc`; the calls it makes are exactly
`isSrcDirectory`, `openSrc`, `getSrcSize`, `openDst` with a null first-chunk
buffer and size hint 0, `closeDst` with `succeeded = true`, and `closeSrc`: no
`readSrc`, no `writeDst`; the byte cursor stays at `(0, 0)`. -/
theorem empty_source_copied {σ : Type} (E : Env σ) (codes : AppCodes) (fuel index : Nat)
    (m : Machine σ)
    (hcopyEmpty : m.data.copyEmpty = true)
    (hdir : (E.isSrcDirectory index m.world).2.1 = false)
    (hopen : R_SUCCEEDED (srcOpen E index m.world).1)
    (hsize : R_SUCCEEDED (srcSize E index m.world).1)
    (hzero : (srcSize E index m.world).2.1 = 0)
    (hopenDst : R_SUCCEEDED (emptyDstOpen E index m.world).1)
    (hcloseDst : R_SUCCEEDED (emptyDstClose E index m.world).1)
    (hcloseSrc : R_SUCCEEDED (emptySrcClose E index m.world).1) :
    ∃ mf, task_data_op_copy E codes fuel index m = some ((emptySrcClose E index m.world).1, mf) ∧
      R_SUCCEEDED (emptySrcClose E index m.world).1 ∧
      mf.log = m.log ++
        [Call.isSrcDirectory index (E.isSrcDirectory index m.world).1 false,
         Call.openSrc index (srcOpen E index m.world).1 (srcOpen E index m.world).2.1,
         Call.getSrcSize (srcOpen E index m.world).2.1 (srcSize E index m.world).1 0,
         Call.openDst index none 0 (emptyDstOpen E index m.world).1
           (emptyDstOpen E index m.world).2.1,
         Call.closeDst index true (emptyDstOpen E index m.world).2.1
           (emptyDstClose E index m.world).1,
         Call.closeSrc index (decide ((emptyDstClose E index m.world).1 = 0))
           (srcOpen E index m.world).2.1 (emptySrcClose E index m.world).1] ∧
      mf.data.currProcessed = 0 ∧ mf.data.currTotal = 0 := by
  simp only [emptySrcClose, emptyDstClose, emptyDstOpen, srcOpen, srcSize] at *
  simp only [task_data_op_copy, emit_world, hdir, Bool.false_eq_true, and_false, if_false,
    hopen, if_true, copyOpened, hsize, hzero, copyEmptyFile, emit_data, hcopyEmpty,
    hopenDst, hcloseDst, hcloseSrc, Option.some.injEq, Prod.mk.injEq, true_and,
    exists_eq_left', emit_log, List.append_assoc, List.singleton_append, List.cons_append,
    List.nil_append, and_self]

/-! ## Concrete runs -/

/-- Witness of C2 at `i = 0`, where the decrement wraps: the first of two
deletes fails with `-7`, the handler says proceed, the prompt is answered yes. -/
theorem retry_in_place_same_index_witness :
    ∃ m2, loopBody (scriptedEnv (plainScenario 0 true (some 0))) sampleCodes 3
        (startMachine [-7] data_op.DATAOP_DELETE 2 false) = some (m2, false) ∧
      m2.data.processed = u32_pred 0 ∧
      nextItem (forIncrement m2) = some 0 ∧
      threadLoop (scriptedEnv (plainScenario 0 true (some 0))) sampleCodes (3 + 1)
        (startMachine [-7] data_op.DATAOP_DELETE 2 false) =
      threadLoop (scriptedEnv (plainScenario 0 true (some 0))) sampleCodes 3 (forIncrement m2) :=
  retry_in_place_same_index (scriptedEnv (plainScenario 0 true (some 0))) sampleCodes 3
    (startMachine [-7] data_op.DATAOP_DELETE 2 false) (afterFirstDelete (-7) 2) (-7)
    (by decide) (by decide) rfl (by decide) (by decide) (by decide) rfl ⟨rfl, rfl⟩

/-- Witness of C3, abort branch: the first of two deletes fails with `-7`, the
handler says do not proceed, the prompt is answered `1` (not yes): the loop
ends with the cursor at 0. -/
theorem decline_retry_policy_witness :
    ∃ mf, threadLoop (scriptedEnv (plainScenario 0 false (some 1))) sampleCodes (3 + 1)
        (startMachine [-7] data_op.DATAOP_DELETE 2 false) = some mf ∧
      mf.data.processed = 0 ∧ operationCalls mf.log =
        [Call.delete 0 (-7), Call.error 0 (-7) false false] :=
  ⟨_, ((decline_retry_policy (scriptedEnv (plainScenario 0 false (some 1))) sampleCodes 3
    (startMachine [-7] data_op.DATAOP_DELETE 2 false) (afterFirstDelete (-7) 2) (-7) 1
    (by decide) (by decide) rfl (by decide) (by decide) (by decide) ⟨rfl, rfl⟩
    (by decide)).1 rfl).2.1, rfl, rfl⟩

/-- Witness of C4: the first of two deletes returns `R_APP_CANCELLED`. -/
theorem cancelled_item_stops_run_witness :
    ∃ mf, workerFrom (scriptedEnv (plainScenario 0 true (some 0))) sampleCodes (3 + 1)
        (startMachine [-1] data_op.DATAOP_DELETE 2 false) = some mf ∧
      mf.log = (afterFirstDelete (-1) 2).log ++ [Call.prompt_display_notify,
        Call.svcCloseHandle 7, Call.aptSetSleepAllowed true] ∧
      mf.data.result = -1 ∧ mf.data.finished = true ∧ mf.data.processed = 0 :=
  cancelled_item_stops_run (scriptedEnv (plainScenario 0 true (some 0))) sampleCodes 3
    (startMachine [-1] data_op.DATAOP_DELETE 2 false) (afterFirstDelete (-1) 2)
    (by decide) (by decide) rfl

/-- Witness of C5: the first of two deletes returns `R_APP_SKIPPED`. -/
theorem skipped_item_advances_witness :
    (forIncrement (storeResult sampleCodes.R_APP_SKIPPED (afterFirstDelete (-2) 2))).data.processed
      = 0 + 1 :=
  (skipped_item_advances (scriptedEnv (plainScenario 0 true (some 0))) sampleCodes 3
    (startMachine [-2] data_op.DATAOP_DELETE 2 false) (afterFirstDelete (-2) 2)
    (by decide) (by decide) (by decide) rfl).2.2.1

/-- Witness of C6: the cancel event is signalled before a copy run of 3 items. -/
theorem cancelled_before_first_item_witness :
    ∃ mf extra, task_data_op_thread
        (scriptedEnv { plainScenario 8 true (some 0) with cancelSignalled := true }) sampleCodes
        (0 + 1) (startMachine [] data_op.DATAOP_COPY 3 false) = some mf ∧
      mf.data.finished = true ∧ mf.data.processed = 0 ∧
      mf.log = [] ++ extra ∧ ∀ c ∈ extra, c.isOperationTable = false :=
  cancelled_before_first_item
    (scriptedEnv { plainScenario 8 true (some 0) with cancelSignalled := true }) sampleCodes 0
    (startMachine [] data_op.DATAOP_COPY 3 false) (by decide) (Or.inr rfl)

/-- Witness of C7: an empty regular file, `copyEmpty` false, and a `closeSrc`
that succeeds: the copy still returns `R_APP_BAD_DATA`. -/
theorem empty_source_rejected_witness :
    ∃ mf, task_data_op_copy (scriptedEnv (plainScenario 0 true (some 0))) sampleCodes 0 0
        (startMachine [] data_op.DATAOP_COPY 1 false) = some (-5, mf) ∧
      mf.log = [Call.isSrcDirectory 0 0 false, Call.openSrc 0 0 1, Call.getSrcSize 1 0 0,
        Call.closeSrc 0 false 1 0] :=
  empty_source_rejected (scriptedEnv (plainScenario 0 true (some 0))) sampleCodes 0 0
    (startMachine [] data_op.DATAOP_COPY 1 false) (by decide) rfl rfl (by decide) (by decide) rfl

/-- Witness of C8: an empty regular file, `copyEmpty` true, every call succeeds. -/
theorem empty_source_copied_witness :
    ∃ mf, task_data_op_copy (scriptedEnv (plainScenario 0 true (some 0))) sampleCodes 0 0
        (startMachine [] data_op.DATAOP_COPY 1 true) = some (0, mf) ∧
      R_SUCCEEDED (0 : Int) ∧
      mf.log = [Call.isSrcDirectory 0 0 false, Call.openSrc 0 0 1, Call.getSrcSize 1 0 0,
        Call.openDst 0 none 0 0 2, Call.closeDst 0 true 2 0, Call.closeSrc 0 true 1 0] ∧
      mf.data.currProcessed = 0 ∧ mf.data.currTotal = 0 :=
  empty_source_copied (scriptedEnv (plainScenario 0 true (some 0))) sampleCodes 0 0
    (startMachine [] data_op.DATAOP_COPY 1 true) rfl rfl (by decide) (by decide) rfl
    (by decide) (by decide) (by decide)

/-- What the loop does on retry with `proceed = false`, for every run: line 197
sets the cursor to 0 and the `for` statement then increments it, so the next
item executed is index 1 (or none when `total = 1`); index 0 is not executed. -/
theorem restart_then_increment {σ : Type} (E : Env σ) (codes : AppCodes) (fuel : Nat)
    (m m1 : Machine σ) (res : Int)
    (hi : m.data.processed < m.data.total)
    (hrun : runItem E codes fuel m = some (res, m1))
    (hfail : R_FAILED res) (hc : res ≠ codes.R_APP_CANCELLED) (hs : res ≠ codes.R_APP_SKIPPED)
    (hproceed : (callErrorHandler E res (storeResult res m1)).1 = false)
    (hyes : PromptAnswered E (callErrorHandler E res (storeResult res m1)).2 codes.PROMPT_YES) :
    ∃ m2, loopBody E codes fuel m = some (m2, false) ∧
      m2.data.processed = 0 ∧
      nextItem (forIncrement m2) = (if 1 < m.data.total then some 1 else none) ∧
      threadLoop E codes (fuel + 1) m = threadLoop E codes fuel (forIncrement m2) := by
  obtain ⟨hview, hresp⟩ := askRetry_answered E codes _ _ hyes
  rw [decide_eq_true rfl] at hresp
  obtain ⟨_, hat⟩ := prompt_cursor E codes fuel m m1 res hrun
  have hbody := loopBody_of_runItem E codes fuel m m1 res hrun
  rw [handleOutcome_retry E codes res m1 hfail hc hs,
    retryCoordinator_policy E codes res _ hview, hresp, hproceed] at hbody
  obtain ⟨h1, h2⟩ := nextItem_after_restartCursor _ _ hat
  exact ⟨_, hbody, h1, h2, threadLoop_continue E codes fuel m _ hi hbody⟩

/-- C1 (restart from zero) does not hold of the code.  Two deletes; item 0
succeeds, item 1 fails with `-7`, the handler returns `proceed = false` and the
prompt is answered yes.  The iteration leaves the cursor at 0, the loop's
increment makes the next item index 1, and over the whole run the operation
table is called for items 0, 1, 1: item 0 is not executed again. -/
theorem restart_next_item_is_index_one :
    (loopBody (scriptedEnv (plainScenario 0 false (some 0))) sampleCodes 3 atSecondDelete).map
      (fun r => (r.1.data.processed, r.2, nextItem (forIncrement r.1))) =
      some (0, false, some 1) ∧
    (task_data_op_thread (scriptedEnv (plainScenario 0 false (some 0))) sampleCodes 4
        (startMachine [0, -7] data_op.DATAOP_DELETE 2 false)).map
      (fun mf => (operationCalls mf.log, mf.data.processed, mf.data.result, mf.data.finished)) =
      some ([Call.delete 0 0, Call.delete 1 (-7), Call.error 1 (-7) false false,
        Call.delete 1 0], 2, 0, true) := by
  constructor <;> rfl

/-- C9 (error propagation) does not hold of the code for the is-directory
query.  `isSrcDirectory` fails with `-7` on a 4-byte file and every other call
succeeds: the copy goes on to open, read and write, and returns 0, not `-7`. -/
theorem is_directory_failure_not_propagated :
    (task_data_op_copy (scriptedEnv (plainScenario 4 true (some 0))) sampleCodes 2 0
        (startMachine [-7] data_op.DATAOP_COPY 1 false)).map
      (fun r => (r.1, operationCalls r.2.log)) =
    some (0, [Call.isSrcDirectory 0 (-7) false, Call.openSrc 0 0 1, Call.getSrcSize 1 0 4,
      Call.readSrc 1 0 4 0 4, Call.openDst 0 (some [0, 0, 0, 0]) 4 0 2,
      Call.writeDst 2 [0, 0, 0, 0] 0 4 0 4, Call.closeDst 0 true 2 0,
      Call.closeSrc 0 true 1 0]) := by
  rfl

/-- C10 (close precedence) does not hold of the code when the first failure is
the is-directory query.  `isSrcDirectory` fails with `-7` on an empty file
(`copyEmpty` set), the calls up to `closeDst` succeed and `closeSrc` fails with
`-9`: both closes are passed `succeeded = true` and the copy returns `-9`, the
later failure. -/
theorem close_failure_replaces_is_directory_failure :
    (task_data_op_copy (scriptedEnv (plainScenario 0 true (some 0))) sampleCodes 0 0
        (startMachine [-7, 0, 0, 0, 0, -9] data_op.DATAOP_COPY 1 true)).map
      (fun r => (r.1, r.2.log)) =
    some (-9, [Call.isSrcDirectory 0 (-7) false, Call.openSrc 0 0 1, Call.getSrcSize 1 0 0,
      Call.openDst 0 none 0 0 2, Call.closeDst 0 true 2 0, Call.closeSrc 0 true 1 (-9)]) := by
  rfl

/-! ## Cancellation priority and the start routine -/

/-- C13 (cancellation priority): whenever quit-all is set or the cancel event
is signalled, `task_data_op_check_running` returns `R_APP_CANCELLED`, leaves the
handles alone, and the only calls it makes are the quit-all query and the
zero-timeout wait on the cancel event: no `suspendTransfer`, `suspend`,
`restore` or `restoreTransfer`, no query of the suspend event and no wait on
the pause event, whatever the suspend event would have answered. -/
theorem cancellation_has_priority {σ : Type} (E : Env σ) (codes : AppCodes) (index : Nat)
    (handles : Option (Nat × Nat)) (m : Machine σ)
    (hcancel : (E.task_is_quit_all m.world).1 = true ∨
      (E.svcWaitSynchronization (WaitTarget.cancelEvent m.data.cancelEvent) 0
        (E.task_is_quit_all m.world).2).1 = 0) :
    ∃ calls, (task_data_op_check_running E codes index handles m).1 = codes.R_APP_CANCELLED ∧
      (task_data_op_check_running E codes index handles m).2.1 = handles ∧
      (task_data_op_check_running E codes index handles m).2.2.log = m.log ++ calls ∧
      ∀ c ∈ calls, c.isCancelQuery = true := by
  obtain ⟨hres, hh, hlog⟩ := check_running_cancelled E codes index handles m hcancel
  refine ⟨cancelCheckCalls E m, hres, hh, hlog, ?_⟩
  intro c hc
  unfold cancelCheckCalls at hc
  split at hc
  · rw [List.mem_singleton] at hc
    subst hc
    rfl
  · rw [List.mem_cons, List.mem_singleton] at hc
    rcases hc with rfl | rfl <;> rfl

/-- Witness of C13: the cancel event is signalled while a suspend is asserted
and every hook is present, in the middle of a copy with live handles. -/
theorem cancellation_has_priority_witness :
    ∃ calls, (task_data_op_check_running
        (scriptedEnv { plainScenario 8 true none with
          cancelSignalled := true, suspendAsserted := true })
        sampleCodes 0 (some (1, 2)) (startMachine [] data_op.DATAOP_COPY 1 false)).1 = -1 ∧
      (task_data_op_check_running
        (scriptedEnv { plainScenario 8 true none with
          cancelSignalled := true, suspendAsserted := true })
        sampleCodes 0 (some (1, 2)) (startMachine [] data_op.DATAOP_COPY 1 false)).2.1
        = some (1, 2) ∧
      (task_data_op_check_running
        (scriptedEnv { plainScenario 8 true none with
          cancelSignalled := true, suspendAsserted := true })
        sampleCodes 0 (some (1, 2)) (startMachine [] data_op.DATAOP_COPY 1 false)).2.2.log
        = [] ++ calls ∧
      ∀ c ∈ calls, c.isCancelQuery = true :=
  cancellation_has_priority
    (scriptedEnv { plainScenario 8 true none with
      cancelSignalled := true, suspendAsserted := true })
    sampleCodes 0 (some (1, 2)) (startMachine [] data_op.DATAOP_COPY 1 false) (Or.inr rfl)

/-- C15 (start contract): `task_data_op(NULL)` returns `R_APP_INVALID_ARGUMENT`.
For a non-null run state, on return `processed`, `currProcessed`, `currTotal`
and `result` are 0; the call returns a failure exactly when `svcCreateEvent`
failed or `threadCreate` returned `NULL` (`R_APP_THREAD_CREATE_FAILED` being a
failure code); on success `finished` is false, the worker thread exists and
`cancelEvent` holds the created handle; on failure `finished` is true, the
worker thread was not created, `cancelEvent` is 0 and, when `svcCreateEvent`
had stored a non-zero handle, that handle has been passed to `svcCloseHandle`. -/
theorem start_contract {σ : Type} (E : Env σ) (codes : AppCodes) (w : σ) (log : List Call)
    (hneg : R_FAILED codes.R_APP_THREAD_CREATE_FAILED) :
    task_data_op E codes w log none = (codes.R_APP_INVALID_ARGUMENT, none) ∧
    ∀ d : data_op_data,
      task_data_op E codes w log (some d) =
        ((startRun E codes { world := w, data := d, log := log }).1,
          some (startRun E codes { world := w, data := d, log := log }).2) ∧
      (startRun E codes { world := w, data := d, log := log }).2.1.data.processed = 0 ∧
      (startRun E codes { world := w, data := d, log := log }).2.1.data.currProcessed = 0 ∧
      (startRun E codes { world := w, data := d, log := log }).2.1.data.currTotal = 0 ∧
      (startRun E codes { world := w, data := d, log := log }).2.1.data.result = 0 ∧
      (R_FAILED (startRun E codes { world := w, data := d, log := log }).1 ↔
        (R_FAILED (E.svcCreateEvent w).1 ∨
          (E.threadCreate (E.svcCreateEvent w).2.2).1 = false)) ∧
      (R_SUCCEEDED (startRun E codes { world := w, data := d, log := log }).1 →
        (startRun E codes { world := w, data := d, log := log }).2.1.data.finished = false ∧
        (startRun E codes { world := w, data := d, log := log }).2.2 = true ∧
        (startRun E codes { world := w, data := d, log := log }).2.1.data.cancelEvent =
          (E.svcCreateEvent w).2.1) ∧
      (R_FAILED (startRun E codes { world := w, data := d, log := log }).1 →
        (startRun E codes { world := w, data := d, log := log }).2.1.data.finished = true ∧
        (startRun E codes { world := w, data := d, log := log }).2.2 = false ∧
        (startRun E codes { world := w, data := d, log := log }).2.1.data.cancelEvent = 0 ∧
        ((E.svcCreateEvent w).2.1 ≠ 0 →
          Call.svcCloseHandle (E.svcCreateEvent w).2.1 ∈
            (startRun E codes { world := w, data := d, log := log }).2.1.log)) := by
  refine ⟨rfl, fun d => ⟨rfl, ?_⟩⟩
  have hnot : ¬ R_SUCCEEDED codes.R_APP_THREAD_CREATE_FAILED := not_le.mpr hneg
  by_cases h1 : R_SUCCEEDED (E.svcCreateEvent w).1
  · have h1' : ¬ R_FAILED (E.svcCreateEvent w).1 := not_lt.mpr h1
    cases h2 : (E.threadCreate (E.svcCreateEvent w).2.2).1
    · by_cases h3 : (E.svcCreateEvent w).2.1 = 0
      · simp [startRun, h1, h1', h2, h3, hneg, hnot]
      · simp [startRun, h1, h1', h2, h3, hneg, hnot]
    · simp [startRun, h1, h1', h2]
  · have h1' : R_FAILED (E.svcCreateEvent w).1 := not_le.mp h1
    by_cases h3 : (E.svcCreateEvent w).2.1 = 0
    · simp [startRun, h1, h1', h3]
    · simp [startRun, h1, h1', h3]

/-- Witness of C15 with the sample constants. -/
theorem start_contract_witness :
    task_data_op (scriptedEnv (plainScenario 0 true none)) sampleCodes [] [] none =
      (-14, none) ∧
    (startRun (scriptedEnv (plainScenario 0 true none)) sampleCodes
      (startMachine [] data_op.DATAOP_COPY 3 false)).1 = 0 :=
  ⟨(start_contract (scriptedEnv (plainScenario 0 true none)) sampleCodes [] []
      (by decide)).1, rfl⟩

/-- C18 (sleep inhibition) does not hold of the code on the failure path.
`svcCreateEvent` succeeds with handle 7 and `threadCreate` returns `NULL`:
`task_data_op` closes the event, returns `R_APP_THREAD_CREATE_FAILED`, no worker
exists to re-enable sleep, and its last call is `aptSetSleepAllowed(false)`. -/
theorem failed_start_leaves_sleep_disabled :
    (startRun { scriptedEnv (plainScenario 0 true none) with threadCreate := fun w => (false, w) }
      sampleCodes (startMachine [] data_op.DATAOP_COPY 3 false)).1 = -3 ∧
    (startRun { scriptedEnv (plainScenario 0 true none) with threadCreate := fun w => (false, w) }
      sampleCodes (startMachine [] data_op.DATAOP_COPY 3 false)).2.2 = false ∧
    (startRun { scriptedEnv (plainScenario 0 true none) with threadCreate := fun w => (false, w) }
      sampleCodes (startMachine [] data_op.DATAOP_COPY 3 false)).2.1.log =
      [Call.svcCreateEvent 0 7, Call.threadCreate false, Call.svcCloseHandle 7,
        Call.aptSetSleepAllowed false] ∧
    sleepAllowedAfter (startRun
      { scriptedEnv (plainScenario 0 true none) with threadCreate := fun w => (false, w) }
      sampleCodes (startMachine [] data_op.DATAOP_COPY 3 false)).2.1.log = some false := by
  refine ⟨rfl, rfl, rfl, rfl⟩

/-! ## The item cursor between iterations -/

theorem retryCoordinator_cursor {σ : Type} (E : Env σ) (codes : AppCodes) (res : Int)
    (m : Machine σ) :
    (retryCoordinator E codes res m).1.data.total = m.data.total ∧
    ((retryCoordinator E codes res m).1.data.processed = m.data.processed ∨
      ((retryCoordinator E codes res m).2 = false ∧
        ((retryCoordinator E codes res m).1.data.processed = u32_pred m.data.processed ∨
          (retryCoordinator E codes res m).1.data.processed = 0))) := by
  obtain ⟨hap, hat⟩ := askRetry_processed E codes (callErrorHandler E res m).2
  rw [callErrorHandler_data] at hap hat
  unfold retryCoordinator
  simp only []
  split
  · split
    · split
      · exact ⟨hat, Or.inr ⟨rfl, Or.inl (congrArg u32_pred hap)⟩⟩
      · exact ⟨hat, Or.inr ⟨rfl, Or.inr rfl⟩⟩
    · split
      · exact ⟨hat, Or.inl hap⟩
      · exact ⟨hat, Or.inl hap⟩
  · exact ⟨hat, Or.inl hap⟩

theorem handleOutcome_cursor {σ : Type} (E : Env σ) (codes : AppCodes) (res : Int)
    (m : Machine σ) :
    (handleOutcome E codes res m).1.data.total = m.data.total ∧
    ((handleOutcome E codes res m).1.data.processed = m.data.processed ∨
      ((handleOutcome E codes res m).2 = false ∧
        ((handleOutcome E codes res m).1.data.processed = u32_pred m.data.processed ∨
          (handleOutcome E codes res m).1.data.processed = 0))) := by
  unfold handleOutcome
  simp only []
  split
  · split
    · exact ⟨rfl, Or.inl rfl⟩
    · split
      · exact retryCoordinator_cursor E codes res (storeResult res m)
      · exact ⟨rfl, Or.inl rfl⟩
  · exact ⟨rfl, Or.inl rfl⟩

theorem u32_pred_le (p t : Nat) (hp : p ≠ 0) (hi : p < t) : u32_pred p ≤ t := by
  unfold u32_pred
  rw [if_neg hp]
  omega

theorem u32_pred_of_zero (p : Nat) (hp : p = 0) : u32_pred p = 4294967295 := by
  unfold u32_pred
  rw [if_pos hp]

theorem u32_add_zero_one : u32_add 0 1 = 1 := by
  decide

/-- One iteration from a loop state with `processed < total < 2^32`: `total` is
kept; the cursor the body leaves is within `total`, or it is the wrapped
`2^32 - 1` of a retry-in-place at index 0; and after the increment the cursor
is within `total` again. -/
theorem loopBody_cursor {σ : Type} (E : Env σ) (codes : AppCodes) (fuel : Nat)
    (m m2 : Machine σ) (brk : Bool)
    (hi : m.data.processed < m.data.total) (ht : m.data.total < 4294967296)
    (hbody : loopBody E codes fuel m = some (m2, brk)) :
    m2.data.total = m.data.total ∧
    (m2.data.processed ≤ m.data.total ∨
      (m.data.processed = 0 ∧ m2.data.processed = 4294967295 ∧ brk = false)) ∧
    (brk = true → m2.data.processed ≤ m.data.total) ∧
    (brk = false → (forIncrement m2).data.processed ≤ m.data.total) := by
  unfold loopBody at hbody
  split at hbody
  · exact absurd hbody (by simp)
  · rename_i r hrun
    have hctl := runItem_control E codes fuel m r hrun
    have hp1 : r.2.data.processed = m.data.processed := control_processed hctl
    have ht1 : r.2.data.total = m.data.total := control_total hctl
    obtain ⟨htot, hcur⟩ := handleOutcome_cursor E codes r.1 r.2
    rw [Option.some.injEq] at hbody
    rw [hbody] at htot hcur
    rw [ht1] at htot
    rw [hp1] at hcur
    have hinc : (forIncrement m2).data.processed = u32_add m2.data.processed 1 := rfl
    refine ⟨htot, ?_, ?_, ?_⟩
    · rcases hcur with h | ⟨hb, h | h⟩
      · exact Or.inl (by rw [h]; exact Nat.le_of_lt hi)
      · by_cases hp : m.data.processed = 0
        · exact Or.inr ⟨hp, by rw [h]; exact u32_pred_of_zero _ hp, hb⟩
        · exact Or.inl (by rw [h]; exact u32_pred_le _ _ hp hi)
      · exact Or.inl (by rw [h]; exact Nat.zero_le _)
    · intro hb
      rcases hcur with h | ⟨hb', _⟩
      · rw [h]
        exact Nat.le_of_lt hi
      · rw [hb] at hb'
        exact Bool.noConfusion hb'
    · intro _
      rw [hinc]
      rcases hcur with h | ⟨_, h | h⟩
      · rw [h, u32_increment _ _ hi ht]
        exact hi
      · rw [h, u32_decrement_increment _ _ hi ht]
        exact Nat.le_of_lt hi
      · rw [h, u32_add_zero_one]
        omega

/-- The cursor is within `total` when the `for` loop ends, if it was when the
loop was entered. -/
theorem threadLoop_cursor {σ : Type} (E : Env σ) (codes : AppCodes) :
    ∀ (fuel : Nat) (m mf : Machine σ), m.data.processed ≤ m.data.total →
      m.data.total < 4294967296 → threadLoop E codes fuel m = some mf →
      mf.data.processed ≤ mf.data.total ∧ mf.data.total = m.data.total := by
  intro fuel
  induction fuel with
  | zero =>
    intro m mf _ _ h
    exact absurd h (by simp [threadLoop])
  | succ n ih =>
    intro m mf hle ht h
    unfold threadLoop at h
    split at h
    · rename_i hi
      split at h
      · exact absurd h (by simp)
      · rename_i r hbody
        obtain ⟨htot, _, hbrk, hcont⟩ := loopBody_cursor E codes n m r.1 r.2 hi ht hbody
        split at h
        · rename_i hb
          rw [Option.some.injEq] at h
          subst h
          exact ⟨by rw [htot]; exact hbrk hb, htot⟩
        · rename_i hb
          have hb' : r.2 = false := by
            cases hr : r.2
            · rfl
            · exact absurd hr hb
          have htot' : (forIncrement r.1).data.total = m.data.total := htot
          obtain ⟨h1, h2⟩ := ih (forIncrement r.1) mf (by rw [htot']; exact hcont hb')
            (by rw [htot']; exact ht) h
          exact ⟨h1, h2.trans htot'⟩
    · rw [Option.some.injEq] at h
      subst h
      exact ⟨hle, rfl⟩

/-- C17 as stated does not hold of the code: retry-in-place of item 0 (two
deletes, the first fails with `-7`, handler says proceed, prompt answered yes)
leaves `processed = 2^32 - 1 > total = 2` after the write of line 195. -/
theorem retry_at_zero_breaks_cursor_bound :
    (loopBody (scriptedEnv (plainScenario 0 true (some 0))) sampleCodes 3
        (startMachine [-7] data_op.DATAOP_DELETE 2 false)).map
      (fun r => (r.1.data.processed, r.1.data.total,
        decide (r.1.data.processed ≤ r.1.data.total))) =
    some (4294967295, 2, false) := by
  rfl

/-- C17 amended (item cursor between iterations): in a run started by the
`for` statement with `total < 2^32`, `processed <= total` holds at every
evaluation of the loop condition and when the loop ends; within an iteration
the cursor the body leaves is within `total` except after the decrement of a
retry-in-place at index 0, which stores `2^32 - 1` until the increment of the
`for` statement brings the cursor back within `total`. -/
theorem cursor_within_total_between_iterations {σ : Type} (E : Env σ) (codes : AppCodes)
    (fuel : Nat) (m : Machine σ) (ht : m.data.total < 4294967296) :
    (restartCursor m).data.processed ≤ (restartCursor m).data.total ∧
    (∀ (s s2 : Machine σ) (brk : Bool) (f : Nat),
      s.data.processed < s.data.total → s.data.total < 4294967296 →
      loopBody E codes f s = some (s2, brk) →
        s2.data.total = s.data.total ∧
        (s2.data.processed ≤ s.data.total ∨
          (s.data.processed = 0 ∧ s2.data.processed = 4294967295 ∧ brk = false)) ∧
        (brk = true → s2.data.processed ≤ s.data.total) ∧
        (brk = false → (forIncrement s2).data.processed ≤ s.data.total)) ∧
    (∀ mf, task_data_op_thread E codes fuel m = some mf →
      mf.data.processed ≤ mf.data.total) := by
  refine ⟨Nat.zero_le _, ?_, ?_⟩
  · intro s s2 brk f hi hs hbody
    exact loopBody_cursor E codes f s s2 brk hi hs hbody
  · intro mf h
    unfold task_data_op_thread workerFrom at h
    cases hl : threadLoop E codes fuel (restartCursor m) with
    | none =>
      rw [hl] at h
      exact absurd h (by simp)
    | some ml =>
      rw [hl, Option.map_some', Option.some.injEq] at h
      obtain ⟨h1, _⟩ := threadLoop_cursor E codes fuel (restartCursor m) ml (Nat.zero_le _) ht hl
      subst h
      exact h1

/-- Witness of the amended C17 on a run of two deletes in which the first is
retried in place. -/
theorem cursor_within_total_between_iterations_witness :
    ∃ mf, task_data_op_thread (scriptedEnv (plainScenario 0 true (some 0))) sampleCodes 4
        (startMachine [-7] data_op.DATAOP_DELETE 2 false) = some mf ∧
      mf.data.processed ≤ mf.data.total := by
  have h := cursor_within_total_between_iterations (scriptedEnv (plainScenario 0 true (some 0)))
    sampleCodes 4 (startMachine [-7] data_op.DATAOP_DELETE 2 false) (by decide)
  exact ⟨_, rfl, h.2.2 _ rfl⟩

/-! ## One pass of the chunk loop -/

theorem copyChunkWrite_outcome {σ : Type} (E : Env σ) (bytesRead : Nat) (l : CopyLocals)
    (m : Machine σ) : ChunkOutcome E l m.data (copyChunkWrite E bytesRead l m) := by
  unfold copyChunkWrite
  simp only []
  split
  · exact Or.inl ⟨rfl, rfl, rfl, rfl, rfl⟩
  · rename_i hw
    exact Or.inr ⟨l.dstHandle, l.buffer, bytesRead, m.world,
      { l with res := (E.writeDst l.dstHandle l.buffer m.data.currProcessed bytesRead m.world).1 },
      m.emit (E.writeDst l.dstHandle l.buffer m.data.currProcessed bytesRead m.world).2.2
        (Call.writeDst l.dstHandle l.buffer m.data.currProcessed bytesRead
          (E.writeDst l.dstHandle l.buffer m.data.currProcessed bytesRead m.world).1
          (E.writeDst l.dstHandle l.buffer m.data.currProcessed bytesRead m.world).2.1),
      not_lt.mp hw, rfl, rfl, rfl, rfl, rfl⟩

theorem copyChunkOpenDst_outcome {σ : Type} (E : Env σ) (index bytesRead : Nat)
    (l : CopyLocals) (m : Machine σ) :
    ChunkOutcome E l m.data (copyChunkOpenDst E index bytesRead l m) := by
  unfold copyChunkOpenDst
  simp only []
  split
  · split
    · exact Or.inl ⟨rfl, rfl, rfl, rfl, rfl⟩
    · exact copyChunkWrite_outcome E bytesRead _ _
  · exact copyChunkWrite_outcome E bytesRead l m

theorem copyChunkRead_outcome {σ : Type} (E : Env σ) (index : Nat) (l : CopyLocals)
    (m : Machine σ) : ChunkOutcome E l m.data (copyChunkRead E index l m) := by
  unfold copyChunkRead
  simp only []
  split
  · exact Or.inl ⟨rfl, rfl, rfl, rfl, rfl⟩
  · exact copyChunkOpenDst_outcome E index _ _ _

/-- Every pass through the loop body is a `ChunkOutcome` of the state it was
entered in. -/
theorem copyChunk_outcome {σ : Type} (E : Env σ) (codes : AppCodes) (index : Nat)
    (l : CopyLocals) (m : Machine σ) :
    ChunkOutcome E l m.data (copyChunk E codes index l m) := by
  have hd := check_running_data E codes m.data.processed (some (l.srcHandle, l.dstHandle)) m
  unfold copyChunk
  simp only []
  split
  · exact Or.inl ⟨rfl, hd, rfl, rfl, rfl⟩
  · have h := copyChunkRead_outcome E index
      { l with
        res := (task_data_op_check_running E codes m.data.processed
          (some (l.srcHandle, l.dstHandle)) m).1,
        srcHandle := ((task_data_op_check_running E codes m.data.processed
          (some (l.srcHandle, l.dstHandle)) m).2.1.getD (l.srcHandle, l.dstHandle)).1,
        dstHandle := ((task_data_op_check_running E codes m.data.processed
          (some (l.srcHandle, l.dstHandle)) m).2.1.getD (l.srcHandle, l.dstHandle)).2 }
      (task_data_op_check_running E codes m.data.processed
        (some (l.srcHandle, l.dstHandle)) m).2.2
    rw [hd] at h
    exact h

/-! ## The estimator -/

/-- Lines 104-121 when less than 1000 ms have passed since the last sample:
nothing of the estimator is written except the per-second byte counter. -/
theorem copyAccount_no_sample {σ : Type} (E : Env σ) (bw : Nat) (l : CopyLocals)
    (m : Machine σ)
    (h : u64_sub (E.osGetTime m.world).1 l.lastBytesPerSecondUpdate < 1000) :
    (copyAccount E bw l m).2.data.bytesPerSecond = m.data.bytesPerSecond ∧
    (copyAccount E bw l m).2.data.estimatedRemainingSeconds = m.data.estimatedRemainingSeconds ∧
    (copyAccount E bw l m).1.lastBytesPerSecondUpdate = l.lastBytesPerSecondUpdate ∧
    (copyAccount E bw l m).1.ioStartTime = l.ioStartTime ∧
    (copyAccount E bw l m).1.bytesSinceUpdate = u32_add l.bytesSinceUpdate bw := by
  have h' : ¬ 1000 ≤ u64_sub (E.osGetTime m.world).1 l.lastBytesPerSecondUpdate := not_le.mpr h
  unfold copyAccount
  simp only []
  rw [if_neg h']
  exact ⟨rfl, rfl, rfl, rfl, rfl⟩

/-- Lines 104-121 when at least 1000 ms have passed since the last sample. -/
theorem copyAccount_sample {σ : Type} (E : Env σ) (bw : Nat) (l : CopyLocals)
    (m : Machine σ)
    (h : 1000 ≤ u64_sub (E.osGetTime m.world).1 l.lastBytesPerSecondUpdate) :
    (copyAccount E bw l m).2.data.bytesPerSecond =
      E.bytesPerSecondOf (u32_add l.bytesSinceUpdate bw)
        (u64_sub (E.osGetTime m.world).1 l.lastBytesPerSecondUpdate) ∧
    (l.ioStartTime = 0 → (copyAccount E bw l m).2.data.estimatedRemainingSeconds = 0) ∧
    (l.ioStartTime ≠ 0 → (copyAccount E bw l m).1.ioStartTime = l.ioStartTime) ∧
    (copyAccount E bw l m).1.bytesSinceUpdate = 0 ∧
    (copyAccount E bw l m).1.lastBytesPerSecondUpdate = (E.osGetTime m.world).1 := by
  unfold copyAccount
  simp only []
  rw [if_pos h]
  refine ⟨rfl, ?_, ?_, rfl, rfl⟩
  · intro h0
    show (if l.ioStartTime ≠ 0 then _ else 0) = 0
    rw [if_neg (not_not.mpr h0)]
  · intro h0
    show (if l.ioStartTime = 0 ∧ _ then _ else l.ioStartTime) = l.ioStartTime
    rw [if_neg (fun hc => h0 hc.1)]

/-- A pass through the loop body either writes nothing of the estimator (rate,
ETA, sample timestamp and `ioStartTime` are as before), or it is a sample: the
clock read `t` with at least 1000 ms since the previous sample, the timestamp
becomes `t`, the per-second counter is reset, and the ETA written is 0 when
`ioStartTime` was not yet set. -/
theorem copyChunk_estimator {σ : Type} (E : Env σ) (codes : AppCodes) (index : Nat)
    (l : CopyLocals) (m : Machine σ) :
    ((copyChunk E codes index l m).2.1.data.bytesPerSecond = m.data.bytesPerSecond ∧
      (copyChunk E codes index l m).2.1.data.estimatedRemainingSeconds =
        m.data.estimatedRemainingSeconds ∧
      (copyChunk E codes index l m).1.lastBytesPerSecondUpdate = l.lastBytesPerSecondUpdate ∧
      (copyChunk E codes index l m).1.ioStartTime = l.ioStartTime) ∨
    (∃ t, 1000 ≤ u64_sub t l.lastBytesPerSecondUpdate ∧
      (copyChunk E codes index l m).1.lastBytesPerSecondUpdate = t ∧
      (copyChunk E codes index l m).1.bytesSinceUpdate = 0 ∧
      (l.ioStartTime = 0 →
        (copyChunk E codes index l m).2.1.data.estimatedRemainingSeconds = 0) ∧
      (l.ioStartTime ≠ 0 → (copyChunk E codes index l m).1.ioStartTime = l.ioStartTime)) := by
  rcases copyChunk_outcome E codes index l m with ⟨_, hd, hio, hlast, _⟩ |
    ⟨h, buf, sz, w, l4, m4, _, hd, hio, hlast, hbs, hr⟩
  · exact Or.inl ⟨by rw [hd], by rw [hd], hlast, hio⟩
  · rw [hr]
    by_cases hs : 1000 ≤ u64_sub (E.osGetTime m4.world).1 l4.lastBytesPerSecondUpdate
    · obtain ⟨_, h0, h1, h2, h3⟩ :=
        copyAccount_sample E (E.writeDst h buf m.data.currProcessed sz w).2.1 l4 m4 hs
      refine Or.inr ⟨(E.osGetTime m4.world).1, by rw [← hlast]; exact hs, h3, h2, ?_, ?_⟩
      · intro hz
        exact h0 (hio.trans hz)
      · intro hz
        exact (h1 (fun hc => hz (hio.symm.trans hc))).trans hio
    · obtain ⟨h0, h1, h2, h3, _⟩ :=
        copyAccount_no_sample E (E.writeDst h buf m.data.currProcessed sz w).2.1 l4 m4
          (not_le.mp hs)
      exact Or.inl ⟨h0.trans (by rw [hd]), h1.trans (by rw [hd]), h2.trans hlast, h3.trans hio⟩

/-- While `ioStartTime` is not set the ETA reads 0, in every state of the chunk
loop reached from a state where that holds. -/
theorem copyLoopAfter_eta {σ : Type} (E : Env σ) (codes : AppCodes) (index : Nat) :
    ∀ (n : Nat) (l : CopyLocals) (m : Machine σ),
      (l.ioStartTime = 0 → m.data.estimatedRemainingSeconds = 0) →
      ((copyLoopAfter E codes index n l m).1.ioStartTime = 0 →
        (copyLoopAfter E codes index n l m).2.data.estimatedRemainingSeconds = 0) := by
  intro n
  induction n with
  | zero =>
    intro l m h
    exact h
  | succ n ih =>
    intro l m h
    have hstep : (copyChunk E codes index l m).1.ioStartTime = 0 →
        (copyChunk E codes index l m).2.1.data.estimatedRemainingSeconds = 0 := by
      intro hz
      rcases copyChunk_estimator E codes index l m with ⟨_, he, _, hio⟩ | ⟨t, _, _, _, h0, h1⟩
      · rw [he]
        exact h (hio.symm.trans hz)
      · by_cases hl : l.ioStartTime = 0
        · exact h0 hl
        · exact absurd ((h1 hl).symm.trans hz) hl
    unfold copyLoopAfter
    split
    · split
      · exact hstep
      · exact ih _ _ hstep
    · exact h

/-- C19 (estimator sampling): (1) the accounting of a chunk writes neither
`bytesPerSecond` nor `estimatedRemainingSeconds`, and keeps the sample timestamp
and `ioStartTime`, when less than 1000 ms have passed since the previous sample;
when at least 1000 ms have passed it writes the rate, writes ETA 0 if
`ioStartTime` is not yet set, resets the per-second byte counter and sets the
sample timestamp to the clock reading; (2) a pass through the loop body changes
the estimator only through such a sample; (3) from the start of an item's loop
(`ioStartTime = 0`, ETA reset to 0) the ETA reads 0 in every state of the loop
in which `ioStartTime` is still unset, so the first sample reports ETA 0. -/
theorem estimator_sampled_once_per_second {σ : Type} (E : Env σ) (codes : AppCodes)
    (index : Nat) :
    (∀ (bw : Nat) (l : CopyLocals) (m : Machine σ),
      (u64_sub (E.osGetTime m.world).1 l.lastBytesPerSecondUpdate < 1000 →
        (copyAccount E bw l m).2.data.bytesPerSecond = m.data.bytesPerSecond ∧
        (copyAccount E bw l m).2.data.estimatedRemainingSeconds =
          m.data.estimatedRemainingSeconds ∧
        (copyAccount E bw l m).1.lastBytesPerSecondUpdate = l.lastBytesPerSecondUpdate ∧
        (copyAccount E bw l m).1.ioStartTime = l.ioStartTime ∧
        (copyAccount E bw l m).1.bytesSinceUpdate = u32_add l.bytesSinceUpdate bw) ∧
      (1000 ≤ u64_sub (E.osGetTime m.world).1 l.lastBytesPerSecondUpdate →
        (copyAccount E bw l m).2.data.bytesPerSecond =
          E.bytesPerSecondOf (u32_add l.bytesSinceUpdate bw)
            (u64_sub (E.osGetTime m.world).1 l.lastBytesPerSecondUpdate) ∧
        (l.ioStartTime = 0 → (copyAccount E bw l m).2.data.estimatedRemainingSeconds = 0) ∧
        (l.ioStartTime ≠ 0 → (copyAccount E bw l m).1.ioStartTime = l.ioStartTime) ∧
        (copyAccount E bw l m).1.bytesSinceUpdate = 0 ∧
        (copyAccount E bw l m).1.lastBytesPerSecondUpdate = (E.osGetTime m.world).1)) ∧
    (∀ (l : CopyLocals) (m : Machine σ),
      ((copyChunk E codes index l m).2.1.data.bytesPerSecond = m.data.bytesPerSecond ∧
        (copyChunk E codes index l m).2.1.data.estimatedRemainingSeconds =
          m.data.estimatedRemainingSeconds ∧
        (copyChunk E codes index l m).1.lastBytesPerSecondUpdate = l.lastBytesPerSecondUpdate ∧
        (copyChunk E codes index l m).1.ioStartTime = l.ioStartTime) ∨
      (∃ t, 1000 ≤ u64_sub t l.lastBytesPerSecondUpdate ∧
        (copyChunk E codes index l m).1.lastBytesPerSecondUpdate = t ∧
        (copyChunk E codes index l m).1.bytesSinceUpdate = 0 ∧
        (l.ioStartTime = 0 →
          (copyChunk E codes index l m).2.1.data.estimatedRemainingSeconds = 0) ∧
        (l.ioStartTime ≠ 0 → (copyChunk E codes index l m).1.ioStartTime = l.ioStartTime))) ∧
    (∀ (n : Nat) (l : CopyLocals) (m : Machine σ),
      l.ioStartTime = 0 → m.data.estimatedRemainingSeconds = 0 →
      (copyLoopAfter E codes index n l m).1.ioStartTime = 0 →
      (copyLoopAfter E codes index n l m).2.data.estimatedRemainingSeconds = 0) := by
  refine ⟨fun bw l m => ⟨copyAccount_no_sample E bw l m, copyAccount_sample E bw l m⟩,
    copyChunk_estimator E codes index, ?_⟩
  intro n l m _ h0
  exact copyLoopAfter_eta E codes index n l m (fun _ => h0)

/-! ## The byte cursor -/

theorem copyAccount_cursor {σ : Type} (E : Env σ) (bw : Nat) (l : CopyLocals) (m : Machine σ) :
    (copyAccount E bw l m).2.data.currProcessed = u64_add m.data.currProcessed bw ∧
    (copyAccount E bw l m).2.data.currTotal = m.data.currTotal := by
  unfold copyAccount
  simp only []
  split
  · exact ⟨rfl, rfl⟩
  · exact ⟨rfl, rfl⟩

theorem u64_add_of_lt (x y : Nat) (h : x + y < 18446744073709551616) : u64_add x y = x + y := by
  unfold u64_add
  exact Nat.mod_eq_of_lt h

/-- What a pass through the loop body does to the byte cursor: `currTotal` is
kept, and `currProcessed` is kept or grows (modulo `2^64`) by the bytes a
successful `writeDst` at offset `currProcessed` reported. -/
theorem copyChunk_cursor {σ : Type} (E : Env σ) (codes : AppCodes) (index : Nat)
    (l : CopyLocals) (m : Machine σ) :
    (copyChunk E codes index l m).2.1.data.currTotal = m.data.currTotal ∧
    (((copyChunk E codes index l m).2.2 = true ∧
        (copyChunk E codes index l m).2.1.data.currProcessed = m.data.currProcessed) ∨
      (∃ (h : Nat) (buf : List Nat) (sz : Nat) (w : σ),
        R_SUCCEEDED (E.writeDst h buf m.data.currProcessed sz w).1 ∧
        (copyChunk E codes index l m).2.2 = false ∧
        (copyChunk E codes index l m).2.1.data.currProcessed =
          u64_add m.data.currProcessed (E.writeDst h buf m.data.currProcessed sz w).2.1)) := by
  rcases copyChunk_outcome E codes index l m with ⟨hb, hd, _, _, _⟩ |
    ⟨h, buf, sz, w, l4, m4, hok, hd, _, _, _, hr⟩
  · exact ⟨by rw [hd], Or.inl ⟨hb, by rw [hd]⟩⟩
  · obtain ⟨hcp, hct⟩ :=
      copyAccount_cursor E (E.writeDst h buf m.data.currProcessed sz w).2.1 l4 m4
    rw [hd] at hcp hct
    rw [hr]
    exact ⟨hct, Or.inr ⟨h, buf, sz, w, hok, rfl, hcp⟩⟩

/-- A backend whose writes never report past the end of the source, whatever
they are handed, is `ChunkWithin` too. -/
theorem chunkWithin_of_clamped_write {σ : Type} (E : Env σ) (T : Nat)
    (hwr : ∀ (hd : Nat) (buf : List Nat) (off sz : Nat) (w : σ), off < T →
      R_SUCCEEDED (E.writeDst hd buf off sz w).1 → off + (E.writeDst hd buf off sz w).2.1 ≤ T) :
    ChunkWithin E T :=
  fun _ _ off _ _ hd bufw ww hlt _ hok => hwr hd bufw off _ ww hlt hok

theorem clampedEnv_chunkWithin (T : Nat) : ChunkWithin (clampedEnv T) T :=
  chunkWithin_of_clamped_write (clampedEnv T) T
    (fun _ _ off sz _ hlt _ => by
      show off + min sz (T - off) ≤ T
      omega)

/-- With a backend whose successful writes report between 1 and `2^32 - 1`
bytes and a total of at most `2^64 - 2^32` bytes (so that the `u64` cursor
cannot wrap), the loop exits within `T - currProcessed` passes. -/
theorem copyLoop_terminates {σ : Type} (E : Env σ) (codes : AppCodes) (index T : Nat)
    (hT : T ≤ 18446744069414584320)
    (hbw : ∀ (h : Nat) (buf : List Nat) (off sz : Nat) (w : σ),
      R_SUCCEEDED (E.writeDst h buf off sz w).1 →
        1 ≤ (E.writeDst h buf off sz w).2.1 ∧ (E.writeDst h buf off sz w).2.1 < 4294967296) :
    ∀ (k : Nat) (l : CopyLocals) (m : Machine σ),
      m.data.currTotal = T → T - m.data.currProcessed ≤ k →
      ∃ r, copyLoop E codes index (k + 1) l m = some r := by
  intro k
  induction k with
  | zero =>
    intro l m ht hk
    have hc : ¬ m.data.currProcessed < m.data.currTotal := by
      rw [ht]
      omega
    exact ⟨(l, m), by unfold copyLoop; rw [if_neg hc]⟩
  | succ k ih =>
    intro l m ht hk
    by_cases hc : m.data.currProcessed < m.data.currTotal
    · obtain ⟨hct, hcase⟩ := copyChunk_cursor E codes index l m
      rcases hcase with ⟨hb, _⟩ | ⟨h, buf, sz, w, hok, hb, hcp⟩
      · exact ⟨((copyChunk E codes index l m).1, (copyChunk E codes index l m).2.1), by
          unfold copyLoop
          rw [if_pos hc]
          simp only [hb, if_true]⟩
      · obtain ⟨h1, h2⟩ := hbw h buf m.data.currProcessed sz w hok
        rw [ht] at hc
        have hadd : u64_add m.data.currProcessed (E.writeDst h buf m.data.currProcessed sz w).2.1
            = m.data.currProcessed + (E.writeDst h buf m.data.currProcessed sz w).2.1 :=
          u64_add_of_lt _ _ (by omega)
        obtain ⟨r, hr⟩ := ih (copyChunk E codes index l m).1 (copyChunk E codes index l m).2.1
          (hct.trans ht) (by rw [hcp, hadd]; omega)
        refine ⟨r, ?_⟩
        rw [← hr]
        conv_lhs => unfold copyLoop
        rw [if_pos (by rw [ht]; exact hc)]
        simp only [hb, Bool.false_eq_true, if_false]
    · exact ⟨(l, m), by unfold copyLoop; rw [if_neg hc]⟩

theorem copyAccount_world {σ : Type} (E : Env σ) (bw : Nat) (l : CopyLocals) (m : Machine σ) :
    (copyAccount E bw l m).2.world = (E.osGetTime m.world).2 := by
  unfold copyAccount
  simp only []
  split
  · rfl
  · rfl

theorem fixedWrite_check (T bw : Nat) (codes : AppCodes) (index : Nat)
    (hs : Option (Nat × Nat)) (m : Machine (List Int)) :
    (task_data_op_check_running (fixedWriteEnv T bw) codes index hs m).1 = 0 ∧
    (task_data_op_check_running (fixedWriteEnv T bw) codes index hs m).2.2.world = m.world := by
  simp [task_data_op_check_running, fixedWriteEnv, scriptedEnv, plainScenario]

theorem fixedWrite_write (T bw bytesRead : Nat) (l : CopyLocals) (m : Machine (List Int))
    (hw : m.world = []) :
    (copyChunkWrite (fixedWriteEnv T bw) bytesRead l m).2.2 = false ∧
    (copyChunkWrite (fixedWriteEnv T bw) bytesRead l m).2.1.world = [] ∧
    (copyChunkWrite (fixedWriteEnv T bw) bytesRead l m).2.1.data.currProcessed =
      u64_add m.data.currProcessed bw ∧
    (copyChunkWrite (fixedWriteEnv T bw) bytesRead l m).2.1.data.currTotal =
      m.data.currTotal := by
  have hwr : (fixedWriteEnv T bw).writeDst l.dstHandle l.buffer m.data.currProcessed bytesRead
      m.world = (0, bw, []) := by
    rw [hw]
    rfl
  unfold copyChunkWrite
  simp only [hwr, lt_irrefl, if_false, copyAccount_world, copyAccount_cursor, emit_world,
    emit_data]
  exact ⟨trivial, rfl, trivial, trivial⟩

theorem fixedWrite_openDst (T bw index bytesRead : Nat) (l : CopyLocals)
    (m : Machine (List Int)) (hw : m.world = []) :
    (copyChunkOpenDst (fixedWriteEnv T bw) index bytesRead l m).2.2 = false ∧
    (copyChunkOpenDst (fixedWriteEnv T bw) index bytesRead l m).2.1.world = [] ∧
    (copyChunkOpenDst (fixedWriteEnv T bw) index bytesRead l m).2.1.data.currProcessed =
      u64_add m.data.currProcessed bw ∧
    (copyChunkOpenDst (fixedWriteEnv T bw) index bytesRead l m).2.1.data.currTotal =
      m.data.currTotal := by
  have ho : (fixedWriteEnv T bw).openDst index (some l.buffer) m.data.currTotal m.world
      = (0, 2, []) := by
    rw [hw]
    rfl
  unfold copyChunkOpenDst
  split
  · simp only [ho, lt_irrefl, if_false]
    exact fixedWrite_write T bw bytesRead _ _ rfl
  · exact fixedWrite_write T bw bytesRead l m hw

theorem fixedWrite_read (T bw index : Nat) (l : CopyLocals) (m : Machine (List Int))
    (hw : m.world = []) :
    (copyChunkRead (fixedWriteEnv T bw) index l m).2.2 = false ∧
    (copyChunkRead (fixedWriteEnv T bw) index l m).2.1.world = [] ∧
    (copyChunkRead (fixedWriteEnv T bw) index l m).2.1.data.currProcessed =
      u64_add m.data.currProcessed bw ∧
    (copyChunkRead (fixedWriteEnv T bw) index l m).2.1.data.currTotal = m.data.currTotal := by
  have hr : (fixedWriteEnv T bw).readSrc l.srcHandle l.buffer m.data.currProcessed
      m.data.bufferSize m.world = (0, m.data.bufferSize, l.buffer, []) := by
    rw [hw]
    rfl
  unfold copyChunkRead
  simp only [hr, lt_irrefl, if_false]
  exact fixedWrite_openDst T bw index _ _ _ rfl

/-- In the scripted environment with an empty script a pass through the loop
body never breaks and adds the fixed `bw` to the byte cursor. -/
theorem fixedWrite_chunk (T bw : Nat) (codes : AppCodes) (index : Nat) (l : CopyLocals)
    (m : Machine (List Int)) (hw : m.world = []) :
    (copyChunk (fixedWriteEnv T bw) codes index l m).2.2 = false ∧
    (copyChunk (fixedWriteEnv T bw) codes index l m).2.1.world = [] ∧
    (copyChunk (fixedWriteEnv T bw) codes index l m).2.1.data.currProcessed =
      u64_add m.data.currProcessed bw ∧
    (copyChunk (fixedWriteEnv T bw) codes index l m).2.1.data.currTotal = m.data.currTotal := by
  obtain ⟨h1, h2⟩ := fixedWrite_check T bw codes m.data.processed
    (some (l.srcHandle, l.dstHandle)) m
  have hd := check_running_data (fixedWriteEnv T bw) codes m.data.processed
    (some (l.srcHandle, l.dstHandle)) m
  unfold copyChunk
  simp only [h1, lt_irrefl, if_false]
  have h := fixedWrite_read T bw index
    { l with
      res := 0,
      srcHandle := ((task_data_op_check_running (fixedWriteEnv T bw) codes m.data.processed
        (some (l.srcHandle, l.dstHandle)) m).2.1.getD (l.srcHandle, l.dstHandle)).1,
      dstHandle := ((task_data_op_check_running (fixedWriteEnv T bw) codes m.data.processed
        (some (l.srcHandle, l.dstHandle)) m).2.1.getD (l.srcHandle, l.dstHandle)).2 }
    (task_data_op_check_running (fixedWriteEnv T bw) codes m.data.processed
      (some (l.srcHandle, l.dstHandle)) m).2.2 (h2.trans hw)
  rw [hd] at h
  exact h

/-- A backend that reports 0 bytes written: the chunk loop of a non-empty file
never exits, whatever the fuel. -/
theorem stalled_loop_never_exits (T : Nat) (codes : AppCodes) (index : Nat) :
    ∀ (fuel : Nat) (l : CopyLocals) (m : Machine (List Int)),
      m.world = [] → m.data.currProcessed < m.data.currTotal →
      m.data.currProcessed < 18446744073709551616 →
      copyLoop (fixedWriteEnv T 0) codes index fuel l m = none := by
  intro fuel
  induction fuel with
  | zero =>
    intro l m _ _ _
    rfl
  | succ n ih =>
    intro l m hw hc h64
    obtain ⟨hb, hw', hcp, hct⟩ := fixedWrite_chunk T 0 codes index l m hw
    have hcp' : (copyChunk (fixedWriteEnv T 0) codes index l m).2.1.data.currProcessed =
        m.data.currProcessed := by
      rw [hcp]
      exact u64_add_of_lt _ _ h64
    unfold copyLoop
    rw [if_pos hc]
    simp only [hb, Bool.false_eq_true, if_false]
    exact ih _ _ hw' (by rw [hcp', hct]; exact hc) (by rw [hcp']; exact h64)

/-- A source of `2^64 - 1` bytes and a backend that reports 2 bytes per write:
the cursor stays even, wraps from `2^64 - 2` to 0 and never reaches the total. -/
theorem wrapping_loop_never_exits (codes : AppCodes) (index : Nat) :
    ∀ (fuel : Nat) (l : CopyLocals) (m : Machine (List Int)),
      m.world = [] → m.data.currTotal = 18446744073709551615 →
      m.data.currProcessed % 2 = 0 → m.data.currProcessed < 18446744073709551616 →
      copyLoop (fixedWriteEnv 18446744073709551615 2) codes index fuel l m = none := by
  intro fuel
  induction fuel with
  | zero =>
    intro l m _ _ _ _
    rfl
  | succ n ih =>
    intro l m hw ht hev h64
    obtain ⟨hb, hw', hcp, hct⟩ :=
      fixedWrite_chunk 18446744073709551615 2 codes index l m hw
    have hc : m.data.currProcessed < m.data.currTotal := by
      rw [ht]
      omega
    have hev' : (copyChunk (fixedWriteEnv 18446744073709551615 2) codes index l m
        ).2.1.data.currProcessed % 2 = 0 := by
      rw [hcp]
      unfold u64_add
      omega
    have h64' : (copyChunk (fixedWriteEnv 18446744073709551615 2) codes index l m
        ).2.1.data.currProcessed < 18446744073709551616 := by
      rw [hcp]
      unfold u64_add
      omega
    unfold copyLoop
    rw [if_pos hc]
    simp only [hb, Bool.false_eq_true, if_false]
    exact ih _ _ hw' (hct.trans ht) hev' h64'

/-- C20 as stated does not hold of the code when the `u64` cursor can wrap: for
a source of `2^64 - 1` bytes and a backend whose every `writeDst` reports 2
bytes written (so `bytesWritten >= 1`), the loop has not exited after
`currTotal` passes (nor after any number of passes). -/
theorem wrapping_cursor_loop_does_not_exit :
    copyLoop (fixedWriteEnv 18446744073709551615 2) sampleCodes 0
      (18446744073709551615 + 1) clampedLocals (chunkLoopStart 18446744073709551615) = none :=
  wrapping_loop_never_exits sampleCodes 0 _ clampedLocals (chunkLoopStart 18446744073709551615)
    rfl rfl rfl (by decide)

/-- C20 amended (termination of the chunk loop): for a source of
`currTotal <= 2^64 - 2^32` bytes, if every successful `writeDst` reports a
`u32` count `bytesWritten >= 1`, the `while` loop entered in any state exits
(through its condition or a `break`) within `currTotal - currProcessed` passes,
so within `currTotal` passes from the start of the item; and without
`bytesWritten >= 1` it need not terminate: with a backend that reports 0 bytes
written the loop of an 8-byte file does not exit for any fuel. -/
theorem chunk_loop_terminates_with_progress {σ : Type} (E : Env σ) (codes : AppCodes)
    (index : Nat) (hbw : ∀ (h : Nat) (buf : List Nat) (off sz : Nat) (w : σ),
      R_SUCCEEDED (E.writeDst h buf off sz w).1 →
        1 ≤ (E.writeDst h buf off sz w).2.1 ∧ (E.writeDst h buf off sz w).2.1 < 4294967296) :
    (∀ (l : CopyLocals) (m : Machine σ), m.data.currTotal ≤ 18446744069414584320 →
      ∃ r, copyLoop E codes index (m.data.currTotal - m.data.currProcessed + 1) l m = some r) ∧
    (∀ fuel : Nat,
      copyLoop (fixedWriteEnv 8 0) sampleCodes 0 fuel clampedLocals (chunkLoopStart 8) = none) := by
  constructor
  · intro l m hT
    exact copyLoop_terminates E codes index m.data.currTotal hT hbw _ l m rfl (Nat.le_refl _)
  · intro fuel
    exact stalled_loop_never_exits 8 sampleCodes 0 fuel clampedLocals (chunkLoopStart 8) rfl
      (by decide) (by decide)

/-- Witness of the amended C20: an 8-byte file written 3 bytes at a time exits
within 8 passes. -/
theorem chunk_loop_terminates_with_progress_witness :
    ∃ r, copyLoop (fixedWriteEnv 8 3) sampleCodes 0 (8 - 0 + 1) clampedLocals
      (chunkLoopStart 8) = some r :=
  (chunk_loop_terminates_with_progress (fixedWriteEnv 8 3) sampleCodes 0
    (fun _ _ _ _ _ _ => ⟨(by decide : 1 ≤ 3), (by decide : 3 < 4294967296)⟩)).1
    clampedLocals (chunkLoopStart 8) (by decide)

/-! ## Handle balance -/

theorem handleEvents_emit {σ : Type} (m : Machine σ) (w : σ) (c : Call) :
    handleEvents (m.emit w c).log = handleEvents m.log ++ handleEvents [c] := by
  unfold handleEvents
  rw [emit_log, List.filterMap_append]

theorem handleEvents_emit_none {σ : Type} (m : Machine σ) (w : σ) (c : Call)
    (h : c.handleEvent = none) : handleEvents (m.emit w c).log = handleEvents m.log := by
  rw [handleEvents_emit]
  unfold handleEvents
  rw [List.filterMap_cons_none h]
  exact List.append_nil _

theorem handleEvents_append (a b : List Call) :
    handleEvents (a ++ b) = handleEvents a ++ handleEvents b := by
  unfold handleEvents
  exact List.filterMap_append _ _ _

theorem handleEvents_single (c : Call) : handleEvents [c] = c.handleEvent.toList := by
  unfold handleEvents
  cases h : c.handleEvent with
  | none => rw [List.filterMap_cons_none h]; rfl
  | some e => rw [List.filterMap_cons_some h]; rfl

theorem handleEvents_nil : handleEvents [] = [] := rfl

theorem handleEvents_cons (c : Call) (cs : List Call) :
    handleEvents (c :: cs) = c.handleEvent.toList ++ handleEvents cs := by
  unfold handleEvents
  cases h : c.handleEvent with
  | none => rw [List.filterMap_cons_none h]; rfl
  | some e => rw [List.filterMap_cons_some h]; rfl

theorem suspendHooks_handleEvents {σ : Type} (E : Env σ) (index : Nat)
    (handles : Option (Nat × Nat)) (res : Int) (m : Machine σ) :
    handleEvents (suspendHooks E index handles res m).2.2.log = handleEvents m.log := by
  simp only [suspendHooks]
  repeat' split
  all_goals simp [handleEvents_append, handleEvents_cons, handleEvents_nil, Call.handleEvent]

theorem restoreHooks_handleEvents {σ : Type} (E : Env σ) (index : Nat)
    (handles : Option (Nat × Nat)) (res : Int) (m : Machine σ) :
    handleEvents (restoreHooks E index handles res m).2.2.log = handleEvents m.log := by
  simp only [restoreHooks]
  repeat' split
  all_goals simp [handleEvents_append, handleEvents_cons, handleEvents_nil, Call.handleEvent]

/-- The suspend check makes no call that opens or closes a handle. -/
theorem check_running_handleEvents {σ : Type} (E : Env σ) (codes : AppCodes) (index : Nat)
    (handles : Option (Nat × Nat)) (m : Machine σ) :
    handleEvents (task_data_op_check_running E codes index handles m).2.2.log =
      handleEvents m.log := by
  simp only [task_data_op_check_running]
  repeat' split
  all_goals simp [handleEvents_append, handleEvents_cons, handleEvents_nil, Call.handleEvent,
    restoreHooks_handleEvents, suspendHooks_handleEvents]

theorem suspendHooks_handles {σ : Type} (E : Env σ) (hE : HandleConvention E) (index : Nat)
    (handles : Option (Nat × Nat)) (res : Int) (m : Machine σ) :
    (suspendHooks E index handles res m).2.1 = handles := by
  simp only [suspendHooks]
  repeat' split
  all_goals first
    | rfl
    | (have key := hE.2.1 _ (by assumption)
       simp [key])

theorem restoreHooks_handles {σ : Type} (E : Env σ) (hE : HandleConvention E) (index : Nat)
    (handles : Option (Nat × Nat)) (res : Int) (m : Machine σ) :
    (restoreHooks E index handles res m).2.1 = handles := by
  simp only [restoreHooks]
  repeat' split
  all_goals first
    | rfl
    | (have key := hE.2.2 _ (by assumption)
       simp_all [key])

/-- Under the handle convention the suspend check hands back the handles it
was given. -/
theorem check_running_handles {σ : Type} (E : Env σ) (hE : HandleConvention E)
    (codes : AppCodes) (index : Nat) (handles : Option (Nat × Nat)) (m : Machine σ) :
    (task_data_op_check_running E codes index handles m).2.1 = handles := by
  simp only [task_data_op_check_running]
  repeat' split
  all_goals simp [restoreHooks_handles E hE, suspendHooks_handles E hE]

theorem copyAccount_handles {σ : Type} (E : Env σ) (bw : Nat) (l : CopyLocals) (m : Machine σ) :
    (copyAccount E bw l m).1.srcHandle = l.srcHandle ∧
    (copyAccount E bw l m).1.dstHandle = l.dstHandle ∧
    (copyAccount E bw l m).1.firstRun = l.firstRun ∧
    handleEvents (copyAccount E bw l m).2.log = handleEvents m.log := by
  unfold copyAccount
  simp only []
  split
  · refine ⟨rfl, rfl, rfl, ?_⟩
    show handleEvents (m.log ++ [_]) = _
    rw [handleEvents_append, handleEvents_cons, handleEvents_nil]
    exact List.append_nil _
  · refine ⟨rfl, rfl, rfl, ?_⟩
    show handleEvents (m.log ++ [_]) = _
    rw [handleEvents_append, handleEvents_cons, handleEvents_nil]
    exact List.append_nil _

theorem LoopHandles_of_eq {s : Nat} {base : List HandleEvent} {l l' : CopyLocals}
    {log log' : List Call} (h : LoopHandles s base l log)
    (hs : l'.srcHandle = l.srcHandle) (hd : l'.dstHandle = l.dstHandle)
    (hf : l'.firstRun = l.firstRun) (he : handleEvents log' = handleEvents log) :
    LoopHandles s base l' log' := by
  unfold LoopHandles at h ⊢
  rw [hs, hd, hf, he]
  exact h

theorem copyChunkWrite_handles {σ : Type} (E : Env σ) (bytesRead : Nat) (l : CopyLocals)
    (m : Machine σ) (s : Nat) (base : List HandleEvent) (h : LoopHandles s base l m.log) :
    LoopHandles s base (copyChunkWrite E bytesRead l m).1
      (copyChunkWrite E bytesRead l m).2.1.log := by
  have hw : handleEvents (m.emit
      (E.writeDst l.dstHandle l.buffer m.data.currProcessed bytesRead m.world).2.2
      (Call.writeDst l.dstHandle l.buffer m.data.currProcessed bytesRead
        (E.writeDst l.dstHandle l.buffer m.data.currProcessed bytesRead m.world).1
        (E.writeDst l.dstHandle l.buffer m.data.currProcessed bytesRead m.world).2.1)).log
      = handleEvents m.log := handleEvents_emit_none _ _ _ rfl
  unfold copyChunkWrite
  simp only []
  split
  · exact LoopHandles_of_eq h rfl rfl rfl hw
  · obtain ⟨h1, h2, h3, h4⟩ := copyAccount_handles E
      (E.writeDst l.dstHandle l.buffer m.data.currProcessed bytesRead m.world).2.1
      { l with res := (E.writeDst l.dstHandle l.buffer m.data.currProcessed bytesRead m.world).1 }
      (m.emit (E.writeDst l.dstHandle l.buffer m.data.currProcessed bytesRead m.world).2.2
        (Call.writeDst l.dstHandle l.buffer m.data.currProcessed bytesRead
          (E.writeDst l.dstHandle l.buffer m.data.currProcessed bytesRead m.world).1
          (E.writeDst l.dstHandle l.buffer m.data.currProcessed bytesRead m.world).2.1))
    exact LoopHandles_of_eq h h1 h2 h3 (h4.trans hw)

theorem heldDst_zero : heldDst 0 = [] := rfl

theorem heldDst_of_ne (d : Nat) (h : d ≠ 0) : heldDst d = [HandleEvent.dstOpened d] := by
  unfold heldDst
  rw [if_pos h]

theorem copyChunkOpenDst_handles {σ : Type} (E : Env σ) (hE : HandleConvention E)
    (index bytesRead : Nat) (l : CopyLocals) (m : Machine σ) (s : Nat)
    (base : List HandleEvent) (h : LoopHandles s base l m.log) :
    LoopHandles s base (copyChunkOpenDst E index bytesRead l m).1
      (copyChunkOpenDst E index bytesRead l m).2.1.log := by
  unfold copyChunkOpenDst
  split
  · rename_i hfr
    obtain ⟨hs, hcase⟩ := h
    have hbase : handleEvents m.log = base := by
      rcases hcase with ⟨_, _, hb⟩ | ⟨hf, _⟩
      · exact hb
      · rw [hfr] at hf
        exact Bool.noConfusion hf
    obtain ⟨hok, hfail⟩ := hE.1 index (some l.buffer) m.data.currTotal m.world
    have hopened : LoopHandles s base
        { l with firstRun := false,
                 res := (E.openDst index (some l.buffer) m.data.currTotal m.world).1,
                 dstHandle := (E.openDst index (some l.buffer) m.data.currTotal m.world).2.1 }
        (m.emit (E.openDst index (some l.buffer) m.data.currTotal m.world).2.2
          (Call.openDst index (some l.buffer) m.data.currTotal
            (E.openDst index (some l.buffer) m.data.currTotal m.world).1
            (E.openDst index (some l.buffer) m.data.currTotal m.world).2.1)).log := by
      refine ⟨hs, Or.inr ⟨rfl, ?_⟩⟩
      rw [handleEvents_emit, handleEvents_cons, handleEvents_nil, hbase]
      by_cases hr : R_SUCCEEDED (E.openDst index (some l.buffer) m.data.currTotal m.world).1
      · show base ++ ((if R_SUCCEEDED _ then some _ else none : Option HandleEvent).toList ++ [])
          = base ++ heldDst _
        rw [if_pos hr, heldDst_of_ne _ (hok hr)]
        rfl
      · show base ++ ((if R_SUCCEEDED _ then some _ else none : Option HandleEvent).toList ++ [])
          = base ++ heldDst _
        rw [if_neg hr, hfail (not_le.mp hr)]
        rfl
    simp only []
    split
    · exact hopened
    · exact copyChunkWrite_handles E bytesRead _ _ s base hopened
  · exact copyChunkWrite_handles E bytesRead l m s base h

theorem copyChunkRead_handles {σ : Type} (E : Env σ) (hE : HandleConvention E)
    (index : Nat) (l : CopyLocals) (m : Machine σ) (s : Nat)
    (base : List HandleEvent) (h : LoopHandles s base l m.log) :
    LoopHandles s base (copyChunkRead E index l m).1 (copyChunkRead E index l m).2.1.log := by
  have hr : LoopHandles s base
      { l with
        res := (E.readSrc l.srcHandle l.buffer m.data.currProcessed m.data.bufferSize m.world).1,
        buffer :=
          (E.readSrc l.srcHandle l.buffer m.data.currProcessed m.data.bufferSize m.world).2.2.1 }
      (m.emit
        (E.readSrc l.srcHandle l.buffer m.data.currProcessed m.data.bufferSize m.world).2.2.2
        (Call.readSrc l.srcHandle m.data.currProcessed m.data.bufferSize
          (E.readSrc l.srcHandle l.buffer m.data.currProcessed m.data.bufferSize m.world).1
          (E.readSrc l.srcHandle l.buffer m.data.currProcessed m.data.bufferSize
            m.world).2.1)).log :=
    LoopHandles_of_eq h rfl rfl rfl (handleEvents_emit_none _ _ _ rfl)
  unfold copyChunkRead
  simp only []
  split
  · exact hr
  · exact copyChunkOpenDst_handles E hE index _ _ _ s base hr

/-- A pass through the loop body keeps the handle state of the loop. -/
theorem copyChunk_handles {σ : Type} (E : Env σ) (hE : HandleConvention E)
    (codes : AppCodes) (index : Nat) (l : CopyLocals) (m : Machine σ) (s : Nat)
    (base : List HandleEvent) (h : LoopHandles s base l m.log) :
    LoopHandles s base (copyChunk E codes index l m).1 (copyChunk E codes index l m).2.1.log := by
  have hh := check_running_handles E hE codes m.data.processed
    (some (l.srcHandle, l.dstHandle)) m
  have hev := check_running_handleEvents E codes m.data.processed
    (some (l.srcHandle, l.dstHandle)) m
  have hc : LoopHandles s base
      { l with
        res := (task_data_op_check_running E codes m.data.processed
          (some (l.srcHandle, l.dstHandle)) m).1,
        srcHandle := ((task_data_op_check_running E codes m.data.processed
          (some (l.srcHandle, l.dstHandle)) m).2.1.getD (l.srcHandle, l.dstHandle)).1,
        dstHandle := ((task_data_op_check_running E codes m.data.processed
          (some (l.srcHandle, l.dstHandle)) m).2.1.getD (l.srcHandle, l.dstHandle)).2 }
      (task_data_op_check_running E codes m.data.processed
        (some (l.srcHandle, l.dstHandle)) m).2.2.log := by
    refine LoopHandles_of_eq h ?_ ?_ rfl hev
    · show ((task_data_op_check_running E codes m.data.processed
        (some (l.srcHandle, l.dstHandle)) m).2.1.getD (l.srcHandle, l.dstHandle)).1 = _
      rw [hh]
      rfl
    · show ((task_data_op_check_running E codes m.data.processed
        (some (l.srcHandle, l.dstHandle)) m).2.1.getD (l.srcHandle, l.dstHandle)).2 = _
      rw [hh]
      rfl
  unfold copyChunk
  simp only []
  split
  · exact hc
  · exact copyChunkRead_handles E hE index _ _ s base hc

theorem copyLoop_handles {σ : Type} (E : Env σ) (hE : HandleConvention E)
    (codes : AppCodes) (index : Nat) (s : Nat) (base : List HandleEvent) :
    ∀ (fuel : Nat) (l : CopyLocals) (m : Machine σ) (r : CopyLocals × Machine σ),
      LoopHandles s base l m.log → copyLoop E codes index fuel l m = some r →
      LoopHandles s base r.1 r.2.log := by
  intro fuel
  induction fuel with
  | zero =>
    intro l m r _ h
    exact absurd h (by simp [copyLoop])
  | succ n ih =>
    intro l m r hl h
    have hstep := copyChunk_handles E hE codes index l m s base hl
    unfold copyLoop at h
    split at h
    · simp only [] at h
      split at h
      · rw [Option.some.injEq] at h
        subst h
        exact hstep
      · exact ih _ _ _ hstep h
    · rw [Option.some.injEq] at h
      subst h
      exact hl

theorem copyCloseDst_handles {σ : Type} (E : Env σ) (index : Nat) (l : CopyLocals)
    (m : Machine σ) (s : Nat) (base : List HandleEvent) (h : LoopHandles s base l m.log) :
    (copyCloseDst E index l m).1.srcHandle = s ∧
    ∃ ev, handleEvents (copyCloseDst E index l m).2.log = base ++ ev ∧ DstBalanced ev := by
  obtain ⟨hs, hcase⟩ := h
  unfold copyCloseDst
  simp only []
  by_cases hd : l.dstHandle ≠ 0
  · have hev : handleEvents m.log = base ++ [HandleEvent.dstOpened l.dstHandle] := by
      rcases hcase with ⟨_, h0, _⟩ | ⟨_, hb⟩
      · exact absurd h0 hd
      · rw [hb, heldDst_of_ne _ hd]
    rw [if_pos hd]
    split
    · refine ⟨hs, [HandleEvent.dstOpened l.dstHandle, HandleEvent.dstClosed l.dstHandle], ?_,
        Or.inr ⟨l.dstHandle, rfl⟩⟩
      simp [handleEvents_append, handleEvents_cons, handleEvents_nil, Call.handleEvent, hev]
    · refine ⟨hs, [HandleEvent.dstOpened l.dstHandle, HandleEvent.dstClosed l.dstHandle], ?_,
        Or.inr ⟨l.dstHandle, rfl⟩⟩
      simp [handleEvents_append, handleEvents_cons, handleEvents_nil, Call.handleEvent, hev]
  · have hz : l.dstHandle = 0 := not_not.mp hd
    have hev : handleEvents m.log = base := by
      rcases hcase with ⟨_, _, hb⟩ | ⟨_, hb⟩
      · exact hb
      · rw [hb, hz, heldDst_zero]
        exact List.append_nil _
    rw [if_neg hd]
    refine ⟨hs, [], ?_, Or.inl rfl⟩
    simp [handleEvents_append, handleEvents_cons, handleEvents_nil, Call.handleEvent, hev]

theorem copyStream_handles {σ : Type} (E : Env σ) (hE : HandleConvention E)
    (codes : AppCodes) (fuel index srcHandle : Nat) (m : Machine σ)
    (r : Int × Nat × Machine σ) (h : copyStream E codes fuel index srcHandle m = some r) :
    r.2.1 = srcHandle ∧
    ∃ ev, handleEvents r.2.2.log = handleEvents m.log ++ ev ∧ DstBalanced ev := by
  unfold copyStream at h
  simp only [] at h
  split at h
  · split at h
    · exact absurd h (by simp)
    · rename_i r' hr'
      have hinit : LoopHandles srcHandle (handleEvents m.log)
          { srcHandle := srcHandle, dstHandle := 0,
            buffer := List.replicate m.data.bufferSize 0, ioStartTime := 0,
            lastBytesPerSecondUpdate :=
              (E.osGetTime (m.emit (E.calloc m.data.bufferSize m.world).2
                (Call.calloc m.data.bufferSize (E.calloc m.data.bufferSize m.world).1)).world).1,
            bytesSinceUpdate := 0, firstRun := true, res := 0 }
          ((m.emit (E.calloc m.data.bufferSize m.world).2
              (Call.calloc m.data.bufferSize (E.calloc m.data.bufferSize m.world).1)).emit
            (E.osGetTime (m.emit (E.calloc m.data.bufferSize m.world).2
              (Call.calloc m.data.bufferSize (E.calloc m.data.bufferSize m.world).1)).world).2
            (Call.osGetTime (E.osGetTime (m.emit (E.calloc m.data.bufferSize m.world).2
              (Call.calloc m.data.bufferSize
                (E.calloc m.data.bufferSize m.world).1)).world).1)).log := by
        refine ⟨rfl, Or.inl ⟨rfl, rfl, ?_⟩⟩
        simp [handleEvents_append, handleEvents_cons, handleEvents_nil, Call.handleEvent]
      have hloop := copyLoop_handles E hE codes index srcHandle (handleEvents m.log) fuel _ _ _
        hinit hr'
      obtain ⟨hs, ev, hev, hbal⟩ := copyCloseDst_handles E index r'.1 r'.2 srcHandle
        (handleEvents m.log) hloop
      rw [Option.some.injEq] at h
      subst h
      exact ⟨hs, ev, hev, hbal⟩
  · rw [Option.some.injEq] at h
    subst h
    refine ⟨rfl, [], ?_, Or.inl rfl⟩
    simp [handleEvents_append, handleEvents_cons, handleEvents_nil, Call.handleEvent]

theorem copyEmptyFile_handles {σ : Type} (E : Env σ) (codes : AppCodes) (index : Nat)
    (m : Machine σ) :
    ∃ ev, handleEvents (copyEmptyFile E codes index m).2.log = handleEvents m.log ++ ev ∧
      DstBalanced ev := by
  unfold copyEmptyFile
  split
  · simp only []
    split
    · rename_i hok
      refine ⟨[HandleEvent.dstOpened (E.openDst index none m.data.currTotal m.world).2.1,
        HandleEvent.dstClosed (E.openDst index none m.data.currTotal m.world).2.1], ?_,
        Or.inr ⟨_, rfl⟩⟩
      simp [handleEvents_append, handleEvents_cons, handleEvents_nil, Call.handleEvent, hok]
    · rename_i hok
      refine ⟨[], ?_, Or.inl rfl⟩
      simp [handleEvents_append, handleEvents_cons, handleEvents_nil, Call.handleEvent, hok]
  · exact ⟨[], (List.append_nil _).symm, Or.inl rfl⟩

theorem copyOpened_handles {σ : Type} (E : Env σ) (hE : HandleConvention E)
    (codes : AppCodes) (fuel index srcHandle : Nat) (m : Machine σ) (r : Int × Machine σ)
    (h : copyOpened E codes fuel index srcHandle m = some r) :
    ∃ ev, handleEvents r.2.log =
        handleEvents m.log ++ ev ++ [HandleEvent.srcClosed srcHandle] ∧
      DstBalanced ev := by
  unfold copyOpened at h
  simp only [] at h
  split at h
  · exact absurd h (by simp)
  · rename_i r' hr'
    have hbody : r'.2.1 = srcHandle ∧
        ∃ ev, handleEvents r'.2.2.log = handleEvents m.log ++ ev ∧ DstBalanced ev := by
      split at hr'
      · split at hr'
        · rw [Option.some.injEq] at hr'
          subst hr'
          obtain ⟨ev, hev, hbal⟩ := copyEmptyFile_handles E codes index
            { (m.emit (E.getSrcSize srcHandle m.world).2.2
                (Call.getSrcSize srcHandle (E.getSrcSize srcHandle m.world).1
                  (E.getSrcSize srcHandle m.world).2.1)) with
              data := { m.data with currTotal := (E.getSrcSize srcHandle m.world).2.1 } }
          refine ⟨rfl, ev, hev.trans ?_, hbal⟩
          simp [handleEvents_append, handleEvents_cons, handleEvents_nil, Call.handleEvent]
        · obtain ⟨hs, ev, hev, hbal⟩ := copyStream_handles E hE codes fuel index srcHandle _ _ hr'
          refine ⟨hs, ev, hev.trans ?_, hbal⟩
          simp [handleEvents_append, handleEvents_cons, handleEvents_nil, Call.handleEvent]
      · rw [Option.some.injEq] at hr'
        subst hr'
        refine ⟨rfl, [], ?_, Or.inl rfl⟩
        simp [handleEvents_append, handleEvents_cons, handleEvents_nil, Call.handleEvent]
    obtain ⟨hs, ev, hev, hbal⟩ := hbody
    rw [Option.some.injEq] at h
    subst h
    refine ⟨ev, ?_, hbal⟩
    simp [handleEvents_append, handleEvents_cons, handleEvents_nil, Call.handleEvent, hev, hs]

/-- C11 as stated does not hold of the code for the handle value 0: `openDst`
succeeds and returns handle 0 for a 4-byte file; the copy reads, writes and
returns 0, and the destination it opened is never passed to `closeDst`. -/
theorem zero_destination_handle_not_closed :
    (task_data_op_copy zeroHandleEnv sampleCodes 2 0
        (startMachine [] data_op.DATAOP_COPY 1 false)).map
      (fun r => (r.1, handleEvents r.2.log)) =
    some (0, [HandleEvent.srcOpened 1, HandleEvent.dstOpened 0, HandleEvent.srcClosed 1]) := by
  rfl

/-- C11 amended (handle balance): for a backend that keeps the handle
convention (a successful `openDst` returns a non-zero handle, a failed one
leaves it 0, transfer hooks hand back the handles they were given), every Copy
attempt that returns has, with its own calls, opened and closed handles in one
of three ways: none at all; a source handle opened and then closed by one
`closeSrc`; or a source handle opened, a destination handle opened, that
destination closed by one `closeDst`, and then the source closed by one
`closeSrc`.  So every handle a successful open returned is closed exactly once
before `task_data_op_copy` returns, and `closeDst` is not called when no
destination was opened. -/
theorem handles_balanced {σ : Type} (E : Env σ) (hE : HandleConvention E)
    (codes : AppCodes) (fuel index : Nat) (m : Machine σ) (r : Int × Machine σ)
    (h : task_data_op_copy E codes fuel index m = some r) :
    ∃ ev, handleEvents r.2.log = handleEvents m.log ++ ev ∧
      (ev = [] ∨
        (∃ s, ev = [HandleEvent.srcOpened s, HandleEvent.srcClosed s]) ∨
        (∃ s d, ev = [HandleEvent.srcOpened s, HandleEvent.dstOpened d,
          HandleEvent.dstClosed d, HandleEvent.srcClosed s])) := by
  unfold task_data_op_copy at h
  simp only [] at h
  split at h
  · rw [Option.some.injEq] at h
    subst h
    refine ⟨[], ?_, Or.inl rfl⟩
    simp [handleEvents_append, handleEvents_cons, handleEvents_nil, Call.handleEvent]
  · split at h
    · rename_i hok
      obtain ⟨ev, hev, hbal⟩ := copyOpened_handles E hE codes fuel index _ _ r h
      simp only [emit_world] at hok
      rcases hbal with rfl | ⟨d, rfl⟩
      · refine ⟨_, hev.trans ?_, Or.inr (Or.inl ⟨(E.openSrc index (E.isSrcDirectory index
          m.world).2.2).2.1, rfl⟩)⟩
        simp [handleEvents_append, handleEvents_cons, handleEvents_nil, Call.handleEvent, hok]
      · refine ⟨_, hev.trans ?_, Or.inr (Or.inr ⟨(E.openSrc index (E.isSrcDirectory index
          m.world).2.2).2.1, d, rfl⟩)⟩
        simp [handleEvents_append, handleEvents_cons, handleEvents_nil, Call.handleEvent, hok]
    · rename_i hok
      simp only [emit_world] at hok
      rw [Option.some.injEq] at h
      subst h
      refine ⟨[], ?_, Or.inl rfl⟩
      simp [handleEvents_append, handleEvents_cons, handleEvents_nil, Call.handleEvent, hok]

theorem conventionalEnv_convention (size : Nat) : HandleConvention (conventionalEnv size) := by
  refine ⟨?_, ?_, ?_⟩
  · intro index buf sz w
    show (0 ≤ (popResult w).1 → (if 0 ≤ (popResult w).1 then 2 else 0) ≠ 0) ∧
      ((popResult w).1 < 0 → (if 0 ≤ (popResult w).1 then 2 else 0) = 0)
    constructor
    · intro h
      rw [if_pos h]
      decide
    · intro h
      rw [if_neg (not_le.mpr h)]
  · intro hook h
    exact Option.noConfusion h
  · intro hook h
    exact Option.noConfusion h

/-- Witness of the amended C11: a 4-byte file copied through a backend that
keeps the handle convention. -/
theorem handles_balanced_witness :
    ∃ r ev, task_data_op_copy (conventionalEnv 4) sampleCodes 2 0
        (startMachine [] data_op.DATAOP_COPY 1 false) = some r ∧
      handleEvents r.2.log = handleEvents (startMachine [] data_op.DATAOP_COPY 1 false).log ++ ev ∧
      (ev = [] ∨
        (∃ s, ev = [HandleEvent.srcOpened s, HandleEvent.srcClosed s]) ∨
        (∃ s d, ev = [HandleEvent.srcOpened s, HandleEvent.dstOpened d,
          HandleEvent.dstClosed d, HandleEvent.srcClosed s])) := by
  have h := handles_balanced (conventionalEnv 4) (conventionalEnv_convention 4) sampleCodes 2 0
    (startMachine [] data_op.DATAOP_COPY 1 false)
  obtain ⟨ev, h1, h2⟩ := h _ rfl
  exact ⟨_, ev, rfl, h1, h2⟩

/-! ## The suspend protocol -/

theorem runProtocol_order {σ : Type} (E : Env σ) (index : Nat)
    (st : Int × Option (Nat × Nat) × Machine σ) :
    runProtocol E index protocolOrder st =
      runProtocolStep E index (runProtocolStep E index (runProtocolStep E index
        (runProtocolStep E index (runProtocolStep E index st ProtocolStep.suspendTransfer)
          ProtocolStep.suspend) ProtocolStep.waitResume) ProtocolStep.restore)
        ProtocolStep.restoreTransfer := rfl

theorem runProtocol_append {σ : Type} (E : Env σ) (index : Nat) (pre post : List ProtocolStep)
    (st : Int × Option (Nat × Nat) × Machine σ) :
    runProtocol E index (pre ++ post) st = runProtocol E index post (runProtocol E index pre st) := by
  simp only [runProtocol, List.foldl_append]

/-- Lines 17-25 are the first two steps of the protocol. -/
theorem suspendHooks_eq_steps {σ : Type} (E : Env σ) (index : Nat)
    (handles : Option (Nat × Nat)) (res : Int) (m : Machine σ) :
    suspendHooks E index handles res m =
      runProtocolStep E index (runProtocolStep E index (res, handles, m)
        ProtocolStep.suspendTransfer) ProtocolStep.suspend := by
  have hsign : (0 ≤ res ∧ ¬ res < 0) ∨ (¬ 0 ≤ res ∧ res < 0) := by omega
  rcases hsign with ⟨h1, h2⟩ | ⟨h1, h2⟩ <;>
    rcases handles with _ | ⟨s, d⟩ <;> cases hop : m.data.op <;>
    cases hst : E.suspendTransfer <;> cases hs : E.suspend <;>
    simp only [suspendHooks, runProtocolStep, protocolHook, hop, hst, hs, h1, h2, R_SUCCEEDED,
      R_FAILED, reduceCtorEq, if_true, if_false, Machine.emit] <;>
    (try split_ifs) <;> first | rfl | omega

/-- Lines 29-37 are the last two steps of the protocol. -/
theorem restoreHooks_eq_steps {σ : Type} (E : Env σ) (index : Nat)
    (handles : Option (Nat × Nat)) (res : Int) (m : Machine σ) :
    restoreHooks E index handles res m =
      runProtocolStep E index (runProtocolStep E index (res, handles, m)
        ProtocolStep.restore) ProtocolStep.restoreTransfer := by
  have hsign : (0 ≤ res ∧ ¬ res < 0) ∨ (¬ 0 ≤ res ∧ res < 0) := by omega
  rcases hsign with ⟨h1, h2⟩ | ⟨h1, h2⟩ <;>
    rcases handles with _ | ⟨s, d⟩ <;> cases hop : m.data.op <;>
    cases hst : E.restoreTransfer <;> cases hs : E.restore <;>
    simp only [restoreHooks, runProtocolStep, protocolHook, hop, hst, hs, h1, h2, R_SUCCEEDED,
      R_FAILED, reduceCtorEq, if_true, if_false, Machine.emit] <;>
    (try split_ifs) <;> first | rfl | omega

theorem runProtocolStep_wait {σ : Type} (E : Env σ) (index : Nat)
    (st : Int × Option (Nat × Nat) × Machine σ) :
    runProtocolStep E index st ProtocolStep.waitResume =
      (st.1, st.2.1, st.2.2.emit
        (E.svcWaitSynchronization WaitTarget.pauseEvent U64_MAX st.2.2.world).2
        (Call.svcWaitSynchronization WaitTarget.pauseEvent U64_MAX
          (E.svcWaitSynchronization WaitTarget.pauseEvent U64_MAX st.2.2.world).1)) := rfl

/-- When the check is not cancelled, the code is the protocol of the spec: all
five steps in order when a suspend is asserted, the wait alone otherwise. -/
theorem check_running_eq_protocol {σ : Type} (E : Env σ) (codes : AppCodes) (index : Nat)
    (handles : Option (Nat × Nat)) (m : Machine σ)
    (hquit : (E.task_is_quit_all m.world).1 = false)
    (hcancel : (E.svcWaitSynchronization (WaitTarget.cancelEvent m.data.cancelEvent) 0
      (E.task_is_quit_all m.world).2).1 ≠ 0) :
    task_data_op_check_running E codes index handles m =
      if (suspendQuery E m).1 ≠ 0 then
        runProtocol E index protocolOrder (0, handles, (suspendQuery E m).2)
      else runProtocol E index [ProtocolStep.waitResume] (0, handles, (suspendQuery E m).2) := by
  have hc : ¬ (E.svcWaitSynchronization (WaitTarget.cancelEvent
      (m.emit (E.task_is_quit_all m.world).2
        (Call.task_is_quit_all (E.task_is_quit_all m.world).1)).data.cancelEvent) 0
      (m.emit (E.task_is_quit_all m.world).2
        (Call.task_is_quit_all (E.task_is_quit_all m.world).1)).world).1 = 0 := hcancel
  have hq : ¬ (E.task_is_quit_all m.world).1 = true := by rw [hquit]; exact Bool.false_ne_true
  by_cases hs : (suspendQuery E m).1 ≠ 0
  · rw [if_pos hs, runProtocol_order, ← suspendHooks_eq_steps]
    refine Eq.trans ?_ (restoreHooks_eq_steps E index _ _ _)
    simp only [task_data_op_check_running, suspendQuery] at hs ⊢
    rw [if_neg hq, if_neg hc]
    simp only [hs, ne_eq, not_false_eq_true, decide_True, if_true]
  · rw [if_neg hs]
    simp only [task_data_op_check_running, suspendQuery, runProtocol, List.foldl,
      runProtocolStep_wait] at hs ⊢
    rw [if_neg hq, if_neg hc]
    simp only [hs, decide_False, Bool.false_eq_true, if_false]

/-- After a failure a step of the protocol keeps the failure and invokes no hook. -/
theorem runProtocolStep_failed {σ : Type} (E : Env σ) (index : Nat)
    (st : Int × Option (Nat × Nat) × Machine σ) (step : ProtocolStep) (h : R_FAILED st.1) :
    (runProtocolStep E index st step).1 = st.1 ∧
    (runProtocolStep E index st step).2.2.log.filter Call.isHook =
      st.2.2.log.filter Call.isHook := by
  unfold runProtocolStep
  by_cases hw : step = ProtocolStep.waitResume
  · rw [if_pos hw]
    simp [Call.isHook]
  · rw [if_neg hw, if_pos h]
    exact ⟨rfl, rfl⟩

/-- After a failure the rest of the protocol keeps the failure and invokes no hook. -/
theorem runProtocol_failed {σ : Type} (E : Env σ) (index : Nat) (steps : List ProtocolStep) :
    ∀ st : Int × Option (Nat × Nat) × Machine σ, R_FAILED st.1 →
      (runProtocol E index steps st).1 = st.1 ∧
      (runProtocol E index steps st).2.2.log.filter Call.isHook =
        st.2.2.log.filter Call.isHook := by
  induction steps with
  | nil => intro st _; exact ⟨rfl, rfl⟩
  | cons step rest ih =>
    intro st h
    have h1 := runProtocolStep_failed E index st step h
    have h2 := ih (runProtocolStep E index st step) (by rw [h1.1]; exact h)
    exact ⟨h2.1.trans h1.1, h2.2.trans h1.2⟩

theorem suspendQuery_hooks {σ : Type} (E : Env σ) (m : Machine σ) :
    (suspendQuery E m).2.log.filter Call.isHook = m.log.filter Call.isHook := by
  simp [suspendQuery, Call.isHook]

/-- C14. Suspend hook ordering in `task_data_op_check_running`.  When the check
is not cancelled and a suspend is asserted, the code is the protocol run in
the order transfer-suspend hook, suspend hook, wait for resume, restore hook,
transfer-restore hook, where a hook runs when it is present (the transfer
hooks on a copy with handles only) and no earlier hook has failed.  Once the
steps run so far have left a failure, that failure is the value returned and
no later hook is invoked.  When no suspend is asserted the check returns 0
and invokes no hook. -/
theorem suspend_protocol_order {σ : Type} (E : Env σ) (codes : AppCodes) (index : Nat)
    (handles : Option (Nat × Nat)) (m : Machine σ)
    (hquit : (E.task_is_quit_all m.world).1 = false)
    (hcancel : (E.svcWaitSynchronization (WaitTarget.cancelEvent m.data.cancelEvent) 0
      (E.task_is_quit_all m.world).2).1 ≠ 0) :
    ((suspendQuery E m).1 ≠ 0 →
      task_data_op_check_running E codes index handles m =
        runProtocol E index protocolOrder (0, handles, (suspendQuery E m).2)) ∧
    (∀ pre post : List ProtocolStep, protocolOrder = pre ++ post →
      (suspendQuery E m).1 ≠ 0 →
      R_FAILED (runProtocol E index pre (0, handles, (suspendQuery E m).2)).1 →
      (task_data_op_check_running E codes index handles m).1 =
        (runProtocol E index pre (0, handles, (suspendQuery E m).2)).1 ∧
      (task_data_op_check_running E codes index handles m).2.2.log.filter Call.isHook =
        (runProtocol E index pre (0, handles, (suspendQuery E m).2)).2.2.log.filter
          Call.isHook) ∧
    ((suspendQuery E m).1 = 0 →
      (task_data_op_check_running E codes index handles m).1 = 0 ∧
      (task_data_op_check_running E codes index handles m).2.2.log.filter Call.isHook =
        m.log.filter Call.isHook) := by
  have key := check_running_eq_protocol E codes index handles m hquit hcancel
  refine ⟨fun hs => by rw [key, if_pos hs], fun pre post hsplit hs hfail => ?_, fun hs => ?_⟩
  · rw [key, if_pos hs, hsplit, runProtocol_append]
    exact runProtocol_failed E index post _ hfail
  · rw [key, if_neg (not_not.mpr hs)]
    refine ⟨rfl, ?_⟩
    rw [← suspendQuery_hooks E m]
    simp [runProtocol, runProtocolStep_wait, Call.isHook]

theorem suspend_protocol_order_witness :
    (task_data_op_check_running (scriptedEnv suspendedScenario) sampleCodes 0 (some (1, 2))
        (startMachine [0, -9, 0, 0] data_op.DATAOP_COPY 1 false)).1 = -9 ∧
    (task_data_op_check_running (scriptedEnv suspendedScenario) sampleCodes 0 (some (1, 2))
        (startMachine [0, -9, 0, 0] data_op.DATAOP_COPY 1 false)).2.2.log.filter Call.isHook =
      [Call.suspendTransfer 0 1 2 0 1 2, Call.suspend 0 (-9)] :=
  (suspend_protocol_order (scriptedEnv suspendedScenario) sampleCodes 0 (some (1, 2))
    (startMachine [0, -9, 0, 0] data_op.DATAOP_COPY 1 false) rfl (by decide)).2.1
    [ProtocolStep.suspendTransfer, ProtocolStep.suspend]
    [ProtocolStep.waitResume, ProtocolStep.restore, ProtocolStep.restoreTransfer]
    rfl (by decide) (by decide)

/-! ## Fuel: a call that returns does so with any larger fuel -/

theorem copyLoop_fuel_mono {σ : Type} (E : Env σ) (codes : AppCodes) (index : Nat) :
    ∀ (fuel : Nat) (l : CopyLocals) (m : Machine σ) (r : CopyLocals × Machine σ),
      copyLoop E codes index fuel l m = some r →
      ∀ fuel2, fuel ≤ fuel2 → copyLoop E codes index fuel2 l m = some r := by
  intro fuel
  induction fuel with
  | zero => intro l m r h; simp [copyLoop] at h
  | succ f ih =>
    intro l m r h fuel2 hle
    obtain ⟨g, rfl⟩ : ∃ g, fuel2 = g + 1 := ⟨fuel2 - 1, by omega⟩
    simp only [copyLoop] at h ⊢
    by_cases hc : m.data.currProcessed < m.data.currTotal
    · rw [if_pos hc] at h ⊢
      by_cases hb : (copyChunk E codes index l m).2.2 = true
      · rw [if_pos hb] at h ⊢
        exact h
      · rw [if_neg hb] at h ⊢
        exact ih _ _ _ h g (by omega)
    · rw [if_neg hc] at h ⊢
      exact h

theorem copyStream_fuel_mono {σ : Type} (E : Env σ) (codes : AppCodes) (fuel fuel2 : Nat)
    (index srcHandle : Nat) (m : Machine σ) (r : Int × Nat × Machine σ)
    (h : copyStream E codes fuel index srcHandle m = some r) (hle : fuel ≤ fuel2) :
    copyStream E codes fuel2 index srcHandle m = some r := by
  simp only [copyStream] at h ⊢
  split at h
  · rename_i ha
    rw [if_pos ha]
    split at h
    · cases h
    · rename_i x hx
      rw [copyLoop_fuel_mono E codes index fuel _ _ _ hx fuel2 hle]
      exact h
  · rename_i ha
    rw [if_neg ha]
    exact h

theorem copyOpened_fuel_mono {σ : Type} (E : Env σ) (codes : AppCodes) (fuel fuel2 : Nat)
    (index srcHandle : Nat) (m : Machine σ) (r : Int × Machine σ)
    (h : copyOpened E codes fuel index srcHandle m = some r) (hle : fuel ≤ fuel2) :
    copyOpened E codes fuel2 index srcHandle m = some r := by
  by_cases hg : R_SUCCEEDED (E.getSrcSize srcHandle m.world).1
  · by_cases hz : (E.getSrcSize srcHandle m.world).2.1 = 0
    · simp only [copyOpened, hg, hz, if_true] at h ⊢
      exact h
    · simp only [copyOpened, hg, hz, if_true, if_false] at h ⊢
      split at h
      · cases h
      · rename_i x hx
        rw [copyStream_fuel_mono E codes fuel fuel2 _ _ _ _ hx hle]
        exact h
  · simp only [copyOpened, hg, if_false] at h ⊢
    exact h

theorem task_data_op_copy_fuel_mono {σ : Type} (E : Env σ) (codes : AppCodes)
    (fuel fuel2 : Nat) (index : Nat) (m : Machine σ) (r : Int × Machine σ)
    (h : task_data_op_copy E codes fuel index m = some r) (hle : fuel ≤ fuel2) :
    task_data_op_copy E codes fuel2 index m = some r := by
  simp only [task_data_op_copy] at h ⊢
  split at h
  · rename_i hd
    rw [if_pos hd]
    exact h
  · rename_i hd
    rw [if_neg hd]
    split at h
    · rename_i ho
      rw [if_pos ho]
      exact copyOpened_fuel_mono E codes fuel fuel2 _ _ _ _ h hle
    · rename_i ho
      rw [if_neg ho]
      exact h

theorem runItem_fuel_mono {σ : Type} (E : Env σ) (codes : AppCodes) (fuel fuel2 : Nat)
    (m : Machine σ) (r : Int × Machine σ)
    (h : runItem E codes fuel m = some r) (hle : fuel ≤ fuel2) :
    runItem E codes fuel2 m = some r := by
  by_cases hs : R_SUCCEEDED (task_data_op_check_running E codes m.data.processed none m).1
  · cases hop : (task_data_op_check_running E codes m.data.processed none m).2.2.data.op
    · simp only [runItem, hs, hop, if_true] at h ⊢
      exact task_data_op_copy_fuel_mono E codes fuel fuel2 _ _ _ h hle
    · simp only [runItem, hs, hop, if_true] at h ⊢
      exact h
    · simp only [runItem, hs, hop, if_true] at h ⊢
      exact h
  · simp only [runItem, hs, if_false] at h ⊢
    exact h

/-! ## Runs that go through every item -/

theorem askRetry_result {σ : Type} (E : Env σ) (codes : AppCodes) (m : Machine σ) :
    (askRetry E codes m).2.data.result = m.data.result := by
  simp only [askRetry]
  repeat' split
  all_goals simp [task_data_op_retry_onresponse]

/-- After an item whose outcome advances, the loop body does not break, leaves
the cursor and the total as the item found them, and has stored the item's
outcome in `result`. -/
theorem handleOutcome_advances {σ : Type} (E : Env σ) (codes : AppCodes) (fuel : Nat)
    (m : Machine σ) (r : Int × Machine σ) (hrun : runItem E codes fuel m = some r)
    (hadv : ItemAdvances E codes r) :
    (handleOutcome E codes r.1 r.2).2 = false ∧
    (handleOutcome E codes r.1 r.2).1.data.processed = m.data.processed ∧
    (handleOutcome E codes r.1 r.2).1.data.total = m.data.total ∧
    (handleOutcome E codes r.1 r.2).1.data.result = r.1 := by
  have hctl := runItem_control E codes fuel m r hrun
  have hp : r.2.data.processed = m.data.processed := control_processed hctl
  have ht : r.2.data.total = m.data.total := control_total hctl
  have plain : ∀ h : handleOutcome E codes r.1 r.2 = (storeResult r.1 r.2, false),
      (handleOutcome E codes r.1 r.2).2 = false ∧
      (handleOutcome E codes r.1 r.2).1.data.processed = m.data.processed ∧
      (handleOutcome E codes r.1 r.2).1.data.total = m.data.total ∧
      (handleOutcome E codes r.1 r.2).1.data.result = r.1 := by
    intro h
    rw [h]
    exact ⟨rfl, hp, ht, rfl⟩
  by_cases hf : R_FAILED r.1
  · have skipped : r.1 ≠ codes.R_APP_CANCELLED → r.1 = codes.R_APP_SKIPPED →
        handleOutcome E codes r.1 r.2 = (storeResult r.1 r.2, false) := by
      intro hc hs
      simp only [handleOutcome]
      rw [if_pos hf, if_neg hc, if_neg (not_not.mpr hs)]
    rcases hadv with hok | ⟨hc, hs⟩ | ⟨hc, hproceed, response, hans, hno⟩
    · exact absurd hf (not_lt.mpr hok)
    · exact plain (skipped hc hs)
    · by_cases hs : r.1 = codes.R_APP_SKIPPED
      · exact plain (skipped hc hs)
      · have ha := askRetry_answered E codes _ response hans
        have hpc := prompt_cursor E codes fuel m r.2 r.1 hrun
        have hdec : decide (response = codes.PROMPT_YES) = false := decide_eq_false hno
        rw [handleOutcome_retry E codes r.1 r.2 hf hc hs,
          retryCoordinator_policy E codes r.1 _ ha.1, ha.2, hdec, hproceed]
        refine ⟨rfl, hpc.1, hpc.2, ?_⟩
        show (askRetry E codes (callErrorHandler E r.1 (storeResult r.1 r.2)).2).2.data.result = r.1
        rw [askRetry_result, callErrorHandler_data]
        rfl
  · apply plain
    simp only [handleOutcome]
    rw [if_neg hf]

/-- The loop from a state with `k` items left, each of which returns and
advances: with enough fuel it ends at `processed = total` with the outcome of
the last item in `result`. -/
theorem threadLoop_advances {σ : Type} (E : Env σ) (codes : AppCodes) :
    ∀ (k : Nat) (m : Machine σ) (prev last : Int),
      RunAdvances E codes k m prev last → m.data.processed + k = m.data.total →
      m.data.total < 4294967296 → m.data.result = prev →
      ∃ F, ∀ fuel, F ≤ fuel → ∃ mf, threadLoop E codes fuel m = some mf ∧
        mf.data.processed = m.data.total ∧ mf.data.result = last := by
  intro k
  induction k with
  | zero =>
    intro m prev last h hk _ hr
    refine ⟨1, fun fuel hle => ?_⟩
    obtain ⟨g, rfl⟩ : ∃ g, fuel = g + 1 := ⟨fuel - 1, by omega⟩
    have hi : ¬ m.data.processed < m.data.total := by omega
    refine ⟨m, ?_, by omega, ?_⟩
    · simp only [threadLoop]
      rw [if_neg hi]
    · rw [hr]
      exact h.symm
  | succ k ih =>
    intro m prev last h hk h32 _
    obtain ⟨f0, r, hrun, hadv, hrest⟩ := h
    have hi : m.data.processed < m.data.total := by omega
    obtain ⟨hb, hp, ht, hres⟩ := handleOutcome_advances E codes f0 m r hrun hadv
    have hp2 : (forIncrement (handleOutcome E codes r.1 r.2).1).data.processed =
        m.data.processed + 1 := (nextItem_after_increment _ _ _ hp ht hi h32).1
    have ht2 : (forIncrement (handleOutcome E codes r.1 r.2).1).data.total = m.data.total := ht
    have hr2 : (forIncrement (handleOutcome E codes r.1 r.2).1).data.result = r.1 := hres
    have hk2 : (forIncrement (handleOutcome E codes r.1 r.2).1).data.processed + k =
        (forIncrement (handleOutcome E codes r.1 r.2).1).data.total := by
      rw [hp2, ht2]; omega
    obtain ⟨F, hF⟩ := ih _ r.1 last hrest hk2 (by rw [ht2]; exact h32) hr2
    refine ⟨max f0 F + 1, fun fuel hle => ?_⟩
    obtain ⟨g, rfl⟩ : ∃ g, fuel = g + 1 := ⟨fuel - 1, by omega⟩
    have hg0 : f0 ≤ g := by omega
    have hgF : F ≤ g := by omega
    have hrun2 := runItem_fuel_mono E codes f0 g m r hrun hg0
    have hbody : loopBody E codes g m = some ((handleOutcome E codes r.1 r.2).1, false) := by
      rw [loopBody_of_runItem E codes g m r.2 r.1 hrun2, ← hb]
    rw [threadLoop_continue E codes g m _ hi hbody]
    obtain ⟨mf, h1, h2, h3⟩ := hF g hgF
    exact ⟨mf, h1, h2.trans ht2, h3⟩

/-- C16. Run completion of `task_data_op_thread`.  Take a run over `total`
items (a `u32`) started with `result = 0`, as `task_data_op` leaves it, in
which each of the `total` items executed returns and is neither an abort nor a
cancellation: it succeeds, or is Skipped, or fails with `proceed = true` and a
retry prompt answered with no.  Then with enough fuel the worker returns, and
it ends with `processed = total`, `finished = true` and `result` equal to the
outcome of the last item executed, which is 0 when `total = 0`. -/
theorem run_completes {σ : Type} (E : Env σ) (codes : AppCodes) (m : Machine σ) (last : Int)
    (h32 : m.data.total < 4294967296) (hres : m.data.result = 0)
    (hrun : RunAdvances E codes m.data.total (restartCursor m) 0 last) :
    (m.data.total = 0 → last = 0) ∧
    ∃ F, ∀ fuel, F ≤ fuel → ∃ mf, task_data_op_thread E codes fuel m = some mf ∧
      mf.data.processed = m.data.total ∧ mf.data.finished = true ∧
      mf.data.result = last := by
  constructor
  · intro h0
    rw [h0] at hrun
    exact hrun
  · obtain ⟨F, hF⟩ := threadLoop_advances E codes m.data.total (restartCursor m) 0 last hrun
      (Nat.zero_add _) h32 hres
    refine ⟨F, fun fuel hle => ?_⟩
    obtain ⟨mf, h1, h2, h3⟩ := hF fuel hle
    have hx := threadExit_spec E mf
    refine ⟨threadExit E mf, ?_, hx.2.2.2.trans h2, hx.2.1, hx.2.2.1.trans h3⟩
    simp only [task_data_op_thread, workerFrom, h1, Option.map_some']

theorem run_completes_witness :
    ((startMachine [0, -7, 0] data_op.DATAOP_DELETE 3 false).data.total = 0 → (0 : Int) = 0) ∧
    ∃ F, ∀ fuel, F ≤ fuel → ∃ mf,
      task_data_op_thread (scriptedEnv (plainScenario 0 true (some 1))) sampleCodes fuel
        (startMachine [0, -7, 0] data_op.DATAOP_DELETE 3 false) = some mf ∧
      mf.data.processed = 3 ∧ mf.data.finished = true ∧ mf.data.result = 0 :=
  run_completes (scriptedEnv (plainScenario 0 true (some 1))) sampleCodes
    (startMachine [0, -7, 0] data_op.DATAOP_DELETE 3 false) 0 (by decide) rfl
    ⟨0, _, rfl, Or.inl (by decide),
      0, _, rfl, Or.inr (Or.inr ⟨by decide, rfl, 1, ⟨rfl, rfl⟩, by decide⟩),
      0, _, rfl, Or.inl (by decide), rfl⟩

end DataOp
